import Mathlib

/-!
# Rolling grid SDF: shift controller, block evictor and block persistence

A shallow embedding of `kangaroo/GridSDF/RollingGridSDF-Mesh.h` and
`kangaroo/GridSDF/SavePPMGrid.h`.

Conventions of the embedding:

* `int` values are `Int`, `unsigned int` grid sizes and array indices are `Nat`.
  The flag arrays of `NextResetSDF` and the block array `m_GridVolumes`
  (C arrays of `MAX_SUPPORT_GRID_NUM` entries) are maps from the index to the
  stored value; the code only touches indices below `w * h * d`.
* `float` values are rationals (exact arithmetic).
* a `for` loop over `0 .. n` is a left fold over `List.range n`, in source order.
-/

namespace roo

/-! ## Data model -/

/-- CUDA `int3`. -/
structure Int3 where
  x : Int
  y : Int
  z : Int
deriving DecidableEq

/-- CUDA `float3`, in exact arithmetic. -/
structure Float3 where
  x : ℚ
  y : ℚ
  z : ℚ
deriving DecidableEq

/-- The world-space box `roo::BoundingBox` with its two corners. -/
structure BoundingBox where
  boxmin : Float3
  boxmax : Float3
deriving DecidableEq

/-- Modelled from the spec: `BoundingBox::Size()` is declared in
`BoundingBox.h`, which is not among the sources; the box size on an axis is
the distance between the max and the min corner. -/
def BoundingBox.Size (b : BoundingBox) : Float3 :=
  ⟨b.boxmax.x - b.boxmin.x, b.boxmax.y - b.boxmin.y, b.boxmax.z - b.boxmin.z⟩

/-- One block `roo::VolumeGrid<T,...>`: recorded dimensions and the raw
storage (`none` when no storage is attached), as a sequence of bytes. -/
structure VolumeGrid where
  w : Nat
  h : Nat
  d : Nat
  ptr : Option (List Nat)
deriving DecidableEq

/-- The window `roo::BoundedVolumeGrid<T,...>`: the fields the embedded code
reads or writes. -/
structure BoundedVolumeGrid where
  m_bbox : BoundingBox
  m_nGridRes_w : Nat
  m_nGridRes_h : Nat
  m_nGridRes_d : Nat
  m_local_shift : Int3
  m_global_shift : Int3
  m_GridVolumes : Nat → VolumeGrid

/-- Class `NextResetSDF`: the reset flag and the three axis flags per slot. -/
structure NextResetSDF where
  m_nNextResetSDFs : Nat → Int
  m_x : Nat → Int
  m_y : Nat → Int
  m_z : Nat → Int

/-- Store `a[n] = v` into an array, or into any map with decidable keys. -/
def setAt {κ α : Type} [DecidableEq κ] (a : κ → α) (n : κ) (v : α) : κ → α :=
  fun m => if m = n then v else a m

/-! ## RollingGridSDFMesh::GetGridSDFIndexNeedFree -/

/-- Body of the innermost loop of `GetGridSDFIndexNeedFree` for the cell
`(i, j, k)`: the four booleans are cleared, the three positive-shift tests may
set them, the three negative-shift tests have an empty body (the assignments
are commented out in the source; the y and z tests compare `i`), and the four
flags are stored at `nIndex`. -/
def GetGridSDFIndexNeedFree.cell (pVol : BoundedVolumeGrid) (CurLocalShift : Int3)
    (t : NextResetSDF) (i j k : Nat) : NextResetSDF :=
  let ls := pVol.m_local_shift
  let bReset := false
  let bx := false
  let b_y := false
  let bz := false
  -- for x
  let posX : Bool := decide (CurLocalShift.x > 0 ∧
    (i : Int) ≥ ls.x - CurLocalShift.x ∧ (i : Int) < ls.x)
  let bx := if posX then true else bx
  let bReset := if posX then true else bReset
  let negX : Bool := decide (CurLocalShift.x < 0 ∧
    (i : Int) ≥ (pVol.m_nGridRes_w : Int) + ls.x ∧
    (i : Int) < (pVol.m_nGridRes_w : Int) + ls.x - CurLocalShift.x)
  let bx := if negX then bx else bx
  let bReset := if negX then bReset else bReset
  -- for y
  let posY : Bool := decide (CurLocalShift.y > 0 ∧
    (j : Int) ≥ ls.y - CurLocalShift.y ∧ (j : Int) < ls.y)
  let b_y := if posY then true else b_y
  let bReset := if posY then true else bReset
  let negY : Bool := decide (CurLocalShift.y < 0 ∧
    (i : Int) ≥ (pVol.m_nGridRes_h : Int) + ls.y ∧
    (i : Int) < (pVol.m_nGridRes_h : Int) + ls.y - CurLocalShift.y)
  let b_y := if negY then b_y else b_y
  let bReset := if negY then bReset else bReset
  -- for z
  let posZ : Bool := decide (CurLocalShift.z > 0 ∧
    (k : Int) ≥ ls.z - CurLocalShift.z ∧ (k : Int) < ls.z)
  let bz := if posZ then true else bz
  let bReset := if posZ then true else bReset
  let negZ : Bool := decide (CurLocalShift.z < 0 ∧
    (i : Int) ≥ (pVol.m_nGridRes_d : Int) + ls.z ∧
    (i : Int) < (pVol.m_nGridRes_d : Int) + ls.z - CurLocalShift.z)
  let bz := if negZ then bz else bz
  let bReset := if negZ then bReset else bReset
  -- set flag for grid that need to be freed
  let nIndex := i + pVol.m_nGridRes_w * (j + pVol.m_nGridRes_h * k)
  { m_nNextResetSDFs := setAt t.m_nNextResetSDFs nIndex (if bReset = true then 1 else 0)
    m_x := setAt t.m_x nIndex (if bx = true then 1 else 0)
    m_y := setAt t.m_y nIndex (if b_y = true then 1 else 0)
    m_z := setAt t.m_z nIndex (if bz = true then 1 else 0) }

/-- `GetGridSDFIndexNeedFree(pVol, CurLocalShift)` acting on the member table
`m_nNextResetSDFs`: the three nested loops run only when some component of
the shift is nonzero. -/
def GetGridSDFIndexNeedFree (pVol : BoundedVolumeGrid) (CurLocalShift : Int3)
    (t : NextResetSDF) : NextResetSDF :=
  if CurLocalShift.x ≠ 0 ∨ CurLocalShift.y ≠ 0 ∨ CurLocalShift.z ≠ 0 then
    (List.range pVol.m_nGridRes_w).foldl (fun t i =>
      (List.range pVol.m_nGridRes_h).foldl (fun t j =>
        (List.range pVol.m_nGridRes_d).foldl (fun t k =>
          GetGridSDFIndexNeedFree.cell pVol CurLocalShift t i j k) t) t) t
  else t

/-! ## RollingGridSDFMesh::UpdateShift -/

/-- `UpdateShift(pVol, shift_index)`. `BBSize` is read once, before any
write. `UpdateGlobalShift` is a method of `BoundedVolumeGrid` outside the
sources: the calls made to it are returned, in order, next to the window as
`UpdateShift` itself leaves it. -/
def UpdateShift (pVol : BoundedVolumeGrid) (shift_index : Int3) :
    BoundedVolumeGrid × List Int3 :=
  let BBSize := pVol.m_bbox.Size
  let bb := pVol.m_bbox
  let bb := if shift_index.x ≠ 0 then
      let bmin := bb.boxmin.x + (shift_index.x : ℚ) * BBSize.x / (pVol.m_nGridRes_w : ℚ)
      let bmax := bb.boxmax.x + (shift_index.x : ℚ) * BBSize.x / (pVol.m_nGridRes_w : ℚ)
      { boxmin := { bb.boxmin with x := bmin }, boxmax := { bb.boxmax with x := bmax } }
    else bb
  let bb := if shift_index.y ≠ 0 then
      let bmin := bb.boxmin.y + (shift_index.y : ℚ) * BBSize.y / (pVol.m_nGridRes_h : ℚ)
      let bmax := bb.boxmax.y + (shift_index.y : ℚ) * BBSize.y / (pVol.m_nGridRes_h : ℚ)
      { boxmin := { bb.boxmin with y := bmin }, boxmax := { bb.boxmax with y := bmax } }
    else bb
  let bb := if shift_index.z ≠ 0 then
      let bmin := bb.boxmin.z + (shift_index.z : ℚ) * BBSize.z / (pVol.m_nGridRes_d : ℚ)
      let bmax := bb.boxmax.z + (shift_index.z : ℚ) * BBSize.z / (pVol.m_nGridRes_d : ℚ)
      { boxmin := { bb.boxmin with z := bmin }, boxmax := { bb.boxmax with z := bmax } }
    else bb
  let calls : List Int3 :=
    if shift_index.x ≠ 0 ∨ shift_index.y ≠ 0 ∨ shift_index.z ≠ 0 then [shift_index] else []
  ({ pVol with m_bbox := bb }, calls)

/-! ## RollingGridSDFMesh::ResetAndFreeGird -/

/-- Modelled from the spec: `CheckIfBasicSDFActive` is a method of
`BoundedVolumeGrid` outside the sources; a slot is active when it is
allocated with nonzero dimensions. -/
def CheckIfBasicSDFActive (pVol : BoundedVolumeGrid) (i : Nat) : Bool :=
  decide ((pVol.m_GridVolumes i).w ≠ 0 ∧ (pVol.m_GridVolumes i).h ≠ 0 ∧
    (pVol.m_GridVolumes i).d ≠ 0)

/-- Modelled from the spec: `roo::SdfReset` is a fusion kernel outside the
sources; it resets the block content to the empty sentinel, every byte of the
attached storage being overwritten with the sentinel pattern `empty`. -/
def SdfReset (empty : Nat → Nat) (g : VolumeGrid) : VolumeGrid :=
  { g with ptr := g.ptr.map (fun data => (List.range data.length).map empty) }

/-- Modelled from the spec: `FreeMemoryByIndex` is a method of
`BoundedVolumeGrid` outside the sources; it releases the backing storage of
slot `i`. -/
def FreeMemoryByIndex (pVol : BoundedVolumeGrid) (i : Nat) : BoundedVolumeGrid :=
  { pVol with m_GridVolumes :=
      (setAt pVol.m_GridVolumes i { (pVol.m_GridVolumes i) with ptr := none }) }

/-- Body of the loop of `ResetAndFreeGird` for slot `i`. -/
def ResetAndFreeGird.slot (empty : Nat → Nat) (t : NextResetSDF)
    (pVol : BoundedVolumeGrid) (i : Nat) : BoundedVolumeGrid :=
  if t.m_nNextResetSDFs i = 1 ∧ CheckIfBasicSDFActive pVol i = true then
    let pVol := { pVol with m_GridVolumes :=
      (setAt pVol.m_GridVolumes i (SdfReset empty (pVol.m_GridVolumes i))) }
    let pVol := FreeMemoryByIndex pVol i
    let pVol := { pVol with m_GridVolumes :=
      (setAt pVol.m_GridVolumes i { (pVol.m_GridVolumes i) with d := 0 }) }
    let pVol := { pVol with m_GridVolumes :=
      (setAt pVol.m_GridVolumes i { (pVol.m_GridVolumes i) with w := 0 }) }
    let pVol := { pVol with m_GridVolumes :=
      (setAt pVol.m_GridVolumes i { (pVol.m_GridVolumes i) with h := 0 }) }
    pVol
  else pVol

/-- `ResetAndFreeGird(pVol)` with the member table `t`: one pass over the
slot indices `0 .. w*h*d - 1`. -/
def ResetAndFreeGird (empty : Nat → Nat) (t : NextResetSDF)
    (pVol : BoundedVolumeGrid) : BoundedVolumeGrid :=
  (List.range (pVol.m_nGridRes_w * pVol.m_nGridRes_h * pVol.m_nGridRes_d)).foldl
    (fun pVol i => ResetAndFreeGird.slot empty t pVol i) pVol

end roo

namespace roo

/-! ## Byte strings, decimal text and the input stream

`std::string` values and file contents are sequences of bytes (`List Nat`,
ASCII codes for text). -/

/-- Digits of `n` in base 10, most significant first, as ASCII bytes, pushed
in front of `acc`; `fuel` bounds the number of digits. -/
def decimalAux : Nat → Nat → List Nat → List Nat
  | 0, _, acc => acc
  | fuel + 1, n, acc =>
    if n / 10 = 0 then (48 + n % 10) :: acc
    else decimalAux fuel (n / 10) ((48 + n % 10) :: acc)

/-- Decimal text of an unsigned value, as `operator<<` prints it. -/
def decimalNat (n : Nat) : List Nat := decimalAux (n + 1) n []

/-- `std::to_string(int)`, also the text `operator<<(int)` prints: a minus
sign (45) for negative values, then the decimal digits. -/
def to_string (z : Int) : List Nat :=
  if z < 0 then 45 :: decimalNat z.natAbs else decimalNat z.natAbs

/-- `isspace` in the C locale: space, `\t`, `\n`, `\v`, `\f`, `\r`. -/
def isspace (c : Nat) : Bool := decide (c = 32 ∨ (9 ≤ c ∧ c ≤ 13))

/-- `isdigit`: the bytes `'0'` .. `'9'`. -/
def isdigit (c : Nat) : Bool := decide (48 ≤ c ∧ c ≤ 57)

/-- Value of a run of digit bytes read after the value `acc`. -/
def digitsValue (acc : Nat) (ds : List Nat) : Nat :=
  ds.foldl (fun a c => 10 * a + (c - 48)) acc

/-- Largest `int`. -/
def INT_MAX : Int := 2147483647

/-- Smallest `int`. -/
def INT_MIN : Int := -2147483648

/-- A `std::ifstream`: the bytes not yet read, `eofbit` and `failbit`. -/
structure IStream where
  buf : List Nat
  eofbit : Bool
  failbit : Bool
deriving DecidableEq

/-- Opening a file for reading: a missing file leaves the stream failed. -/
def IStream.open (file : Option (List Nat)) : IStream :=
  match file with
  | none => ⟨[], false, true⟩
  | some b => ⟨b, false, false⟩

/-- `good()`: no state bit is set. -/
def IStream.good (s : IStream) : Bool := !s.eofbit && !s.failbit

/-- `fail()`. -/
def IStream.fail (s : IStream) : Bool := s.failbit

/-- The `sentry` every input function constructs first: a stream that is
not good gets `failbit` and the function does nothing; otherwise, unless
`noskipws`, leading whitespace is discarded, and reaching the end of the
file while doing so sets `failbit | eofbit`. -/
def IStream.sentry (s : IStream) (noskipws : Bool) : IStream × Bool :=
  if s.good = false then ({ s with failbit := true }, false)
  else if noskipws then (s, true)
  else
    match s.buf.dropWhile isspace with
    | [] => (⟨[], true, true⟩, false)
    | c :: rest => ({ s with buf := c :: rest }, true)

/-- `bFile >> str` for a `std::string`: the bytes up to the next whitespace
or the end of the file; `old` is kept when the sentry fails. -/
def IStream.readString (s : IStream) (old : List Nat) : IStream × List Nat :=
  match s.sentry false with
  | (s, false) => (s, old)
  | (s, true) =>
    let tok := s.buf.takeWhile (fun c => !isspace c)
    let rest := s.buf.dropWhile (fun c => !isspace c)
    (⟨rest, decide (rest = []), decide (tok = [])⟩, tok)

/-- `bFile >> n` for an `int`: an optional sign, then the longest run of
digits. No digit gives `failbit` and the value 0; a value outside the `int`
range gives `failbit` and the nearest bound; `old` is kept when the sentry
fails. -/
def IStream.readInt (s : IStream) (old : Int) : IStream × Int :=
  match s.sentry false with
  | (s, false) => (s, old)
  | (s, true) =>
    let neg : Bool := decide (s.buf.head? = some 45)
    let body := if s.buf.head? = some 45 ∨ s.buf.head? = some 43 then s.buf.tail else s.buf
    let ds := body.takeWhile isdigit
    let rest := body.dropWhile isdigit
    let v : Int := if neg then -(digitsValue 0 ds : Int) else (digitsValue 0 ds : Int)
    if ds = [] then (⟨rest, decide (rest = []), true⟩, 0)
    else if v > INT_MAX then (⟨rest, decide (rest = []), true⟩, INT_MAX)
    else if v < INT_MIN then (⟨rest, decide (rest = []), true⟩, INT_MIN)
    else (⟨rest, decide (rest = []), false⟩, v)

/-- `bFile.ignore(1, '\n')`: one byte is discarded. -/
def IStream.ignore1 (s : IStream) : IStream :=
  match s.sentry true with
  | (s, false) => s
  | (s, true) =>
    match s.buf with
    | [] => { s with eofbit := true }
    | _ :: rest => { s with buf := rest }

/-- `bFile.read(p, n)`: the next `n` bytes; when fewer are left they are
all delivered and `failbit | eofbit` is set. -/
def IStream.read (s : IStream) (n : Nat) : IStream × List Nat :=
  match s.sentry true with
  | (s, false) => (s, [])
  | (s, true) =>
    if s.buf.length < n then (⟨[], true, true⟩, s.buf)
    else ({ s with buf := s.buf.drop n }, s.buf.take n)

/-- The file system: the content of each named file, if it exists. -/
abbrev FileSystem := List Nat → Option (List Nat)

/-- Creating (or truncating) the file `name` with content `bytes`. -/
def FileSystem.write (fs : FileSystem) (name : List Nat) (bytes : List Nat) : FileSystem :=
  fun n => if n = name then some bytes else fs n

/-! ## The block container, as far as persistence uses it -/

/-- The bytes of a block's storage (none when nothing is attached). -/
def VolumeGrid.bytes (g : VolumeGrid) : List Nat := g.ptr.getD []

/-- Modelled from the spec: `VolumeGrid::RowPtr` is declared outside the
sources; the payload is laid out row-major within each depth slice, so row
`r` of slice `d` starts `(d * h + r)` rows of `w * sizeof(T)` bytes into the
storage. -/
def VolumeGrid.RowPtr (sizeofT : Nat) (g : VolumeGrid) (r d : Nat) : Nat :=
  (d * g.h + r) * (g.w * sizeofT)

/-- Modelled from the spec: `VolumeGrid::InitVolume` is declared outside the
sources; it records the three dimensions and attaches storage for
`w * h * d` voxels (zero bytes here). -/
def VolumeGrid.InitVolume (sizeofT : Nat) (w h d : Nat) : VolumeGrid :=
  ⟨w, h, d, some (List.replicate (w * h * d * sizeofT) 0)⟩

/-- Storing `row` into the block's storage at byte offset `off`. -/
def VolumeGrid.storeRow (g : VolumeGrid) (off : Nat) (row : List Nat) : VolumeGrid :=
  { g with ptr := some (g.bytes.take off ++ row ++ g.bytes.drop (off + row.length)) }

/-- Modelled from the spec: `BoundedVolumeGrid::init` is declared outside
the sources; it gives a freshly initialised window with the dimensions of
`like` over the box `bbox`: no block is allocated and the shifts are zero. -/
def BoundedVolumeGrid.init (like : BoundedVolumeGrid) (bbox : BoundingBox) :
    BoundedVolumeGrid :=
  { like with
    m_bbox := bbox
    m_local_shift := ⟨0, 0, 0⟩
    m_global_shift := ⟨0, 0, 0⟩
    m_GridVolumes := fun _ => ⟨0, 0, 0, none⟩ }

/-- Modelled from the spec: `BoundedVolumeGrid::CopyAndInitFrom` is declared
outside the sources; it is the whole-block copy between the host-resident
and the accelerator-resident window: every block of `src` is copied. -/
def BoundedVolumeGrid.CopyAndInitFrom (dst src : BoundedVolumeGrid) : BoundedVolumeGrid :=
  { dst with m_GridVolumes := src.m_GridVolumes }

/-- Modelled from the spec: `GetActiveGridVolNum` is declared outside the
sources; it is the number of active slots of the window. -/
def GetActiveGridVolNum (pVol : BoundedVolumeGrid) : Nat :=
  ((List.range (pVol.m_nGridRes_w * pVol.m_nGridRes_h * pVol.m_nGridRes_d)).filter
    (fun n => CheckIfBasicSDFActive pVol n)).length

/-- What the persistence code takes from outside the sources: the size of a
voxel, the global-index and bounding-box queries of the window, and the text
form of floating-point values. -/
structure External where
  sizeofT : Nat
  GetGlobalIndex : BoundedVolumeGrid → Nat → Nat → Nat → Int3
  GetDesireBB : BoundedVolumeGrid → Int3 → BoundingBox
  printBB : BoundingBox → List Nat
  parseBB : List Nat → BoundingBox

/-! ## SavePPMGrid.h: saving -/

/-- `SavePXM(bFile, vol, ppm_type, num_colors)` for a host block: the bytes
written to the file. The tag is followed by `std::endl`, the three
dimensions are separated by spaces, and each row is written with one
`write` of `w * sizeof(T)` bytes from `RowPtr(r, d)`. -/
def SavePXM (sizeofT : Nat) (vol : VolumeGrid) (ppm_type : List Nat) (num_colors : Int) :
    List Nat :=
  let bFile := ppm_type ++ [10]
  let bFile := bFile ++ decimalNat vol.w ++ [32] ++ decimalNat vol.h ++ [32] ++
    decimalNat vol.d ++ [10]
  let bFile := bFile ++ to_string num_colors ++ [10]
  (List.range vol.d).foldl (fun bFile d =>
    (List.range vol.h).foldl (fun bFile r =>
      bFile ++ (vol.bytes.drop (vol.RowPtr sizeofT r d)).take (vol.w * sizeofT)) bFile) bFile

/-- `SavePXMBoundingBox(filename, BBox)`: the six bounds as text. -/
def SavePXMBoundingBox (ext : External) (filename : List Nat) (BBox : BoundingBox)
    (fs : FileSystem) : FileSystem :=
  fs.write filename (ext.printBB BBox)

/-- `CheckIfBBfileExist(filename)`. -/
def CheckIfBBfileExist (fs : FileSystem) (filename : List Nat) : Bool :=
  if (IStream.open (fs filename)).fail = true then false else true

/-- `CheckifSaveBB(sFilename, GlobalIndex, rDVol)`: the bounding box of the
global cell is written to `<name>-BB-<gx>-<gy>-<gz>` unless that file exists. -/
def CheckifSaveBB (ext : External) (sFilename : List Nat) (GlobalIndex : Int3)
    (rDVol : BoundedVolumeGrid) (fs : FileSystem) : FileSystem :=
  let sBBFileName := sFilename ++ [45, 66, 66, 45] ++ to_string GlobalIndex.x ++ [45] ++
    to_string GlobalIndex.y ++ [45] ++ to_string GlobalIndex.z
  if CheckIfBBfileExist fs sBBFileName = false then
    SavePXMBoundingBox ext sBBFileName (ext.GetDesireBB rDVol GlobalIndex) fs
  else fs

/-- The name `SavePXMGridDesire` gives the file of the cell `LocalIndex`. -/
def SavePXMGridDesire.fileName (sPathName : List Nat) (GlobalIndex LocalIndex : Int3)
    (bSaveGlobalPose : Bool) : List Nat :=
  if bSaveGlobalPose = false then
    sPathName ++ [45] ++ to_string LocalIndex.x ++ [45] ++
      to_string LocalIndex.y ++ [45] ++ to_string LocalIndex.z
  else
    sPathName ++ [45] ++
      to_string GlobalIndex.x ++ [45] ++ to_string GlobalIndex.y ++ [45] ++
      to_string GlobalIndex.z ++ [45] ++ to_string LocalIndex.x ++ [45] ++
      to_string LocalIndex.y ++ [45] ++ to_string LocalIndex.z

/-- The global index `SavePXMGridDesire` uses for the cell `(i, j, k)`: the
window's, overridden per axis by the global shift where the axis flag is 1. -/
def SavePXMGridDesire.globalIndex (ext : External) (pFlagX pFlagY pFlagZ : Nat → Int)
    (rDVol : BoundedVolumeGrid) (i j k : Nat) : Int3 :=
  let nGridIndex := i + rDVol.m_nGridRes_w * (j + rDVol.m_nGridRes_h * k)
  let GlobalIndex := ext.GetGlobalIndex rDVol i j k
  let GlobalIndex := if pFlagX nGridIndex = 1
    then { GlobalIndex with x := rDVol.m_global_shift.x } else GlobalIndex
  let GlobalIndex := if pFlagY nGridIndex = 1
    then { GlobalIndex with y := rDVol.m_global_shift.y } else GlobalIndex
  let GlobalIndex := if pFlagZ nGridIndex = 1
    then { GlobalIndex with z := rDVol.m_global_shift.z } else GlobalIndex
  GlobalIndex

/-- Body of the innermost loop of `SavePXMGridDesire` for the cell
`(i, j, k)`; the state is the file system and `nSaveGridNum`. -/
def SavePXMGridDesire.cell (ext : External) (sPathName : List Nat)
    (pGridNeedSave pFlagX pFlagY pFlagZ : Nat → Int) (rDVol hvol : BoundedVolumeGrid)
    (bSaveGlobalPose bSaveBBox : Bool) (ppm_type : List Nat) (num_colors : Int)
    (st : FileSystem × Nat) (i j k : Nat) : FileSystem × Nat :=
  let nGridIndex := i + rDVol.m_nGridRes_w * (j + rDVol.m_nGridRes_h * k)
  if pGridNeedSave nGridIndex = 1 ∧ CheckIfBasicSDFActive hvol nGridIndex = true then
    let GlobalIndex := SavePXMGridDesire.globalIndex ext pFlagX pFlagY pFlagZ rDVol i j k
    let LocalIndex : Int3 := ⟨i, j, k⟩
    let sGridFileName :=
      SavePXMGridDesire.fileName sPathName GlobalIndex LocalIndex bSaveGlobalPose
    let fs := st.1.write sGridFileName
      (SavePXM ext.sizeofT (hvol.m_GridVolumes nGridIndex) ppm_type num_colors)
    let nSaveGridNum := st.2 + 1
    let fs := if bSaveBBox = true then CheckifSaveBB ext sPathName GlobalIndex rDVol fs else fs
    (fs, nSaveGridNum)
  else st

/-- `SavePXMGridDesire(sPathName, pGridNeedSave, pFlagX, pFlagY, pFlagZ,
rDVol, bSaveGlobalPose, bSaveBBox, ppm_type, num_colors)`: the file system
after the call and the number of blocks saved. -/
def SavePXMGridDesire (ext : External) (sPathName : List Nat)
    (pGridNeedSave pFlagX pFlagY pFlagZ : Nat → Int) (rDVol : BoundedVolumeGrid)
    (bSaveGlobalPose bSaveBBox : Bool) (ppm_type : List Nat) (num_colors : Int)
    (fs : FileSystem) : FileSystem × Nat :=
  if GetActiveGridVolNum rDVol = 0 then (fs, 0)
  else
    let hvol := (BoundedVolumeGrid.init rDVol rDVol.m_bbox).CopyAndInitFrom rDVol
    let hvol := { hvol with m_global_shift := rDVol.m_global_shift }
    (List.range rDVol.m_nGridRes_w).foldl (fun st i =>
      (List.range rDVol.m_nGridRes_h).foldl (fun st j =>
        (List.range rDVol.m_nGridRes_d).foldl (fun st k =>
          SavePXMGridDesire.cell ext sPathName pGridNeedSave pFlagX pFlagY pFlagZ rDVol hvol
            bSaveGlobalPose bSaveBBox ppm_type num_colors st i j k) st) st) (fs, 0)

/-! ## SavePPMGrid.h: loading -/

/-- `LoadPXMSingleGrid(filename, vol)` on the content of the named file
(`none` when it does not exist): the returned flag and the block. The header
is four formatted reads and one `ignore`; the rows are read only when the
header was read and the three dimensions are positive, and the function then
returns `true` whatever the state of the stream after the rows. -/
def LoadPXMSingleGrid (sizeofT : Nat) (file : Option (List Nat)) (vol : VolumeGrid) :
    Bool × VolumeGrid :=
  let bFile := IStream.open file
  let r := bFile.readString [80, 53]
  let r_w := r.1.readInt 0
  let r_h := r_w.1.readInt 0
  let r_d := r_h.1.readInt 0
  let r_c := r_d.1.readInt 0
  let bFile := r_c.1.ignore1
  let w := r_w.2
  let h := r_h.2
  let d := r_d.2
  let success : Bool := !bFile.fail && decide (w > 0) && decide (h > 0) && decide (d > 0)
  if success then
    let vol := VolumeGrid.InitVolume sizeofT w.toNat h.toNat d.toNat
    let st := (List.range vol.d).foldl (fun st d =>
      (List.range vol.h).foldl (fun (st : IStream × VolumeGrid) r =>
        let row := st.1.read (vol.w * sizeofT)
        (row.1, st.2.storeRow (vol.RowPtr sizeofT r d) row.2)) st) (bFile, vol)
    (true, st.2)
  else (false, vol)

/-- `LoadPXMBoundingBox(filename)`: `none` stands for the `exit(-1)` taken
when the file does not exist. -/
def LoadPXMBoundingBox (ext : External) (fs : FileSystem) (filename : List Nat) :
    Option BoundingBox :=
  if (IStream.open (fs filename)).fail = true then none
  else some (ext.parseBB ((fs filename).getD []))

/-- Scan of `find_last_of`: `i` is the index of the head of the list and
`best` the last match seen so far. -/
def find_last_of.go (c : Nat) : List Nat → Nat → Option Nat → Option Nat
  | [], _, best => best
  | x :: xs, i, best => find_last_of.go c xs (i + 1) (if x = c then some i else best)

/-- `s.find_last_of(c)` for a one-character pattern: the index of the last
occurrence; `none` stands for `std::string::npos`. -/
def find_last_of (s : List Nat) (c : Nat) : Option Nat := find_last_of.go c s 0 none

/-- `s.substr(pos, len)` for `pos <= s.size()`. -/
def substr (s : List Nat) (pos len : Nat) : List Nat := (s.drop pos).take len

/-- `std::atoi`: leading whitespace, an optional sign, then the longest run
of digits; 0 when there is no digit. -/
def atoi (s : List Nat) : Int :=
  let s := s.dropWhile isspace
  let body := if s.head? = some 45 ∨ s.head? = some 43 then s.tail else s
  let ds := body.takeWhile isdigit
  if s.head? = some 45 then -(digitsValue 0 ds : Int) else (digitsValue 0 ds : Int)

/-- The text `LoadPXMGrid` takes for the index,
`substr(find_last_of("-") + 1, size() - find_last_of("-"))`: what follows the
last `-` of the file name. Without any `-`, `npos + 1` wraps to 0 and
`size() - npos` to `size() + 1` in `size_t` arithmetic, which selects the
whole name. -/
def LoadPXMGrid.sIndex (sFileName : List Nat) : List Nat :=
  match find_last_of sFileName 45 with
  | some p => substr sFileName (p + 1) (sFileName.length - p)
  | none => substr sFileName 0 (sFileName.length + 1)

/-- Body of the loop of `LoadPXMGrid` for one file name; the state is the
host window and `nNum`, and `none` stands for the `exit(-1)` taken when a
block cannot be read. The `int` index subscripts `m_GridVolumes`; the
embedding subscripts with its `toNat`. -/
def LoadPXMGrid.file (ext : External) (fs : FileSystem) (sDirName : List Nat)
    (st : Option (BoundedVolumeGrid × Nat)) (sFileName : List Nat) :
    Option (BoundedVolumeGrid × Nat) :=
  match st with
  | none => none
  | some (hvol, nNum) =>
    let sIndex := LoadPXMGrid.sIndex sFileName
    if sIndex ≠ [66, 66] then
      let nIndex := (atoi sIndex).toNat
      let r := LoadPXMSingleGrid ext.sizeofT (fs (sDirName ++ sFileName))
        (hvol.m_GridVolumes nIndex)
      if r.1 = false then none
      else some ({ hvol with m_GridVolumes := setAt hvol.m_GridVolumes nIndex r.2 }, nNum + 1)
    else some (hvol, nNum)

/-- `LoadPXMGrid(sDirName, vfilename, sBBFileName, vol)`: `none` stands for
`exit(-1)`, otherwise the returned flag and the window. -/
def LoadPXMGrid (ext : External) (fs : FileSystem) (sDirName : List Nat)
    (vfilename : List (List Nat)) (sBBFileName : List Nat) (vol : BoundedVolumeGrid) :
    Option (Bool × BoundedVolumeGrid) :=
  match LoadPXMBoundingBox ext fs (sDirName ++ sBBFileName) with
  | none => none
  | some BBox =>
    let hvol := BoundedVolumeGrid.init vol BBox
    match vfilename.foldl (LoadPXMGrid.file ext fs sDirName) (some (hvol, 0)) with
    | none => none
    | some (hvol, _) => some (true, vol.CopyAndInitFrom hvol)

/-! ## Auxiliary definitions used by the statements -/

/-- Linear slot index `i + w * (j + h * k)` of the lattice cell `(i, j, k)`,
the expression `nIndex` of `GetGridSDFIndexNeedFree`. -/
def slotIndex (pVol : BoundedVolumeGrid) (c : Nat × Nat × Nat) : Nat :=
  c.1 + pVol.m_nGridRes_w * (c.2.1 + pVol.m_nGridRes_h * c.2.2)

/-- The lattice cells in the order the three nested loops visit them. -/
def latticeCells (w h d : Nat) : List (Nat × Nat × Nat) :=
  (List.range w).flatMap (fun i => (List.range h).flatMap (fun j =>
    (List.range d).map (fun k => (i, j, k))))

/-- The lattice cells whose entry in the flag array `flag` is 1. -/
def flaggedCells (pVol : BoundedVolumeGrid) (flag : Nat → Int) : Finset (Nat × Nat × Nat) :=
  ((Finset.range pVol.m_nGridRes_w) ×ˢ (Finset.range pVol.m_nGridRes_h) ×ˢ
    (Finset.range pVol.m_nGridRes_d)).filter (fun c => flag (slotIndex pVol c) = 1)

/-- An unallocated block. -/
def emptyGrid : VolumeGrid := ⟨0, 0, 0, none⟩

/-- A window of `w x h x d` unallocated slots over the box `[0,w] x [0,h] x [0,d]`. -/
def emptyWindow (w h d : Nat) (ls : Int3) : BoundedVolumeGrid :=
  { m_bbox := ⟨⟨0, 0, 0⟩, ⟨w, h, d⟩⟩
    m_nGridRes_w := w
    m_nGridRes_h := h
    m_nGridRes_d := d
    m_local_shift := ls
    m_global_shift := ⟨0, 0, 0⟩
    m_GridVolumes := fun _ => emptyGrid }

/-- A table with every entry equal to `v`. -/
def constTable (v : Int) : NextResetSDF := ⟨fun _ => v, fun _ => v, fun _ => v, fun _ => v⟩

/-- Value the loop body stores in `m_x` for the cell `c`. -/
def xFlag (pVol : BoundedVolumeGrid) (s : Int3) (c : Nat × Nat × Nat) : Int :=
  if s.x > 0 ∧ pVol.m_local_shift.x - s.x ≤ (c.1 : Int) ∧ (c.1 : Int) < pVol.m_local_shift.x
  then 1 else 0

/-- Value the loop body stores in `m_y` for the cell `c`. -/
def yFlag (pVol : BoundedVolumeGrid) (s : Int3) (c : Nat × Nat × Nat) : Int :=
  if s.y > 0 ∧ pVol.m_local_shift.y - s.y ≤ (c.2.1 : Int) ∧ (c.2.1 : Int) < pVol.m_local_shift.y
  then 1 else 0

/-- Value the loop body stores in `m_z` for the cell `c`. -/
def zFlag (pVol : BoundedVolumeGrid) (s : Int3) (c : Nat × Nat × Nat) : Int :=
  if s.z > 0 ∧ pVol.m_local_shift.z - s.z ≤ (c.2.2 : Int) ∧ (c.2.2 : Int) < pVol.m_local_shift.z
  then 1 else 0

/-- Value the loop body stores in `m_nNextResetSDFs` for the cell `c`. -/
def resetFlag (pVol : BoundedVolumeGrid) (s : Int3) (c : Nat × Nat × Nat) : Int :=
  if xFlag pVol s c = 1 ∨ yFlag pVol s c = 1 ∨ zFlag pVol s c = 1 then 1 else 0

/-- A window of `w x h x d` slots that all hold the block `g`. -/
def filledWindow (w h d : Nat) (ls : Int3) (g : VolumeGrid) : BoundedVolumeGrid :=
  { emptyWindow w h d ls with m_GridVolumes := fun _ => g }

/-- The window after `N` iterations of the loop of `ResetAndFreeGird`, in
closed form: the flagged active slots below `N` are zeroed and released. -/
def resetSlots (t : NextResetSDF) (pVol : BoundedVolumeGrid) (N : Nat) : BoundedVolumeGrid :=
  { pVol with m_GridVolumes := fun n =>
      if n < N ∧ t.m_nNextResetSDFs n = 1 ∧ CheckIfBasicSDFActive pVol n = true
      then ⟨0, 0, 0, none⟩ else pVol.m_GridVolumes n }

/-- A 2x1x1 window with local shift (1,0,0) whose two slots hold an active
one-voxel block. -/
def staleWindow : BoundedVolumeGrid := filledWindow 2 1 1 ⟨1, 0, 0⟩ ⟨1, 1, 1, some [5]⟩

/-- The table left in place by a shift of `staleWindow` by (1,0,0). -/
def staleTable : NextResetSDF := GetGridSDFIndexNeedFree staleWindow ⟨1, 0, 0⟩ (constTable 0)

/-- The rows `SavePXM` writes after the header, slice by slice. -/
def payloadRows (sizeofT : Nat) (vol : VolumeGrid) : List Nat :=
  (List.range vol.d).flatMap (fun d => (List.range vol.h).flatMap (fun r =>
    (vol.bytes.drop (vol.RowPtr sizeofT r d)).take (vol.w * sizeofT)))

/-- The header `SavePXM` writes: tag line, dimension line, colour-depth line. -/
def pxmHeader (vol : VolumeGrid) (ppm_type : List Nat) (num_colors : Int) : List Nat :=
  ppm_type ++ [10] ++ decimalNat vol.w ++ [32] ++ decimalNat vol.h ++ [32] ++
    decimalNat vol.d ++ [10] ++ to_string num_colors ++ [10]

/-- The stream and the block after `q` rows of the record have been read
by `LoadPXMSingleGrid`: `payload` is what follows the header and `Q` the
number of rows. -/
def loadState (payload : List Nat) (w h d rb Q q : Nat) : IStream × VolumeGrid :=
  (⟨payload.drop (q * rb), false, false⟩,
   ⟨w, h, d, some (payload.take (q * rb) ++ List.replicate ((Q - q) * rb) 0)⟩)

/-- A block is well formed for a voxel of `sizeofT` bytes when its three
dimensions fit an `int` and its storage holds exactly `w * h * d` voxels. -/
def VolumeGrid.wellFormed (sizeofT : Nat) (g : VolumeGrid) : Prop :=
  (g.w : Int) ≤ INT_MAX ∧ (g.h : Int) ≤ INT_MAX ∧ (g.d : Int) ≤ INT_MAX ∧
    g.ptr.map List.length = some (g.w * g.h * g.d * sizeofT)

instance (sizeofT : Nat) (g : VolumeGrid) : Decidable (g.wellFormed sizeofT) := by
  unfold VolumeGrid.wellFormed
  infer_instance

/-- A tag `SavePXM` can write and `LoadPXMSingleGrid` reads back as one
token: not empty and free of whitespace. -/
def validTag (ppm_type : List Nat) : Prop :=
  ppm_type ≠ [] ∧ ∀ c ∈ ppm_type, isspace c = false

instance (ppm_type : List Nat) : Decidable (validTag ppm_type) := by
  unfold validTag
  infer_instance

/-- Sample collaborators: one-byte voxels, the local index as global index,
the window box for every global cell, and an empty text for boxes. -/
def sampleExternal : External :=
  { sizeofT := 1
    GetGlobalIndex := fun _ i j k => ⟨i, j, k⟩
    GetDesireBB := fun pVol _ => pVol.m_bbox
    printBB := fun _ => []
    parseBB := fun _ => ⟨⟨0, 0, 0⟩, ⟨0, 0, 0⟩⟩ }

/-- A window of `w x h x d` slots whose slot 0 holds a one-voxel block with
payload 7, slot 1 one with payload 9, and whose other slots are unallocated. -/
def twoBlockWindow (w h d : Nat) : BoundedVolumeGrid :=
  { emptyWindow w h d ⟨0, 0, 0⟩ with
    m_GridVolumes := fun n =>
      if n = 0 then ⟨1, 1, 1, some [7]⟩ else if n = 1 then ⟨1, 1, 1, some [9]⟩ else emptyGrid }

/-- A file system that holds only the bounding-box file `d/m-BB`. -/
def sampleFiles : FileSystem := FileSystem.write (fun _ => none) [100, 47, 109, 45, 66, 66] []

/-- The file system after saving every active block of `twoBlockWindow w h d`
under the path `d/m`, with local names and default tag and colour depth. -/
def savedFiles (w h d : Nat) : FileSystem :=
  (SavePXMGridDesire sampleExternal [100, 47, 109] (fun _ => 1) (fun _ => 0) (fun _ => 0)
    (fun _ => 0) (twoBlockWindow w h d) false false [80, 53] 255 sampleFiles).1

/-- The files of a file system that are not bounding-box files of the path
`sPathName` (names starting with `<sPathName>-B`). -/
def blockFiles (sPathName : List Nat) (fs : FileSystem) : FileSystem :=
  fun n => if (sPathName ++ [45, 66]) <+: n then none else fs n

/-- The file name and the block record `SavePXMGridDesire` writes for a cell. -/
def savedName (ext : External) (sPathName : List Nat) (pFlagX pFlagY pFlagZ : Nat → Int)
    (rDVol : BoundedVolumeGrid) (bSaveGlobalPose : Bool) (c : Nat × Nat × Nat) : List Nat :=
  SavePXMGridDesire.fileName sPathName
    (SavePXMGridDesire.globalIndex ext pFlagX pFlagY pFlagZ rDVol c.1 c.2.1 c.2.2)
    ⟨c.1, c.2.1, c.2.2⟩ bSaveGlobalPose

/-- The host window after `LoadPXMGrid` has read the files `vfilename`, when
every read succeeds: each file stores the block `blockOf f` at the index
read from its name. -/
def loadedWindow (blockOf : List Nat → VolumeGrid) (vfilename : List (List Nat))
    (hvol : BoundedVolumeGrid) : BoundedVolumeGrid :=
  vfilename.foldl (fun hvol f => { hvol with m_GridVolumes :=
    (setAt hvol.m_GridVolumes (atoi (LoadPXMGrid.sIndex f)).toNat (blockOf f)) }) hvol

/-- The number of lattice cells `SavePXMGridDesire` saves: those that are
active and have their mask entry set. -/
def savedCount (pGridNeedSave : Nat → Int) (rDVol : BoundedVolumeGrid) : Nat :=
  ((latticeCells rDVol.m_nGridRes_w rDVol.m_nGridRes_h rDVol.m_nGridRes_d).filter
    (fun c => decide (pGridNeedSave (slotIndex rDVol c) = 1 ∧
      CheckIfBasicSDFActive rDVol (slotIndex rDVol c) = true))).length

/-- A file system with the bounding-box file `d/m-BB` and the truncated
block record `d/m-0`: the header of a 2x1x1 block of one-byte voxels and one
payload byte instead of two. -/
def truncatedFiles : FileSystem :=
  FileSystem.write sampleFiles [100, 47, 109, 45, 48]
    (pxmHeader ⟨2, 1, 1, none⟩ [80, 53] 255 ++ [7])

/-! ## MarchingCubesGrid.h: fGetOffset and vMarchCubeGrid

Floats are exact rationals; a value that would be non-finite (division by zero, a
non-finite sample) is `none`. -/

/-- Float division `a / b`: dividing by zero gives a non-finite value, written `none`. -/
def fdiv (a b : ℚ) : Option ℚ :=
  if b = 0 then none else some (a / b)

/-- The function `fGetOffset(fValue1, fValue2, fValueDesired)`. -/
def fGetOffset (fValue1 fValue2 fValueDesired : ℚ) : Option ℚ :=
  let fDelta := fValue2 - fValue1
  if fDelta = 0 then some (1 / 2)
  else fdiv (fValueDesired - fValue1) fDelta

/-- The conversion `int(f)` of a float to `int`: truncation toward zero. -/
def truncToInt (f : ℚ) : Int :=
  if 0 ≤ f then ⌊f⌋ else ⌈f⌉

/-- The tables of `kangaroo/MarchingCubesTables.h` that `vMarchCubeGrid` reads by index;
the header is not among the sources, so the tables are taken as parameters. -/
structure MarchingCubesTables where
  a2fVertexOffset : Nat → Nat → ℚ
  a2iEdgeConnection : Nat → Nat → Nat
  a2fEdgeDirection : Nat → Nat → ℚ
  a2iTriangleConnectionTable : Nat → Nat → Int

/-- Corner `c` is inside the surface in the 8-bit pattern `iFlagIndex`. -/
def cornerInside (iFlagIndex c : Nat) : Bool :=
  iFlagIndex.testBit c

/-- Edge `iEdge` is crossed in the pattern `iFlagIndex`: its two corners, read from
`a2iEdgeConnection`, are classified differently. -/
def edgeCrossed (T : MarchingCubesTables) (iFlagIndex iEdge : Nat) : Bool :=
  cornerInside iFlagIndex (T.a2iEdgeConnection iEdge 0)
    != cornerInside iFlagIndex (T.a2iEdgeConnection iEdge 1)

/-- Modelled from the spec: the table `aiCubeEdgeFlags` of `kangaroo/MarchingCubesTables.h`
is missing from the sources. The spec describes it as the configuration table keyed by the
8-bit inside/outside pattern that gives which of the 12 cube edges are crossed: bit `iEdge`
of the entry is set exactly when edge `iEdge` is crossed in that pattern. -/
def aiCubeEdgeFlags (T : MarchingCubesTables) (iFlagIndex : Nat) : Nat :=
  (List.range 12).foldl
    (fun flags iEdge => if edgeCrossed T iFlagIndex iEdge = true then flags ||| (1 <<< iEdge)
      else flags) 0

/-- What `vMarchCubeGrid` uses of the scalar window `vol`. The class `BoundedVolumeGrid` is
not among the sources, so its methods are taken as parameters: `value x y z` is `vol(x,y,z)`
converted to float (`none` when non-finite) and `unitNormal pt` is
`GetUnitsBackwardDiffDxDyDz(pt) / length(..)`, component by component. -/
structure ScalarField where
  VoxelPositionInUnits : Int → Int → Int → Float3
  VoxelSizeUnits : Float3
  CheckIfVoxelExist : Int → Int → Int → Bool
  value : Int → Int → Int → Option ℚ
  unitNormal : Option Float3 → Option ℚ × Option ℚ × Option ℚ

/-- What `vMarchCubeGrid` uses of the colour window `volColor`: `color pt` is
`ConvertPixel<float3,TColor>(volColor.GetUnitsTrilinearClamped(pt))`. -/
structure ColorField where
  IsValid : Bool
  color : Option Float3 → Float3

/-- The contents of the local arrays of `vMarchCubeGrid` before anything is stored in them. -/
structure LocalArrays where
  afCubeValue : Nat → ℚ
  asEdgeVertex : Int → Option Float3
  asEdgeNorm : Int → Float3

/-- The four output vectors `verts`, `norms`, `faces`, `colors`; a vertex with a non-finite
coordinate is `none`, a face is its list of indices. -/
structure MeshBuffers where
  verts : List (Option Float3)
  norms : List Float3
  faces : List (List Nat)
  colors : List (ℚ × ℚ × ℚ × ℚ)
deriving DecidableEq

/-- The voxel of corner `iVertex` of the cube at `(x, y, z)`. -/
def vMarchCubeGrid.cornerVoxel (T : MarchingCubesTables) (x y z : Int) (iVertex : Nat) :
    Int × Int × Int :=
  (truncToInt ((x : ℚ) + T.a2fVertexOffset iVertex 0),
   truncToInt ((y : ℚ) + T.a2fVertexOffset iVertex 1),
   truncToInt ((z : ℚ) + T.a2fVertexOffset iVertex 2))

/-- One pass of the first loop of `vMarchCubeGrid`; `none` stands for `return`. -/
def vMarchCubeGrid.cornerStep (T : MarchingCubesTables) (vol : ScalarField) (x y z : Int)
    (acc : Option (Nat → ℚ)) (iVertex : Nat) : Option (Nat → ℚ) :=
  match acc with
  | none => none
  | some afCubeValue =>
    let c := vMarchCubeGrid.cornerVoxel T x y z iVertex
    if vol.CheckIfVoxelExist c.1 c.2.1 c.2.2 = true then
      match vol.value c.1 c.2.1 c.2.2 with
      | some v => some (setAt afCubeValue iVertex v)
      | none => none
    else none

/-- The first loop of `vMarchCubeGrid`: the local copy of the corner values. -/
def vMarchCubeGrid.corners (T : MarchingCubesTables) (vol : ScalarField) (x y z : Int)
    (u : LocalArrays) : Option (Nat → ℚ) :=
  (List.range 8).foldl (vMarchCubeGrid.cornerStep T vol x y z) (some u.afCubeValue)

/-- The second loop of `vMarchCubeGrid`: the inside/outside pattern. -/
def vMarchCubeGrid.flagIndex (afCubeValue : Nat → ℚ) (fTargetValue : ℚ) : Nat :=
  (List.range 8).foldl
    (fun iFlagIndex iVertexTest =>
      if afCubeValue iVertexTest ≤ fTargetValue then iFlagIndex ||| (1 <<< iVertexTest)
      else iFlagIndex) 0

/-- The crossing point stored in `asEdgeVertex[iEdge]`. -/
def vMarchCubeGrid.edgeVertex (T : MarchingCubesTables) (p fScale : Float3)
    (afCubeValue : Nat → ℚ) (fTargetValue : ℚ) (iEdge : Nat) : Option Float3 :=
  let fOffset := fGetOffset (afCubeValue (T.a2iEdgeConnection iEdge 0))
    (afCubeValue (T.a2iEdgeConnection iEdge 1)) fTargetValue
  fOffset.map (fun f =>
    { x := p.x + (T.a2fVertexOffset (T.a2iEdgeConnection iEdge 0) 0
            + f * T.a2fEdgeDirection iEdge 0) * fScale.x,
      y := p.y + (T.a2fVertexOffset (T.a2iEdgeConnection iEdge 0) 1
            + f * T.a2fEdgeDirection iEdge 1) * fScale.y,
      z := p.z + (T.a2fVertexOffset (T.a2iEdgeConnection iEdge 0) 2
            + f * T.a2fEdgeDirection iEdge 2) * fScale.z })

/-- The normal stored in `asEdgeNorm[iEdge]`: the zero vector when a component is
non-finite. -/
def vMarchCubeGrid.edgeNorm (vol : ScalarField) (v : Option Float3) : Float3 :=
  match vol.unitNormal v with
  | (some nx, some ny, some nz) => { x := nx, y := ny, z := nz }
  | _ => { x := 0, y := 0, z := 0 }

/-- The third loop of `vMarchCubeGrid`: crossing point and normal of every flagged edge. -/
def vMarchCubeGrid.edges (T : MarchingCubesTables) (vol : ScalarField) (p fScale : Float3)
    (afCubeValue : Nat → ℚ) (fTargetValue : ℚ) (iEdgeFlags : Nat) (u : LocalArrays) :
    (Int → Option Float3) × (Int → Float3) :=
  (List.range 12).foldl
    (fun st iEdge =>
      if iEdgeFlags &&& (1 <<< iEdge) ≠ 0 then
        let v := vMarchCubeGrid.edgeVertex T p fScale afCubeValue fTargetValue iEdge
        (setAt st.1 (iEdge : Int) v, setAt st.2 (iEdge : Int) (vMarchCubeGrid.edgeNorm vol v))
      else st)
    (u.asEdgeVertex, u.asEdgeNorm)

/-- The inner loop over `iCorner`: one vertex, one normal and, with a valid colour window,
one colour are pushed; the face index is the vertex count before the push. -/
def vMarchCubeGrid.corner (T : MarchingCubesTables) (volColor : ColorField) (iFlagIndex : Nat)
    (asEdgeVertex : Int → Option Float3) (asEdgeNorm : Int → Float3) (iTriangle : Nat)
    (st : MeshBuffers × List Nat) (iCorner : Nat) : MeshBuffers × List Nat :=
  let iVertex := T.a2iTriangleConnectionTable iFlagIndex (3 * iTriangle + iCorner)
  let b := st.1
  let sColor := volColor.color (asEdgeVertex iVertex)
  ({ b with
      verts := b.verts ++ [asEdgeVertex iVertex],
      norms := b.norms ++ [asEdgeNorm iVertex],
      colors := if volColor.IsValid = true
        then b.colors ++ [(sColor.x, sColor.y, sColor.z, 1)] else b.colors },
   st.2 ++ [b.verts.length])

/-- One pass of the loop over `iTriangle`; the Boolean records that `break` was taken. -/
def vMarchCubeGrid.triangle (T : MarchingCubesTables) (volColor : ColorField)
    (iFlagIndex : Nat) (asEdgeVertex : Int → Option Float3) (asEdgeNorm : Int → Float3)
    (st : MeshBuffers × Bool) (iTriangle : Nat) : MeshBuffers × Bool :=
  if st.2 = true then st
  else if T.a2iTriangleConnectionTable iFlagIndex (3 * iTriangle) < 0 then (st.1, true)
  else
    let r := (List.range 3).foldl
      (vMarchCubeGrid.corner T volColor iFlagIndex asEdgeVertex asEdgeNorm iTriangle)
      (st.1, [])
    ({ r.1 with faces := r.1.faces ++ [r.2] }, false)

/-- The last loop of `vMarchCubeGrid`: the triangles of the pattern are appended. -/
def vMarchCubeGrid.triangles (T : MarchingCubesTables) (volColor : ColorField)
    (iFlagIndex : Nat) (asEdgeVertex : Int → Option Float3) (asEdgeNorm : Int → Float3)
    (b : MeshBuffers) : MeshBuffers :=
  ((List.range 5).foldl
    (vMarchCubeGrid.triangle T volColor iFlagIndex asEdgeVertex asEdgeNorm) (b, false)).1

/-- The function `vMarchCubeGrid(vol, volColor, x, y, z, verts, norms, faces, colors,
fTargetValue)`; the result is the new contents of the four output vectors. -/
def vMarchCubeGrid (T : MarchingCubesTables) (vol : ScalarField) (volColor : ColorField)
    (u : LocalArrays) (x y z : Int) (b : MeshBuffers) (fTargetValue : ℚ) : MeshBuffers :=
  let p := vol.VoxelPositionInUnits x y z
  let fScale := vol.VoxelSizeUnits
  match vMarchCubeGrid.corners T vol x y z u with
  | none => b
  | some afCubeValue =>
    let iFlagIndex := vMarchCubeGrid.flagIndex afCubeValue fTargetValue
    let iEdgeFlags := aiCubeEdgeFlags T iFlagIndex
    if iEdgeFlags = 0 then b
    else
      let e := vMarchCubeGrid.edges T vol p fScale afCubeValue fTargetValue iEdgeFlags u
      vMarchCubeGrid.triangles T volColor iFlagIndex e.1 e.2 b

/-- The world position of corner `c` of the cube whose origin voxel lies at `p`. -/
def vMarchCubeGrid.cornerPosition (T : MarchingCubesTables) (p fScale : Float3) (c : Nat) :
    Float3 :=
  { x := p.x + T.a2fVertexOffset c 0 * fScale.x,
    y := p.y + T.a2fVertexOffset c 1 * fScale.y,
    z := p.z + T.a2fVertexOffset c 2 * fScale.z }

/-- The point `P` lies on the segment from `A` to `B`. -/
def onSegment (A B P : Float3) : Prop :=
  ∃ f : ℚ, 0 ≤ f ∧ f ≤ 1 ∧ P.x = A.x + f * (B.x - A.x) ∧ P.y = A.y + f * (B.y - A.y)
    ∧ P.z = A.z + f * (B.z - A.z)

/-- The direction listed for edge `iEdge` leads from its first corner to its second. -/
def MarchingCubesTables.edgeDirected (T : MarchingCubesTables) (iEdge : Nat) : Prop :=
  ∀ k, k < 3 → T.a2fEdgeDirection iEdge k
    = T.a2fVertexOffset (T.a2iEdgeConnection iEdge 1) k
      - T.a2fVertexOffset (T.a2iEdgeConnection iEdge 0) k

/-- Sample tables for the unit cube: corner offsets, edge connections and directions of the
usual corner numbering, and the triangle rows of the eight patterns with a single inside
corner; every other row is empty. -/
def sampleTables : MarchingCubesTables where
  a2fVertexOffset := fun c k =>
    (([[0, 0, 0], [1, 0, 0], [1, 1, 0], [0, 1, 0], [0, 0, 1], [1, 0, 1], [1, 1, 1], [0, 1, 1]]
      : List (List ℚ)).getD c []).getD k 0
  a2iEdgeConnection := fun e k =>
    (([[0, 1], [1, 2], [2, 3], [3, 0], [4, 5], [5, 6], [6, 7], [7, 4], [0, 4], [1, 5], [2, 6],
      [3, 7]] : List (List Nat)).getD e []).getD k 0
  a2fEdgeDirection := fun e k =>
    (([[1, 0, 0], [0, 1, 0], [-1, 0, 0], [0, -1, 0], [1, 0, 0], [0, 1, 0], [-1, 0, 0],
      [0, -1, 0], [0, 0, 1], [0, 0, 1], [0, 0, 1], [0, 0, 1]] : List (List ℚ)).getD e []).getD k 0
  a2iTriangleConnectionTable := fun i k =>
    if i = 1 then ([0, 8, 3] : List Int).getD k (-1)
    else if i = 2 then ([0, 1, 9] : List Int).getD k (-1)
    else if i = 4 then ([1, 2, 10] : List Int).getD k (-1)
    else if i = 8 then ([3, 11, 2] : List Int).getD k (-1)
    else if i = 16 then ([4, 7, 8] : List Int).getD k (-1)
    else if i = 32 then ([9, 5, 4] : List Int).getD k (-1)
    else if i = 64 then ([10, 6, 5] : List Int).getD k (-1)
    else if i = 128 then ([7, 6, 11] : List Int).getD k (-1)
    else -1

/-- A sample scalar window: the voxels with coordinates 0 or 1 exist, the value at
`(x, y, z)` is `x + y + z - 1/2`, voxels have unit size and the normal points along `z`. -/
def sampleField : ScalarField where
  VoxelPositionInUnits := fun x y z => { x := x, y := y, z := z }
  VoxelSizeUnits := { x := 1, y := 1, z := 1 }
  CheckIfVoxelExist := fun x y z =>
    decide (0 ≤ x ∧ x ≤ 1 ∧ 0 ≤ y ∧ y ≤ 1 ∧ 0 ≤ z ∧ z ≤ 1)
  value := fun x y z => some ((x : ℚ) + y + z - 1 / 2)
  unitNormal := fun _ => (some 0, some 0, some 1)

/-- The corner values of the cube at the origin of `sampleField`. -/
def sampleValues (i : Nat) : ℚ :=
  ([-1 / 2, 1 / 2, 3 / 2, 1 / 2, 1 / 2, 3 / 2, 5 / 2, 3 / 2] : List ℚ).getD i 0

/-- A colour window that is not valid. -/
def noColor : ColorField where
  IsValid := false
  color := fun _ => { x := 0, y := 0, z := 0 }

/-- A valid colour window of constant colour. -/
def sampleColor : ColorField where
  IsValid := true
  color := fun _ => { x := 1, y := 0, z := 0 }

/-- Local arrays holding zeros. -/
def zeroArrays : LocalArrays where
  afCubeValue := fun _ => 0
  asEdgeVertex := fun _ => some { x := 0, y := 0, z := 0 }
  asEdgeNorm := fun _ => { x := 0, y := 0, z := 0 }

/-- The four output vectors when empty. -/
def emptyBuffers : MeshBuffers where
  verts := []
  norms := []
  faces := []
  colors := []

/-- Both corners listed for each of the 12 edges are corners of the cube. -/
def MarchingCubesTables.cornersInRange (T : MarchingCubesTables) : Prop :=
  ∀ e, e < 12 → T.a2iEdgeConnection e 0 < 8 ∧ T.a2iEdgeConnection e 1 < 8

/-- The buffers after one triangle of the pattern has been appended. -/
def vMarchCubeGrid.pushTriangle (T : MarchingCubesTables) (volColor : ColorField)
    (iFlagIndex : Nat) (asEdgeVertex : Int → Option Float3) (asEdgeNorm : Int → Float3)
    (b : MeshBuffers) (iTriangle : Nat) : MeshBuffers :=
  let i0 := T.a2iTriangleConnectionTable iFlagIndex (3 * iTriangle)
  let i1 := T.a2iTriangleConnectionTable iFlagIndex (3 * iTriangle + 1)
  let i2 := T.a2iTriangleConnectionTable iFlagIndex (3 * iTriangle + 2)
  let c := fun i => ((volColor.color (asEdgeVertex i)).x, (volColor.color (asEdgeVertex i)).y,
    (volColor.color (asEdgeVertex i)).z, (1 : ℚ))
  { verts := b.verts ++ [asEdgeVertex i0, asEdgeVertex i1, asEdgeVertex i2],
    norms := b.norms ++ [asEdgeNorm i0, asEdgeNorm i1, asEdgeNorm i2],
    faces := b.faces ++ [[b.verts.length, b.verts.length + 1, b.verts.length + 2]],
    colors := if volColor.IsValid = true then b.colors ++ [c i0, c i1, c i2] else b.colors }

/-- The faces appended by a call that enters with `n` vertices and appends `t` triangles. -/
def newFaces (n t : Nat) : List (List Nat) :=
  (List.range t).map (fun m => [n + 3 * m, n + 3 * m + 1, n + 3 * m + 2])

/-- One call of `vMarchCubeGrid` with all its arguments but the output vectors. -/
structure MarchCall where
  T : MarchingCubesTables
  vol : ScalarField
  volColor : ColorField
  u : LocalArrays
  x : Int
  y : Int
  z : Int
  fTargetValue : ℚ

/-- A sequence of calls of `vMarchCubeGrid` on the same output vectors. -/
def runCalls (calls : List MarchCall) (b : MeshBuffers) : MeshBuffers :=
  calls.foldl (fun b c => vMarchCubeGrid c.T c.vol c.volColor c.u c.x c.y c.z b c.fTargetValue) b

/-- Edge `e` is incident to corner `v`: exactly one of its two listed corners is `v`. -/
def MarchingCubesTables.incident (T : MarchingCubesTables) (e v : Nat) : Prop :=
  (T.a2iEdgeConnection e 0 = v ∧ T.a2iEdgeConnection e 1 ≠ v)
  ∨ (T.a2iEdgeConnection e 0 ≠ v ∧ T.a2iEdgeConnection e 1 = v)

/-- Modelled from the spec: the table `a2iTriangleConnectionTable` of
`kangaroo/MarchingCubesTables.h` is missing from the sources. The spec describes it as the
triangulation table, up to five triangles per pattern ended by a sentinel, that gives one
triangle's worth of edge crossings for a single inside corner: the row of the pattern
`1 <<< v` lists three distinct edges `e0, e1, e2` incident to corner `v` and then a negative
entry. -/
def MarchingCubesTables.oneCornerRow (T : MarchingCubesTables) (v e0 e1 e2 : Nat) : Prop :=
  T.a2iTriangleConnectionTable (1 <<< v) 0 = (e0 : Int)
  ∧ T.a2iTriangleConnectionTable (1 <<< v) 1 = (e1 : Int)
  ∧ T.a2iTriangleConnectionTable (1 <<< v) 2 = (e2 : Int)
  ∧ T.a2iTriangleConnectionTable (1 <<< v) 3 < 0
  ∧ e0 < 12 ∧ e1 < 12 ∧ e2 < 12 ∧ e0 ≠ e1 ∧ e0 ≠ e2 ∧ e1 ≠ e2
  ∧ T.incident e0 v ∧ T.incident e1 v ∧ T.incident e2 v

/-! ## Lemmas on array stores and loops -/

theorem setAt_same {κ α : Type} [DecidableEq κ] (a : κ → α) (n : κ) (v : α) :
    setAt a n v n = v := by
  simp [setAt]

theorem setAt_other {κ α : Type} [DecidableEq κ] (a : κ → α) (n m : κ) (v : α) (h : m ≠ n) :
    setAt a n v m = a m := by
  simp [setAt, h]

/-- A loop of stores leaves untouched every index that no iteration writes. -/
theorem foldl_store_frame {σ α β : Type} (p : σ → Nat → β) (f : σ → α → σ)
    (key : α → Nat) (val : α → β)
    (hf : ∀ t a, p (f t a) = setAt (p t) (key a) (val a)) :
    ∀ (L : List α) (t : σ) (n : Nat), (∀ a ∈ L, key a ≠ n) →
      p (L.foldl f t) n = p t n := by
  intro L
  induction L with
  | nil => intro t n _; rfl
  | cons a L ih =>
    intro t n h
    rw [List.foldl_cons, ih (f t a) n (fun b hb => h b (List.mem_cons_of_mem _ hb)), hf,
      setAt_other _ _ _ _ (fun e => h a (List.mem_cons_self _ _) e.symm)]

/-- A loop of stores in which every write to index `n` stores `v`, and which
writes `n` at least once, ends with `v` at `n`. -/
theorem foldl_store_hit {σ α β : Type} (p : σ → Nat → β) (f : σ → α → σ)
    (key : α → Nat) (val : α → β)
    (hf : ∀ t a, p (f t a) = setAt (p t) (key a) (val a)) :
    ∀ (L : List α) (t : σ) (n : Nat) (v : β), (∃ a ∈ L, key a = n) →
      (∀ a ∈ L, key a = n → val a = v) → p (L.foldl f t) n = v := by
  intro L
  induction L with
  | nil => intro t n v h; obtain ⟨a, ha, _⟩ := h; cases ha
  | cons a L ih =>
    intro t n v hex hall
    rw [List.foldl_cons]
    by_cases hL : ∃ b ∈ L, key b = n
    · exact ih (f t a) n v hL (fun b hb => hall b (List.mem_cons_of_mem _ hb))
    · have hno : ∀ b ∈ L, key b ≠ n := fun b hb e => hL ⟨b, hb, e⟩
      rw [foldl_store_frame p f key val hf L (f t a) n hno, hf]
      obtain ⟨b, hb, hbn⟩ := hex
      rcases List.mem_cons.mp hb with rfl | hb'
      · rw [← hbn, setAt_same]
        exact hall b (List.mem_cons_self _ _) hbn
      · exact absurd hbn (hno b hb')

/-- Three nested loops are one loop over the cells in visiting order. -/
theorem foldl_nested_eq {σ : Type} (g : σ → Nat → Nat → Nat → σ) (w h d : Nat) (t : σ) :
    (List.range w).foldl (fun t i => (List.range h).foldl (fun t j =>
      (List.range d).foldl (fun t k => g t i j k) t) t) t
    = (latticeCells w h d).foldl (fun t c => g t c.1 c.2.1 c.2.2) t := by
  unfold latticeCells
  generalize List.range w = Lw
  generalize List.range h = Lh
  generalize List.range d = Ld
  induction Lw generalizing t with
  | nil => rfl
  | cons i Lw ihw =>
    rw [List.foldl_cons, List.flatMap_cons, List.foldl_append, ← ihw]
    congr 1
    clear ihw
    induction Lh generalizing t with
    | nil => rfl
    | cons j Lh ihh =>
      rw [List.foldl_cons, List.flatMap_cons, List.foldl_append, ← ihh]
      congr 1
      rw [List.foldl_map]

theorem mem_latticeCells (w h d : Nat) (c : Nat × Nat × Nat) :
    c ∈ latticeCells w h d ↔ c.1 < w ∧ c.2.1 < h ∧ c.2.2 < d := by
  obtain ⟨i, j, k⟩ := c
  simp only [latticeCells, List.mem_flatMap, List.mem_map, List.mem_range, Prod.mk.injEq]
  constructor
  · rintro ⟨i', hi, j', hj, k', hk, rfl, rfl, rfl⟩
    exact ⟨hi, hj, hk⟩
  · rintro ⟨hi, hj, hk⟩
    exact ⟨i, hi, j, hj, k, hk, rfl, rfl, rfl⟩

theorem add_mul_inj {w i i' a a' : Nat} (hi : i < w) (hi' : i' < w)
    (h : i + w * a = i' + w * a') : i = i' ∧ a = a' := by
  have h1 : (i + w * a) % w = (i' + w * a') % w := by rw [h]
  rw [Nat.add_mul_mod_self_left, Nat.add_mul_mod_self_left, Nat.mod_eq_of_lt hi,
    Nat.mod_eq_of_lt hi'] at h1
  subst h1
  have hw : 0 < w := by omega
  exact ⟨rfl, Nat.eq_of_mul_eq_mul_left hw (by omega)⟩

/-- Distinct lattice cells have distinct slot indices. -/
theorem slotIndex_inj (pVol : BoundedVolumeGrid) {c c' : Nat × Nat × Nat}
    (hc : c ∈ latticeCells pVol.m_nGridRes_w pVol.m_nGridRes_h pVol.m_nGridRes_d)
    (hc' : c' ∈ latticeCells pVol.m_nGridRes_w pVol.m_nGridRes_h pVol.m_nGridRes_d)
    (h : slotIndex pVol c = slotIndex pVol c') : c = c' := by
  rw [mem_latticeCells] at hc hc'
  obtain ⟨i, j, k⟩ := c
  obtain ⟨i', j', k'⟩ := c'
  simp only [slotIndex] at h
  simp only at hc hc'
  obtain ⟨rfl, h2⟩ := add_mul_inj hc.1 hc'.1 h
  obtain ⟨rfl, rfl⟩ := add_mul_inj hc.2.1 hc'.2.1 h2
  rfl

/-! ## The table computed by GetGridSDFIndexNeedFree -/

theorem cell_m_x (pVol : BoundedVolumeGrid) (s : Int3) (t : NextResetSDF) (c : Nat × Nat × Nat) :
    (GetGridSDFIndexNeedFree.cell pVol s t c.1 c.2.1 c.2.2).m_x
      = setAt t.m_x (slotIndex pVol c) (xFlag pVol s c) := by
  simp only [GetGridSDFIndexNeedFree.cell, slotIndex, xFlag]
  by_cases hx : s.x > 0 ∧ pVol.m_local_shift.x - s.x ≤ (c.1 : Int) ∧
      (c.1 : Int) < pVol.m_local_shift.x <;> simp [hx]

theorem cell_m_y (pVol : BoundedVolumeGrid) (s : Int3) (t : NextResetSDF) (c : Nat × Nat × Nat) :
    (GetGridSDFIndexNeedFree.cell pVol s t c.1 c.2.1 c.2.2).m_y
      = setAt t.m_y (slotIndex pVol c) (yFlag pVol s c) := by
  simp only [GetGridSDFIndexNeedFree.cell, slotIndex, yFlag]
  by_cases hy : s.y > 0 ∧ pVol.m_local_shift.y - s.y ≤ (c.2.1 : Int) ∧
      (c.2.1 : Int) < pVol.m_local_shift.y <;> simp [hy]

theorem cell_m_z (pVol : BoundedVolumeGrid) (s : Int3) (t : NextResetSDF) (c : Nat × Nat × Nat) :
    (GetGridSDFIndexNeedFree.cell pVol s t c.1 c.2.1 c.2.2).m_z
      = setAt t.m_z (slotIndex pVol c) (zFlag pVol s c) := by
  simp only [GetGridSDFIndexNeedFree.cell, slotIndex, zFlag]
  by_cases hz : s.z > 0 ∧ pVol.m_local_shift.z - s.z ≤ (c.2.2 : Int) ∧
      (c.2.2 : Int) < pVol.m_local_shift.z <;> simp [hz]

theorem cell_m_nNextResetSDFs (pVol : BoundedVolumeGrid) (s : Int3) (t : NextResetSDF)
    (c : Nat × Nat × Nat) :
    (GetGridSDFIndexNeedFree.cell pVol s t c.1 c.2.1 c.2.2).m_nNextResetSDFs
      = setAt t.m_nNextResetSDFs (slotIndex pVol c) (resetFlag pVol s c) := by
  simp only [GetGridSDFIndexNeedFree.cell, slotIndex, resetFlag, xFlag, yFlag, zFlag]
  by_cases hx : s.x > 0 ∧ pVol.m_local_shift.x - s.x ≤ (c.1 : Int) ∧
      (c.1 : Int) < pVol.m_local_shift.x <;>
  by_cases hy : s.y > 0 ∧ pVol.m_local_shift.y - s.y ≤ (c.2.1 : Int) ∧
      (c.2.1 : Int) < pVol.m_local_shift.y <;>
  by_cases hz : s.z > 0 ∧ pVol.m_local_shift.z - s.z ≤ (c.2.2 : Int) ∧
      (c.2.2 : Int) < pVol.m_local_shift.z <;> simp only [hx, hy, hz] <;> simp

/-- With a nonzero shift the call is one loop of stores over the lattice. -/
theorem GetGridSDFIndexNeedFree_eq_foldl (pVol : BoundedVolumeGrid) (s : Int3) (t : NextResetSDF)
    (hs : s.x ≠ 0 ∨ s.y ≠ 0 ∨ s.z ≠ 0) :
    GetGridSDFIndexNeedFree pVol s t
      = (latticeCells pVol.m_nGridRes_w pVol.m_nGridRes_h pVol.m_nGridRes_d).foldl
          (fun t c => GetGridSDFIndexNeedFree.cell pVol s t c.1 c.2.1 c.2.2) t := by
  unfold GetGridSDFIndexNeedFree
  rw [if_pos hs]
  exact foldl_nested_eq (fun t i j k => GetGridSDFIndexNeedFree.cell pVol s t i j k) _ _ _ t

/-- With the zero shift the call returns the table it was given. -/
theorem GetGridSDFIndexNeedFree_zero (pVol : BoundedVolumeGrid) (t : NextResetSDF) :
    GetGridSDFIndexNeedFree pVol ⟨0, 0, 0⟩ t = t := by
  simp [GetGridSDFIndexNeedFree]

/-- After a call with a nonzero shift, the entry of a flag array at the slot
of a lattice cell is the value the loop body stores for that cell. -/
theorem table_at_cell {β : Type} (p : NextResetSDF → Nat → β)
    (val : BoundedVolumeGrid → Int3 → Nat × Nat × Nat → β)
    (hp : ∀ pVol s t c, p (GetGridSDFIndexNeedFree.cell pVol s t c.1 c.2.1 c.2.2)
      = setAt (p t) (slotIndex pVol c) (val pVol s c))
    (pVol : BoundedVolumeGrid) (s : Int3) (t : NextResetSDF)
    (hs : s.x ≠ 0 ∨ s.y ≠ 0 ∨ s.z ≠ 0) (c : Nat × Nat × Nat)
    (hc : c ∈ latticeCells pVol.m_nGridRes_w pVol.m_nGridRes_h pVol.m_nGridRes_d) :
    p (GetGridSDFIndexNeedFree pVol s t) (slotIndex pVol c) = val pVol s c := by
  rw [GetGridSDFIndexNeedFree_eq_foldl pVol s t hs]
  refine foldl_store_hit p _ (slotIndex pVol) (val pVol s) (fun t a => hp pVol s t a) _ t _ _
    ⟨c, hc, rfl⟩ ?_
  intro a ha hac
  rw [slotIndex_inj pVol ha hc hac]

/-- Entries at indices that are not the slot of a lattice cell are untouched. -/
theorem table_off_lattice {β : Type} (p : NextResetSDF → Nat → β)
    (val : BoundedVolumeGrid → Int3 → Nat × Nat × Nat → β)
    (hp : ∀ pVol s t c, p (GetGridSDFIndexNeedFree.cell pVol s t c.1 c.2.1 c.2.2)
      = setAt (p t) (slotIndex pVol c) (val pVol s c))
    (pVol : BoundedVolumeGrid) (s : Int3) (t : NextResetSDF) (n : Nat)
    (hn : ∀ c ∈ latticeCells pVol.m_nGridRes_w pVol.m_nGridRes_h pVol.m_nGridRes_d,
      slotIndex pVol c ≠ n) :
    p (GetGridSDFIndexNeedFree pVol s t) n = p t n := by
  by_cases hs : s.x ≠ 0 ∨ s.y ≠ 0 ∨ s.z ≠ 0
  · rw [GetGridSDFIndexNeedFree_eq_foldl pVol s t hs]
    exact foldl_store_frame p _ (slotIndex pVol) (val pVol s) (fun t a => hp pVol s t a) _ t n hn
  · unfold GetGridSDFIndexNeedFree
    rw [if_neg hs]

/-! ## Counting flagged cells -/

theorem xFlag_eq_one_iff (pVol : BoundedVolumeGrid) (s : Int3) (c : Nat × Nat × Nat) :
    xFlag pVol s c = 1 ↔
      s.x > 0 ∧ pVol.m_local_shift.x - s.x ≤ (c.1 : Int) ∧ (c.1 : Int) < pVol.m_local_shift.x := by
  unfold xFlag
  split <;> simp_all

theorem yFlag_eq_one_iff (pVol : BoundedVolumeGrid) (s : Int3) (c : Nat × Nat × Nat) :
    yFlag pVol s c = 1 ↔
      s.y > 0 ∧ pVol.m_local_shift.y - s.y ≤ (c.2.1 : Int) ∧
        (c.2.1 : Int) < pVol.m_local_shift.y := by
  unfold yFlag
  split <;> simp_all

theorem zFlag_eq_one_iff (pVol : BoundedVolumeGrid) (s : Int3) (c : Nat × Nat × Nat) :
    zFlag pVol s c = 1 ↔
      s.z > 0 ∧ pVol.m_local_shift.z - s.z ≤ (c.2.2 : Int) ∧
        (c.2.2 : Int) < pVol.m_local_shift.z := by
  unfold zFlag
  split <;> simp_all

theorem mem_lattice_of_mem_product (pVol : BoundedVolumeGrid) (c : Nat × Nat × Nat) :
    c ∈ (Finset.range pVol.m_nGridRes_w) ×ˢ (Finset.range pVol.m_nGridRes_h) ×ˢ
      (Finset.range pVol.m_nGridRes_d) ↔
    c ∈ latticeCells pVol.m_nGridRes_w pVol.m_nGridRes_h pVol.m_nGridRes_d := by
  rw [mem_latticeCells]
  simp [Finset.mem_product]

/-- After a call with a nonzero shift, the cells flagged in a flag array are
the lattice cells for which the loop body stores 1. -/
theorem flaggedCells_eq (p : NextResetSDF → Nat → Int)
    (val : BoundedVolumeGrid → Int3 → Nat × Nat × Nat → Int)
    (hp : ∀ pVol s t c, p (GetGridSDFIndexNeedFree.cell pVol s t c.1 c.2.1 c.2.2)
      = setAt (p t) (slotIndex pVol c) (val pVol s c))
    (pVol : BoundedVolumeGrid) (s : Int3) (t : NextResetSDF)
    (hs : s.x ≠ 0 ∨ s.y ≠ 0 ∨ s.z ≠ 0) :
    flaggedCells pVol (p (GetGridSDFIndexNeedFree pVol s t))
      = ((Finset.range pVol.m_nGridRes_w) ×ˢ (Finset.range pVol.m_nGridRes_h) ×ˢ
          (Finset.range pVol.m_nGridRes_d)).filter (fun c => val pVol s c = 1) := by
  unfold flaggedCells
  apply Finset.filter_congr
  intro c hc
  rw [table_at_cell p val hp pVol s t hs c ((mem_lattice_of_mem_product pVol c).mp hc)]

/-- Number of coordinates `c < n` inside the band `[ls - s, ls)`, when the
band lies inside `[0, n]`. -/
theorem card_band (n : Nat) (ls s : Int) (hs : 0 < s) (h1 : s ≤ ls) (h2 : ls ≤ n) :
    ((Finset.range n).filter (fun c : Nat => s > 0 ∧ ls - s ≤ (c : Int) ∧ (c : Int) < ls)).card
      = s.natAbs := by
  have h : (Finset.range n).filter (fun c : Nat => s > 0 ∧ ls - s ≤ (c : Int) ∧ (c : Int) < ls)
      = Finset.Ico (ls - s).toNat ls.toNat := by
    ext c
    simp only [Finset.mem_filter, Finset.mem_range, Finset.mem_Ico]
    omega
  rw [h, Nat.card_Ico]
  omega

/-- A band that starts below zero and ends at zero or below holds no coordinate. -/
theorem card_band_empty (n : Nat) (ls s : Int) (h : ls ≤ 0 ∨ s ≤ 0) :
    ((Finset.range n).filter (fun c : Nat => s > 0 ∧ ls - s ≤ (c : Int) ∧ (c : Int) < ls)).card
      = 0 := by
  rw [Finset.card_eq_zero, Finset.filter_eq_empty_iff]
  intro c _
  omega

theorem card_flagged_x (pVol : BoundedVolumeGrid) (s : Int3) (t : NextResetSDF)
    (hs : s.x ≠ 0 ∨ s.y ≠ 0 ∨ s.z ≠ 0) :
    (flaggedCells pVol (GetGridSDFIndexNeedFree pVol s t).m_x).card
      = ((Finset.range pVol.m_nGridRes_w).filter (fun c : Nat => s.x > 0 ∧
          pVol.m_local_shift.x - s.x ≤ (c : Int) ∧ (c : Int) < pVol.m_local_shift.x)).card
        * (pVol.m_nGridRes_h * pVol.m_nGridRes_d) := by
  rw [flaggedCells_eq NextResetSDF.m_x xFlag cell_m_x pVol s t hs]
  simp only [xFlag_eq_one_iff]
  rw [Finset.filter_product_left (fun c : Nat => s.x > 0 ∧
    pVol.m_local_shift.x - s.x ≤ (c : Int) ∧ (c : Int) < pVol.m_local_shift.x)]
  simp [Finset.card_product]

theorem card_flagged_y (pVol : BoundedVolumeGrid) (s : Int3) (t : NextResetSDF)
    (hs : s.x ≠ 0 ∨ s.y ≠ 0 ∨ s.z ≠ 0) :
    (flaggedCells pVol (GetGridSDFIndexNeedFree pVol s t).m_y).card
      = ((Finset.range pVol.m_nGridRes_h).filter (fun c : Nat => s.y > 0 ∧
          pVol.m_local_shift.y - s.y ≤ (c : Int) ∧ (c : Int) < pVol.m_local_shift.y)).card
        * (pVol.m_nGridRes_w * pVol.m_nGridRes_d) := by
  rw [flaggedCells_eq NextResetSDF.m_y yFlag cell_m_y pVol s t hs]
  simp only [yFlag_eq_one_iff]
  rw [Finset.filter_product_right (fun c : Nat × Nat => s.y > 0 ∧
    pVol.m_local_shift.y - s.y ≤ (c.1 : Int) ∧ (c.1 : Int) < pVol.m_local_shift.y),
    Finset.filter_product_left (fun c : Nat => s.y > 0 ∧
    pVol.m_local_shift.y - s.y ≤ (c : Int) ∧ (c : Int) < pVol.m_local_shift.y)]
  simp only [Finset.card_product, Finset.card_range]
  ring

theorem card_flagged_z (pVol : BoundedVolumeGrid) (s : Int3) (t : NextResetSDF)
    (hs : s.x ≠ 0 ∨ s.y ≠ 0 ∨ s.z ≠ 0) :
    (flaggedCells pVol (GetGridSDFIndexNeedFree pVol s t).m_z).card
      = ((Finset.range pVol.m_nGridRes_d).filter (fun c : Nat => s.z > 0 ∧
          pVol.m_local_shift.z - s.z ≤ (c : Int) ∧ (c : Int) < pVol.m_local_shift.z)).card
        * (pVol.m_nGridRes_w * pVol.m_nGridRes_h) := by
  rw [flaggedCells_eq NextResetSDF.m_z zFlag cell_m_z pVol s t hs]
  simp only [zFlag_eq_one_iff]
  rw [Finset.filter_product_right (fun c : Nat × Nat => s.z > 0 ∧
    pVol.m_local_shift.z - s.z ≤ (c.2 : Int) ∧ (c.2 : Int) < pVol.m_local_shift.z),
    Finset.filter_product_right (fun c : Nat => s.z > 0 ∧
    pVol.m_local_shift.z - s.z ≤ (c : Int) ∧ (c : Int) < pVol.m_local_shift.z)]
  simp only [Finset.card_product, Finset.card_range]
  ring

/-! ## Claims on GetGridSDFIndexNeedFree -/

/-- C1: after `GetGridSDFIndexNeedFree` with a shift whose component on an
axis is positive, the flag of that axis at the slot of a lattice cell
`(i, j, k)` is 1 when the cell's coordinate on that axis lies in
`[local_shift - s, local_shift)` and 0 otherwise, whatever the table held. -/
theorem GetGridSDFIndexNeedFree_positive_band (pVol : BoundedVolumeGrid)
    (CurLocalShift : Int3) (t : NextResetSDF) (i j k : Nat)
    (hi : i < pVol.m_nGridRes_w) (hj : j < pVol.m_nGridRes_h) (hk : k < pVol.m_nGridRes_d) :
    (CurLocalShift.x > 0 →
      (GetGridSDFIndexNeedFree pVol CurLocalShift t).m_x
          (i + pVol.m_nGridRes_w * (j + pVol.m_nGridRes_h * k))
        = if pVol.m_local_shift.x - CurLocalShift.x ≤ (i : Int) ∧
            (i : Int) < pVol.m_local_shift.x then 1 else 0) ∧
    (CurLocalShift.y > 0 →
      (GetGridSDFIndexNeedFree pVol CurLocalShift t).m_y
          (i + pVol.m_nGridRes_w * (j + pVol.m_nGridRes_h * k))
        = if pVol.m_local_shift.y - CurLocalShift.y ≤ (j : Int) ∧
            (j : Int) < pVol.m_local_shift.y then 1 else 0) ∧
    (CurLocalShift.z > 0 →
      (GetGridSDFIndexNeedFree pVol CurLocalShift t).m_z
          (i + pVol.m_nGridRes_w * (j + pVol.m_nGridRes_h * k))
        = if pVol.m_local_shift.z - CurLocalShift.z ≤ (k : Int) ∧
            (k : Int) < pVol.m_local_shift.z then 1 else 0) := by
  have hc : (i, j, k) ∈ latticeCells pVol.m_nGridRes_w pVol.m_nGridRes_h pVol.m_nGridRes_d :=
    (mem_latticeCells _ _ _ _).mpr ⟨hi, hj, hk⟩
  refine ⟨fun hx => ?_, fun hy => ?_, fun hz => ?_⟩
  · have h := table_at_cell NextResetSDF.m_x xFlag cell_m_x pVol CurLocalShift t
      (Or.inl (by omega)) (i, j, k) hc
    simp only [slotIndex, xFlag] at h
    rw [h]
    simp [hx]
  · have h := table_at_cell NextResetSDF.m_y yFlag cell_m_y pVol CurLocalShift t
      (Or.inr (Or.inl (by omega))) (i, j, k) hc
    simp only [slotIndex, yFlag] at h
    rw [h]
    simp [hy]
  · have h := table_at_cell NextResetSDF.m_z zFlag cell_m_z pVol CurLocalShift t
      (Or.inr (Or.inr (by omega))) (i, j, k) hc
    simp only [slotIndex, zFlag] at h
    rw [h]
    simp [hz]

/-- C1, at a concrete input: a 4x4x4 window with local shift (2,3,1), shifted
by (1,2,1), starting from a table filled with 7, at the cell (1,2,0). -/
theorem GetGridSDFIndexNeedFree_positive_band_witness :
    (1 < 4 ∧ 2 < 4 ∧ 0 < 4) ∧
    (GetGridSDFIndexNeedFree (emptyWindow 4 4 4 ⟨2, 3, 1⟩) ⟨1, 2, 1⟩ (constTable 7)).m_x 9 = 1 ∧
    (GetGridSDFIndexNeedFree (emptyWindow 4 4 4 ⟨2, 3, 1⟩) ⟨1, 2, 1⟩ (constTable 7)).m_y 9 = 1 ∧
    (GetGridSDFIndexNeedFree (emptyWindow 4 4 4 ⟨2, 3, 1⟩) ⟨1, 2, 1⟩ (constTable 7)).m_z 9 = 1 := by
  have h := GetGridSDFIndexNeedFree_positive_band (emptyWindow 4 4 4 ⟨2, 3, 1⟩) ⟨1, 2, 1⟩
    (constTable 7) 1 2 0 (by decide) (by decide) (by decide)
  exact ⟨by decide, h.1 (by decide), h.2.1 (by decide), h.2.2 (by decide)⟩

/-- C2 fails as stated: in a 4x4x4 window with local shift (0,0,0), a shift
by (1,0,0) flags no cell on x, and so does a shift by (-1,0,0); the claim
gives 16 flagged cells for both. -/
theorem flagged_count_counterexample :
    (flaggedCells (emptyWindow 4 4 4 ⟨0, 0, 0⟩)
      (GetGridSDFIndexNeedFree (emptyWindow 4 4 4 ⟨0, 0, 0⟩) ⟨1, 0, 0⟩ (constTable 0)).m_x).card = 0 ∧
    (flaggedCells (emptyWindow 4 4 4 ⟨0, 0, 0⟩)
      (GetGridSDFIndexNeedFree (emptyWindow 4 4 4 ⟨0, 0, 0⟩) ⟨-1, 0, 0⟩ (constTable 0)).m_x).card = 0 ∧
    (0 : Nat) ≠ (1 : Int).natAbs * (4 * 4) ∧ (0 : Nat) ≠ (-1 : Int).natAbs * (4 * 4) := by
  refine ⟨?_, ?_, by decide, by decide⟩
  · rw [card_flagged_x _ _ _ (Or.inl (by decide)), card_band_empty _ _ _ (Or.inl (by decide))]
    simp
  · rw [card_flagged_x _ _ _ (Or.inl (by decide)), card_band_empty _ _ _ (Or.inr (by decide))]
    simp

/-- C2, amended: for a shift that is positive (= s) on exactly one axis and
zero on the other two, with every component of the local shift in
`[0, axis_size)` and `s ≤ local_shift` on the shifted axis, the number of
lattice cells flagged on that axis is `|s|` times the product of the two
other axis sizes, and every flagged cell has its coordinate in
`[local_shift - s, local_shift)`. -/
theorem flagged_count_positive (pVol : BoundedVolumeGrid) (s : Int3) (t : NextResetSDF)
    (hlx : 0 ≤ pVol.m_local_shift.x ∧ pVol.m_local_shift.x < pVol.m_nGridRes_w)
    (hly : 0 ≤ pVol.m_local_shift.y ∧ pVol.m_local_shift.y < pVol.m_nGridRes_h)
    (hlz : 0 ≤ pVol.m_local_shift.z ∧ pVol.m_local_shift.z < pVol.m_nGridRes_d) :
    (0 < s.x ∧ s.y = 0 ∧ s.z = 0 ∧ s.x ≤ pVol.m_local_shift.x →
      (flaggedCells pVol (GetGridSDFIndexNeedFree pVol s t).m_x).card
          = s.x.natAbs * (pVol.m_nGridRes_h * pVol.m_nGridRes_d) ∧
        ∀ c ∈ flaggedCells pVol (GetGridSDFIndexNeedFree pVol s t).m_x,
          pVol.m_local_shift.x - s.x ≤ (c.1 : Int) ∧ (c.1 : Int) < pVol.m_local_shift.x) ∧
    (s.x = 0 ∧ 0 < s.y ∧ s.z = 0 ∧ s.y ≤ pVol.m_local_shift.y →
      (flaggedCells pVol (GetGridSDFIndexNeedFree pVol s t).m_y).card
          = s.y.natAbs * (pVol.m_nGridRes_w * pVol.m_nGridRes_d) ∧
        ∀ c ∈ flaggedCells pVol (GetGridSDFIndexNeedFree pVol s t).m_y,
          pVol.m_local_shift.y - s.y ≤ (c.2.1 : Int) ∧ (c.2.1 : Int) < pVol.m_local_shift.y) ∧
    (s.x = 0 ∧ s.y = 0 ∧ 0 < s.z ∧ s.z ≤ pVol.m_local_shift.z →
      (flaggedCells pVol (GetGridSDFIndexNeedFree pVol s t).m_z).card
          = s.z.natAbs * (pVol.m_nGridRes_w * pVol.m_nGridRes_h) ∧
        ∀ c ∈ flaggedCells pVol (GetGridSDFIndexNeedFree pVol s t).m_z,
          pVol.m_local_shift.z - s.z ≤ (c.2.2 : Int) ∧ (c.2.2 : Int) < pVol.m_local_shift.z) := by
  refine ⟨fun ⟨h1, _, _, h4⟩ => ⟨?_, ?_⟩, fun ⟨_, h1, _, h4⟩ => ⟨?_, ?_⟩,
    fun ⟨_, _, h1, h4⟩ => ⟨?_, ?_⟩⟩
  · rw [card_flagged_x _ _ _ (Or.inl (by omega)), card_band _ _ _ h1 h4 (by omega)]
  · intro c hc
    rw [flaggedCells_eq NextResetSDF.m_x xFlag cell_m_x pVol s t
      (Or.inl (by omega)), Finset.mem_filter, xFlag_eq_one_iff] at hc
    exact hc.2.2
  · rw [card_flagged_y _ _ _ (Or.inr (Or.inl (by omega))), card_band _ _ _ h1 h4 (by omega)]
  · intro c hc
    rw [flaggedCells_eq NextResetSDF.m_y yFlag cell_m_y pVol s t
      (Or.inr (Or.inl (by omega))), Finset.mem_filter, yFlag_eq_one_iff] at hc
    exact hc.2.2
  · rw [card_flagged_z _ _ _ (Or.inr (Or.inr (by omega))), card_band _ _ _ h1 h4 (by omega)]
  · intro c hc
    rw [flaggedCells_eq NextResetSDF.m_z zFlag cell_m_z pVol s t
      (Or.inr (Or.inr (by omega))), Finset.mem_filter, zFlag_eq_one_iff] at hc
    exact hc.2.2

/-- C2 amended, at a concrete input: a 4x4x4 window with local shift (1,0,0)
shifted by (1,0,0) has exactly 16 cells flagged on x, all with x = 0. -/
theorem flagged_count_positive_witness :
    (flaggedCells (emptyWindow 4 4 4 ⟨1, 0, 0⟩)
      (GetGridSDFIndexNeedFree (emptyWindow 4 4 4 ⟨1, 0, 0⟩) ⟨1, 0, 0⟩ (constTable 0)).m_x).card
        = 16 ∧
    ∀ c ∈ flaggedCells (emptyWindow 4 4 4 ⟨1, 0, 0⟩)
      (GetGridSDFIndexNeedFree (emptyWindow 4 4 4 ⟨1, 0, 0⟩) ⟨1, 0, 0⟩ (constTable 0)).m_x,
        (1 : Int) - 1 ≤ (c.1 : Int) ∧ (c.1 : Int) < 1 :=
  (flagged_count_positive (emptyWindow 4 4 4 ⟨1, 0, 0⟩) ⟨1, 0, 0⟩ (constTable 0)
    (by decide) (by decide) (by decide)).1 (by decide)

/-- C3 (evaluation of the code): with a shift whose component on an axis is
negative, no lattice cell gets the flag of that axis, and when no component
is positive no lattice cell gets the reset flag; the band at the opposite
edge is not flagged. -/
theorem GetGridSDFIndexNeedFree_negative_no_flag (pVol : BoundedVolumeGrid)
    (CurLocalShift : Int3) (t : NextResetSDF) (i j k : Nat)
    (hi : i < pVol.m_nGridRes_w) (hj : j < pVol.m_nGridRes_h) (hk : k < pVol.m_nGridRes_d) :
    (CurLocalShift.x < 0 →
      (GetGridSDFIndexNeedFree pVol CurLocalShift t).m_x
          (i + pVol.m_nGridRes_w * (j + pVol.m_nGridRes_h * k)) = 0) ∧
    (CurLocalShift.y < 0 →
      (GetGridSDFIndexNeedFree pVol CurLocalShift t).m_y
          (i + pVol.m_nGridRes_w * (j + pVol.m_nGridRes_h * k)) = 0) ∧
    (CurLocalShift.z < 0 →
      (GetGridSDFIndexNeedFree pVol CurLocalShift t).m_z
          (i + pVol.m_nGridRes_w * (j + pVol.m_nGridRes_h * k)) = 0) ∧
    (CurLocalShift.x ≤ 0 ∧ CurLocalShift.y ≤ 0 ∧ CurLocalShift.z ≤ 0 ∧
        (CurLocalShift.x < 0 ∨ CurLocalShift.y < 0 ∨ CurLocalShift.z < 0) →
      (GetGridSDFIndexNeedFree pVol CurLocalShift t).m_nNextResetSDFs
          (i + pVol.m_nGridRes_w * (j + pVol.m_nGridRes_h * k)) = 0) := by
  have hc : (i, j, k) ∈ latticeCells pVol.m_nGridRes_w pVol.m_nGridRes_h pVol.m_nGridRes_d :=
    (mem_latticeCells _ _ _ _).mpr ⟨hi, hj, hk⟩
  refine ⟨fun hx => ?_, fun hy => ?_, fun hz => ?_, fun ⟨hx, hy, hz, hne⟩ => ?_⟩
  · have h := table_at_cell NextResetSDF.m_x xFlag cell_m_x pVol CurLocalShift t
      (Or.inl (by omega)) (i, j, k) hc
    simp only [slotIndex, xFlag] at h
    rw [h, if_neg (by omega)]
  · have h := table_at_cell NextResetSDF.m_y yFlag cell_m_y pVol CurLocalShift t
      (Or.inr (Or.inl (by omega))) (i, j, k) hc
    simp only [slotIndex, yFlag] at h
    rw [h, if_neg (by omega)]
  · have h := table_at_cell NextResetSDF.m_z zFlag cell_m_z pVol CurLocalShift t
      (Or.inr (Or.inr (by omega))) (i, j, k) hc
    simp only [slotIndex, zFlag] at h
    rw [h, if_neg (by omega)]
  · have h := table_at_cell NextResetSDF.m_nNextResetSDFs resetFlag cell_m_nNextResetSDFs pVol
      CurLocalShift t (by omega) (i, j, k) hc
    simp only [slotIndex] at h
    rw [h]
    unfold resetFlag
    rw [if_neg]
    rw [xFlag_eq_one_iff, yFlag_eq_one_iff, zFlag_eq_one_iff]
    omega

/-- C3, at the failing input: a 4x4x4 window with local shift (0,0,0) shifted
by (-1,0,0); the cell (3,0,0) of the opposite edge has neither its x flag nor
its reset flag set. -/
theorem GetGridSDFIndexNeedFree_negative_no_flag_witness :
    (3 < 4 ∧ 0 < 4 ∧ 0 < 4) ∧
    (GetGridSDFIndexNeedFree (emptyWindow 4 4 4 ⟨0, 0, 0⟩) ⟨-1, 0, 0⟩ (constTable 0)).m_x 3 = 0 ∧
    (GetGridSDFIndexNeedFree (emptyWindow 4 4 4 ⟨0, 0, 0⟩) ⟨-1, 0, 0⟩
      (constTable 0)).m_nNextResetSDFs 3 = 0 := by
  have h := GetGridSDFIndexNeedFree_negative_no_flag (emptyWindow 4 4 4 ⟨0, 0, 0⟩) ⟨-1, 0, 0⟩
    (constTable 0) 3 0 0 (by decide) (by decide) (by decide)
  exact ⟨by decide, h.1 (by decide), h.2.2.2 (by decide)⟩

/-! ## The window computed by ResetAndFreeGird -/

theorem ResetAndFreeGird.slot_eq (empty : Nat → Nat) (t : NextResetSDF)
    (pVol : BoundedVolumeGrid) (i : Nat) :
    ResetAndFreeGird.slot empty t pVol i
      = if t.m_nNextResetSDFs i = 1 ∧ CheckIfBasicSDFActive pVol i = true
        then { pVol with m_GridVolumes := setAt pVol.m_GridVolumes i ⟨0, 0, 0, none⟩ }
        else pVol := by
  unfold ResetAndFreeGird.slot
  split
  · simp only [FreeMemoryByIndex, SdfReset, setAt_same]
    congr 1
    funext m
    by_cases hm : m = i
    · subst hm; simp [setAt]
    · simp [setAt, hm]
  · rfl

theorem ResetAndFreeGird_eq_resetSlots (empty : Nat → Nat) (t : NextResetSDF)
    (pVol : BoundedVolumeGrid) :
    ResetAndFreeGird empty t pVol
      = resetSlots t pVol (pVol.m_nGridRes_w * pVol.m_nGridRes_h * pVol.m_nGridRes_d) := by
  unfold ResetAndFreeGird
  generalize pVol.m_nGridRes_w * pVol.m_nGridRes_h * pVol.m_nGridRes_d = N
  induction N with
  | zero => simp [resetSlots]
  | succ N ih =>
    rw [List.range_succ, List.foldl_append, ih, List.foldl_cons, List.foldl_nil,
      ResetAndFreeGird.slot_eq]
    have hact : CheckIfBasicSDFActive (resetSlots t pVol N) N = CheckIfBasicSDFActive pVol N := by
      simp [CheckIfBasicSDFActive, resetSlots]
    rw [hact]
    by_cases hc : t.m_nNextResetSDFs N = 1 ∧ CheckIfBasicSDFActive pVol N = true
    · rw [if_pos hc]
      simp only [resetSlots]
      congr 1
      funext n
      by_cases hn : n = N
      · subst hn; simp [setAt, hc]
      · have : n < N + 1 ↔ n < N := by omega
        simp [setAt, hn, this]
    · rw [if_neg hc]
      simp only [resetSlots]
      congr 1
      funext n
      by_cases hn : n = N
      · subst hn
        have h1 : ¬ (n < n + 1 ∧ t.m_nNextResetSDFs n = 1 ∧
            CheckIfBasicSDFActive pVol n = true) := fun h => hc h.2
        have h2 : ¬ (n < n ∧ t.m_nNextResetSDFs n = 1 ∧
            CheckIfBasicSDFActive pVol n = true) := fun h => hc h.2
        rw [if_neg h1, if_neg h2]
      · have : n < N + 1 ↔ n < N := by omega
        simp [this]

theorem resetSlots_grid_pos (t : NextResetSDF) (pVol : BoundedVolumeGrid) (N n : Nat)
    (hc : n < N ∧ t.m_nNextResetSDFs n = 1 ∧ CheckIfBasicSDFActive pVol n = true) :
    (resetSlots t pVol N).m_GridVolumes n = ⟨0, 0, 0, none⟩ := by
  simp only [resetSlots]
  rw [if_pos hc]

theorem resetSlots_grid_neg (t : NextResetSDF) (pVol : BoundedVolumeGrid) (N n : Nat)
    (hc : ¬ (n < N ∧ t.m_nNextResetSDFs n = 1 ∧ CheckIfBasicSDFActive pVol n = true)) :
    (resetSlots t pVol N).m_GridVolumes n = pVol.m_GridVolumes n := by
  simp only [resetSlots]
  rw [if_neg hc]

theorem CheckIfBasicSDFActive_congr {p q : BoundedVolumeGrid} {n : Nat}
    (h : p.m_GridVolumes n = q.m_GridVolumes n) :
    CheckIfBasicSDFActive p n = CheckIfBasicSDFActive q n := by
  unfold CheckIfBasicSDFActive
  rw [h]

theorem CheckIfBasicSDFActive_zero {p : BoundedVolumeGrid} {n : Nat}
    (h : p.m_GridVolumes n = ⟨0, 0, 0, none⟩) : CheckIfBasicSDFActive p n = false := by
  unfold CheckIfBasicSDFActive
  rw [h]
  decide

/-- After the pass no slot is both flagged and active. -/
theorem resetSlots_not_flagged_active (t : NextResetSDF) (pVol : BoundedVolumeGrid) (N n : Nat) :
    ¬ (n < N ∧ t.m_nNextResetSDFs n = 1 ∧
        CheckIfBasicSDFActive (resetSlots t pVol N) n = true) := by
  rintro ⟨h1, h2, h3⟩
  by_cases hc : n < N ∧ t.m_nNextResetSDFs n = 1 ∧ CheckIfBasicSDFActive pVol n = true
  · rw [CheckIfBasicSDFActive_zero (resetSlots_grid_pos t pVol N n hc)] at h3
    cases h3
  · rw [CheckIfBasicSDFActive_congr (resetSlots_grid_neg t pVol N n hc)] at h3
    exact hc ⟨h1, h2, h3⟩

theorem resetSlots_idem (t : NextResetSDF) (pVol : BoundedVolumeGrid) (N : Nat) :
    resetSlots t (resetSlots t pVol N) N = resetSlots t pVol N := by
  have h : (resetSlots t (resetSlots t pVol N) N).m_GridVolumes
      = (resetSlots t pVol N).m_GridVolumes := by
    funext n
    exact resetSlots_grid_neg t (resetSlots t pVol N) N n
      (resetSlots_not_flagged_active t pVol N n)
  calc resetSlots t (resetSlots t pVol N) N
      = { resetSlots t pVol N with
          m_GridVolumes := (resetSlots t (resetSlots t pVol N) N).m_GridVolumes } := rfl
    _ = resetSlots t pVol N := by rw [h]

/-! ## Claims on the zero shift, UpdateShift and ResetAndFreeGird -/

theorem staleTable_reset_zero : staleTable.m_nNextResetSDFs 0 = 1 := by
  have h := table_at_cell NextResetSDF.m_nNextResetSDFs resetFlag cell_m_nNextResetSDFs
    staleWindow ⟨1, 0, 0⟩ (constTable 0) (Or.inl (by decide)) (0, 0, 0)
    ((mem_latticeCells _ _ _ _).mpr ⟨by decide, by decide, by decide⟩)
  exact h.trans (by decide)

theorem staleTable_reset_one : staleTable.m_nNextResetSDFs 1 = 0 := by
  have h := table_at_cell NextResetSDF.m_nNextResetSDFs resetFlag cell_m_nNextResetSDFs
    staleWindow ⟨1, 0, 0⟩ (constTable 0) (Or.inl (by decide)) (1, 0, 0)
    ((mem_latticeCells _ _ _ _).mpr ⟨by decide, by decide, by decide⟩)
  exact h.trans (by decide)

/-- C4 fails as stated: the table left by a shift of a 2x1x1 window by
(1,0,0) has slot 0 flagged for reset; a call with the zero shift leaves slot
0 flagged, and the following `ResetAndFreeGird` releases the active block of
slot 0. -/
theorem zero_shift_stale_counterexample :
    (GetGridSDFIndexNeedFree staleWindow ⟨0, 0, 0⟩ staleTable).m_nNextResetSDFs 0 = 1 ∧
    (ResetAndFreeGird (fun _ => 0) (GetGridSDFIndexNeedFree staleWindow ⟨0, 0, 0⟩ staleTable)
        staleWindow).m_GridVolumes 0 = ⟨0, 0, 0, none⟩ ∧
    staleWindow.m_GridVolumes 0 = ⟨1, 1, 1, some [5]⟩ := by
  rw [GetGridSDFIndexNeedFree_zero, ResetAndFreeGird_eq_resetSlots]
  exact ⟨staleTable_reset_zero,
    resetSlots_grid_pos _ _ _ 0 ⟨by decide, staleTable_reset_zero, by decide⟩, rfl⟩

/-- C4, amended: a call with the zero shift returns the table it was given;
so when no slot below `w * h * d` was flagged in the prior content (reset or
axis flag), none is flagged after the call and a following `ResetAndFreeGird`
changes no block. -/
theorem zero_shift_keeps_table (pVol : BoundedVolumeGrid) (t : NextResetSDF)
    (empty : Nat → Nat)
    (h : ∀ n, n < pVol.m_nGridRes_w * pVol.m_nGridRes_h * pVol.m_nGridRes_d →
      t.m_nNextResetSDFs n ≠ 1 ∧ t.m_x n ≠ 1 ∧ t.m_y n ≠ 1 ∧ t.m_z n ≠ 1) :
    GetGridSDFIndexNeedFree pVol ⟨0, 0, 0⟩ t = t ∧
    (∀ n, n < pVol.m_nGridRes_w * pVol.m_nGridRes_h * pVol.m_nGridRes_d →
      (GetGridSDFIndexNeedFree pVol ⟨0, 0, 0⟩ t).m_nNextResetSDFs n ≠ 1 ∧
      (GetGridSDFIndexNeedFree pVol ⟨0, 0, 0⟩ t).m_x n ≠ 1 ∧
      (GetGridSDFIndexNeedFree pVol ⟨0, 0, 0⟩ t).m_y n ≠ 1 ∧
      (GetGridSDFIndexNeedFree pVol ⟨0, 0, 0⟩ t).m_z n ≠ 1) ∧
    ResetAndFreeGird empty (GetGridSDFIndexNeedFree pVol ⟨0, 0, 0⟩ t) pVol = pVol := by
  rw [GetGridSDFIndexNeedFree_zero, ResetAndFreeGird_eq_resetSlots]
  refine ⟨rfl, h, ?_⟩
  have hg : (resetSlots t pVol
      (pVol.m_nGridRes_w * pVol.m_nGridRes_h * pVol.m_nGridRes_d)).m_GridVolumes
      = pVol.m_GridVolumes := by
    funext n
    exact resetSlots_grid_neg t pVol _ n (fun hc => (h n hc.1).1 hc.2.1)
  calc resetSlots t pVol (pVol.m_nGridRes_w * pVol.m_nGridRes_h * pVol.m_nGridRes_d)
      = { pVol with m_GridVolumes := (resetSlots t pVol
          (pVol.m_nGridRes_w * pVol.m_nGridRes_h * pVol.m_nGridRes_d)).m_GridVolumes } := rfl
    _ = pVol := by rw [hg]

/-- C4 amended, at a concrete input: the 2x1x1 window with the all-zero table. -/
theorem zero_shift_keeps_table_witness :
    GetGridSDFIndexNeedFree staleWindow ⟨0, 0, 0⟩ (constTable 0) = constTable 0 ∧
    (∀ n, n < staleWindow.m_nGridRes_w * staleWindow.m_nGridRes_h * staleWindow.m_nGridRes_d →
      (GetGridSDFIndexNeedFree staleWindow ⟨0, 0, 0⟩ (constTable 0)).m_nNextResetSDFs n ≠ 1 ∧
      (GetGridSDFIndexNeedFree staleWindow ⟨0, 0, 0⟩ (constTable 0)).m_x n ≠ 1 ∧
      (GetGridSDFIndexNeedFree staleWindow ⟨0, 0, 0⟩ (constTable 0)).m_y n ≠ 1 ∧
      (GetGridSDFIndexNeedFree staleWindow ⟨0, 0, 0⟩ (constTable 0)).m_z n ≠ 1) ∧
    ResetAndFreeGird (fun _ => 0) (GetGridSDFIndexNeedFree staleWindow ⟨0, 0, 0⟩ (constTable 0))
      staleWindow = staleWindow :=
  zero_shift_keeps_table staleWindow (constTable 0) (fun _ => 0)
    (fun _ _ => ⟨Int.zero_ne_one, Int.zero_ne_one, Int.zero_ne_one, Int.zero_ne_one⟩)

/-- C5: with the zero shift `UpdateShift` returns the window unchanged
(bounding box included) and makes no call to the global-shift update, and
`GetGridSDFIndexNeedFree` returns the table unchanged. -/
theorem zero_shift_noop (pVol : BoundedVolumeGrid) (t : NextResetSDF) :
    UpdateShift pVol ⟨0, 0, 0⟩ = (pVol, []) ∧
    (UpdateShift pVol ⟨0, 0, 0⟩).1.m_bbox.boxmin = pVol.m_bbox.boxmin ∧
    (UpdateShift pVol ⟨0, 0, 0⟩).1.m_bbox.boxmax = pVol.m_bbox.boxmax ∧
    GetGridSDFIndexNeedFree pVol ⟨0, 0, 0⟩ t = t ∧
    (∀ n, (GetGridSDFIndexNeedFree pVol ⟨0, 0, 0⟩ t).m_nNextResetSDFs n = t.m_nNextResetSDFs n ∧
      (GetGridSDFIndexNeedFree pVol ⟨0, 0, 0⟩ t).m_x n = t.m_x n ∧
      (GetGridSDFIndexNeedFree pVol ⟨0, 0, 0⟩ t).m_y n = t.m_y n ∧
      (GetGridSDFIndexNeedFree pVol ⟨0, 0, 0⟩ t).m_z n = t.m_z n) := by
  have hu : UpdateShift pVol ⟨0, 0, 0⟩ = (pVol, []) := by
    simp [UpdateShift]
  rw [hu, GetGridSDFIndexNeedFree_zero]
  exact ⟨rfl, rfl, rfl, rfl, fun _ => ⟨rfl, rfl, rfl, rfl⟩⟩

/-- C6 fails as stated: for the zero shift on a 4x4x4 window the
global-shift update is not invoked at all, so it is not invoked with the
shift triple (0,0,0). -/
theorem UpdateShift_zero_counterexample :
    (0 < (emptyWindow 4 4 4 ⟨0, 0, 0⟩).m_nGridRes_w ∧
      0 < (emptyWindow 4 4 4 ⟨0, 0, 0⟩).m_nGridRes_h ∧
      0 < (emptyWindow 4 4 4 ⟨0, 0, 0⟩).m_nGridRes_d) ∧
    (UpdateShift (emptyWindow 4 4 4 ⟨0, 0, 0⟩) ⟨0, 0, 0⟩).2 = [] ∧
    (UpdateShift (emptyWindow 4 4 4 ⟨0, 0, 0⟩) ⟨0, 0, 0⟩).2 ≠ [⟨0, 0, 0⟩] := by
  have hu : UpdateShift (emptyWindow 4 4 4 ⟨0, 0, 0⟩) ⟨0, 0, 0⟩
      = (emptyWindow 4 4 4 ⟨0, 0, 0⟩, []) := by
    simp [UpdateShift]
  rw [hu]
  exact ⟨⟨by decide, by decide, by decide⟩, rfl, by simp⟩

/-- C6, amended: in exact arithmetic, for a window with positive grid sizes
and every integer shift, on each axis with nonzero shift both `boxmin` and
`boxmax` are increased by `shift * (boxmax - boxmin) / gridRes` computed from
the box before the call, on each axis with zero shift both bounds are
unchanged, and the global-shift update is invoked, once and with the same
shift triple, exactly when some component of the shift is nonzero. -/
theorem UpdateShift_translates (pVol : BoundedVolumeGrid) (shift_index : Int3)
    (_hw : 0 < pVol.m_nGridRes_w) (_hh : 0 < pVol.m_nGridRes_h) (_hd : 0 < pVol.m_nGridRes_d) :
    (shift_index.x ≠ 0 →
      (UpdateShift pVol shift_index).1.m_bbox.boxmin.x = pVol.m_bbox.boxmin.x +
        (shift_index.x : ℚ) * (pVol.m_bbox.boxmax.x - pVol.m_bbox.boxmin.x)
          / (pVol.m_nGridRes_w : ℚ) ∧
      (UpdateShift pVol shift_index).1.m_bbox.boxmax.x = pVol.m_bbox.boxmax.x +
        (shift_index.x : ℚ) * (pVol.m_bbox.boxmax.x - pVol.m_bbox.boxmin.x)
          / (pVol.m_nGridRes_w : ℚ)) ∧
    (shift_index.y ≠ 0 →
      (UpdateShift pVol shift_index).1.m_bbox.boxmin.y = pVol.m_bbox.boxmin.y +
        (shift_index.y : ℚ) * (pVol.m_bbox.boxmax.y - pVol.m_bbox.boxmin.y)
          / (pVol.m_nGridRes_h : ℚ) ∧
      (UpdateShift pVol shift_index).1.m_bbox.boxmax.y = pVol.m_bbox.boxmax.y +
        (shift_index.y : ℚ) * (pVol.m_bbox.boxmax.y - pVol.m_bbox.boxmin.y)
          / (pVol.m_nGridRes_h : ℚ)) ∧
    (shift_index.z ≠ 0 →
      (UpdateShift pVol shift_index).1.m_bbox.boxmin.z = pVol.m_bbox.boxmin.z +
        (shift_index.z : ℚ) * (pVol.m_bbox.boxmax.z - pVol.m_bbox.boxmin.z)
          / (pVol.m_nGridRes_d : ℚ) ∧
      (UpdateShift pVol shift_index).1.m_bbox.boxmax.z = pVol.m_bbox.boxmax.z +
        (shift_index.z : ℚ) * (pVol.m_bbox.boxmax.z - pVol.m_bbox.boxmin.z)
          / (pVol.m_nGridRes_d : ℚ)) ∧
    (shift_index.x = 0 →
      (UpdateShift pVol shift_index).1.m_bbox.boxmin.x = pVol.m_bbox.boxmin.x ∧
      (UpdateShift pVol shift_index).1.m_bbox.boxmax.x = pVol.m_bbox.boxmax.x) ∧
    (shift_index.y = 0 →
      (UpdateShift pVol shift_index).1.m_bbox.boxmin.y = pVol.m_bbox.boxmin.y ∧
      (UpdateShift pVol shift_index).1.m_bbox.boxmax.y = pVol.m_bbox.boxmax.y) ∧
    (shift_index.z = 0 →
      (UpdateShift pVol shift_index).1.m_bbox.boxmin.z = pVol.m_bbox.boxmin.z ∧
      (UpdateShift pVol shift_index).1.m_bbox.boxmax.z = pVol.m_bbox.boxmax.z) ∧
    (shift_index.x ≠ 0 ∨ shift_index.y ≠ 0 ∨ shift_index.z ≠ 0 →
      (UpdateShift pVol shift_index).2 = [shift_index]) ∧
    (shift_index.x = 0 ∧ shift_index.y = 0 ∧ shift_index.z = 0 →
      (UpdateShift pVol shift_index).2 = []) := by
  by_cases hx : shift_index.x = 0 <;> by_cases hy : shift_index.y = 0 <;>
    by_cases hz : shift_index.z = 0 <;>
    simp [UpdateShift, BoundingBox.Size, hx, hy, hz]

/-- C6 amended, at a concrete input: a 4x4x4 window over the box
`[0,4] x [0,4] x [0,4]` shifted by (1,0,0) has its x bounds moved by one
block width, to 1 and 5, its y and z bounds unchanged, and one call of the
global-shift update with (1,0,0). -/
theorem UpdateShift_translates_witness :
    (0 < (emptyWindow 4 4 4 ⟨0, 0, 0⟩).m_nGridRes_w ∧
      0 < (emptyWindow 4 4 4 ⟨0, 0, 0⟩).m_nGridRes_h ∧
      0 < (emptyWindow 4 4 4 ⟨0, 0, 0⟩).m_nGridRes_d) ∧
    (UpdateShift (emptyWindow 4 4 4 ⟨0, 0, 0⟩) ⟨1, 0, 0⟩).1.m_bbox.boxmin.x = 1 ∧
    (UpdateShift (emptyWindow 4 4 4 ⟨0, 0, 0⟩) ⟨1, 0, 0⟩).1.m_bbox.boxmax.x = 5 ∧
    (UpdateShift (emptyWindow 4 4 4 ⟨0, 0, 0⟩) ⟨1, 0, 0⟩).1.m_bbox.boxmin.y = 0 ∧
    (UpdateShift (emptyWindow 4 4 4 ⟨0, 0, 0⟩) ⟨1, 0, 0⟩).1.m_bbox.boxmax.y = 4 ∧
    (UpdateShift (emptyWindow 4 4 4 ⟨0, 0, 0⟩) ⟨1, 0, 0⟩).1.m_bbox.boxmin.z = 0 ∧
    (UpdateShift (emptyWindow 4 4 4 ⟨0, 0, 0⟩) ⟨1, 0, 0⟩).1.m_bbox.boxmax.z = 4 ∧
    (UpdateShift (emptyWindow 4 4 4 ⟨0, 0, 0⟩) ⟨1, 0, 0⟩).2 = [⟨1, 0, 0⟩] := by
  have h := UpdateShift_translates (emptyWindow 4 4 4 ⟨0, 0, 0⟩) ⟨1, 0, 0⟩
    (by decide) (by decide) (by decide)
  obtain ⟨hx, -, -, -, hy, hz, hc, -⟩ := h
  have hx' := hx (by decide)
  have hy' := hy rfl
  have hz' := hz rfl
  refine ⟨⟨by decide, by decide, by decide⟩, ?_, ?_, ?_, ?_, ?_, ?_, hc (Or.inl (by decide))⟩
  · rw [hx'.1]; norm_num [emptyWindow]
  · rw [hx'.2]; norm_num [emptyWindow]
  · rw [hy'.1]; rfl
  · rw [hy'.2]; norm_num [emptyWindow]
  · rw [hz'.1]; rfl
  · rw [hz'.2]; norm_num [emptyWindow]

/-- C7: after `ResetAndFreeGird`, a slot below `w * h * d` that was flagged
for reset and active holds the reset block with its storage released and its
three dimensions zero, and reads as inactive; every other slot is exactly as
it was, and so are the other fields of the window. -/
theorem ResetAndFreeGird_effect_frame (empty : Nat → Nat) (t : NextResetSDF)
    (pVol : BoundedVolumeGrid) (i : Nat) :
    (i < pVol.m_nGridRes_w * pVol.m_nGridRes_h * pVol.m_nGridRes_d ∧
        t.m_nNextResetSDFs i = 1 ∧ CheckIfBasicSDFActive pVol i = true →
      (ResetAndFreeGird empty t pVol).m_GridVolumes i
          = { SdfReset empty (pVol.m_GridVolumes i) with ptr := none, d := 0, w := 0, h := 0 } ∧
        ((ResetAndFreeGird empty t pVol).m_GridVolumes i).w = 0 ∧
        ((ResetAndFreeGird empty t pVol).m_GridVolumes i).h = 0 ∧
        ((ResetAndFreeGird empty t pVol).m_GridVolumes i).d = 0 ∧
        ((ResetAndFreeGird empty t pVol).m_GridVolumes i).ptr = none ∧
        CheckIfBasicSDFActive (ResetAndFreeGird empty t pVol) i = false) ∧
    (t.m_nNextResetSDFs i ≠ 1 ∨ CheckIfBasicSDFActive pVol i = false ∨
        pVol.m_nGridRes_w * pVol.m_nGridRes_h * pVol.m_nGridRes_d ≤ i →
      (ResetAndFreeGird empty t pVol).m_GridVolumes i = pVol.m_GridVolumes i) ∧
    (ResetAndFreeGird empty t pVol).m_bbox = pVol.m_bbox ∧
    (ResetAndFreeGird empty t pVol).m_nGridRes_w = pVol.m_nGridRes_w ∧
    (ResetAndFreeGird empty t pVol).m_nGridRes_h = pVol.m_nGridRes_h ∧
    (ResetAndFreeGird empty t pVol).m_nGridRes_d = pVol.m_nGridRes_d ∧
    (ResetAndFreeGird empty t pVol).m_local_shift = pVol.m_local_shift ∧
    (ResetAndFreeGird empty t pVol).m_global_shift = pVol.m_global_shift := by
  rw [ResetAndFreeGird_eq_resetSlots]
  refine ⟨fun hc => ?_, fun hc => ?_, rfl, rfl, rfl, rfl, rfl, rfl⟩
  · have hg := resetSlots_grid_pos t pVol _ i hc
    rw [hg]
    exact ⟨rfl, rfl, rfl, rfl, rfl, CheckIfBasicSDFActive_zero hg⟩
  · apply resetSlots_grid_neg
    rintro ⟨h1, h2, h3⟩
    rcases hc with hc | hc | hc
    · exact hc h2
    · rw [hc] at h3; cases h3
    · omega

/-- C7, at a concrete input: in the 2x1x1 window with both blocks active and
the table that flags slot 0 only, slot 0 is zeroed and released and slot 1 is
left as it was. -/
theorem ResetAndFreeGird_effect_frame_witness :
    (ResetAndFreeGird (fun _ => 0) staleTable staleWindow).m_GridVolumes 0 = ⟨0, 0, 0, none⟩ ∧
    CheckIfBasicSDFActive (ResetAndFreeGird (fun _ => 0) staleTable staleWindow) 0 = false ∧
    (ResetAndFreeGird (fun _ => 0) staleTable staleWindow).m_GridVolumes 1
      = ⟨1, 1, 1, some [5]⟩ := by
  have h0 := (ResetAndFreeGird_effect_frame (fun _ => 0) staleTable staleWindow 0).1
    ⟨by decide, staleTable_reset_zero, by decide⟩
  have h1 := (ResetAndFreeGird_effect_frame (fun _ => 0) staleTable staleWindow 1).2.1
    (Or.inl (by rw [staleTable_reset_one]; decide))
  exact ⟨h0.1, h0.2.2.2.2.2, h1⟩

/-- C8: `ResetAndFreeGird` is idempotent: a second call with the same table
returns the window the first call returned. -/
theorem ResetAndFreeGird_idempotent (empty : Nat → Nat) (t : NextResetSDF)
    (pVol : BoundedVolumeGrid) :
    ResetAndFreeGird empty t (ResetAndFreeGird empty t pVol)
      = ResetAndFreeGird empty t pVol := by
  rw [ResetAndFreeGird_eq_resetSlots empty t pVol, ResetAndFreeGird_eq_resetSlots]
  exact resetSlots_idem t pVol _

/-! ## Decimal text -/

theorem digitsValue_append (a : Nat) (ds es : List Nat) :
    digitsValue a (ds ++ es) = digitsValue (digitsValue a ds) es := by
  simp [digitsValue, List.foldl_append]

theorem decimalAux_spec : ∀ (fuel n : Nat) (acc : List Nat), n < fuel →
    ∃ ds, decimalAux fuel n acc = ds ++ acc ∧ ds ≠ [] ∧ (∀ c ∈ ds, isdigit c = true) ∧
      ∀ a, digitsValue a ds = a * 10 ^ ds.length + n := by
  intro fuel
  induction fuel with
  | zero => intro n acc h; omega
  | succ fuel ih =>
    intro n acc hn
    unfold decimalAux
    by_cases h0 : n / 10 = 0
    · rw [if_pos h0]
      refine ⟨[48 + n % 10], rfl, by simp, ?_, ?_⟩
      · intro c hc
        simp only [List.mem_singleton] at hc
        subst hc
        simp only [isdigit, decide_eq_true_eq]
        omega
      · intro a
        simp only [digitsValue, List.foldl_cons, List.foldl_nil, List.length_singleton, pow_one]
        omega
    · rw [if_neg h0]
      obtain ⟨ds, hds, _, hdig, hval⟩ := ih (n / 10) ((48 + n % 10) :: acc) (by omega)
      refine ⟨ds ++ [48 + n % 10], by rw [hds]; simp, by simp, ?_, ?_⟩
      · intro c hc
        rcases List.mem_append.mp hc with hc | hc
        · exact hdig c hc
        · simp only [List.mem_singleton] at hc
          subst hc
          simp only [isdigit, decide_eq_true_eq]
          omega
      · intro a
        rw [digitsValue_append, hval]
        simp only [digitsValue, List.foldl_cons, List.foldl_nil, List.length_append,
          List.length_singleton, pow_succ]
        have h1 := Nat.div_add_mod n 10
        have h2 : 10 * (a * 10 ^ ds.length + n / 10) = a * (10 ^ ds.length * 10) + 10 * (n / 10) := by
          ring
        have h3 : 48 + n % 10 - 48 = n % 10 := by omega
        rw [h2, h3]
        omega

theorem decimalNat_ne_nil (n : Nat) : decimalNat n ≠ [] := by
  obtain ⟨ds, hds, hne, _, _⟩ := decimalAux_spec (n + 1) n [] (by omega)
  unfold decimalNat
  rw [hds]
  simpa using hne

theorem decimalNat_isdigit (n : Nat) : ∀ c ∈ decimalNat n, isdigit c = true := by
  obtain ⟨ds, hds, _, hdig, _⟩ := decimalAux_spec (n + 1) n [] (by omega)
  unfold decimalNat
  rw [hds]
  simpa using hdig

theorem digitsValue_decimalNat (n : Nat) : digitsValue 0 (decimalNat n) = n := by
  obtain ⟨ds, hds, _, _, hval⟩ := decimalAux_spec (n + 1) n [] (by omega)
  unfold decimalNat
  rw [hds, List.append_nil, hval]
  simp

theorem takeWhile_append_stop (p : Nat → Bool) (ds : List Nat) (c : Nat) (r : List Nat)
    (hds : ∀ x ∈ ds, p x = true) (hc : p c = false) :
    (ds ++ c :: r).takeWhile p = ds := by
  induction ds with
  | nil => simp [List.takeWhile, hc]
  | cons x xs ih =>
    have hx : p x = true := hds x (List.mem_cons_self _ _)
    simp only [List.cons_append, List.takeWhile_cons, hx, if_true]
    rw [ih (fun y hy => hds y (List.mem_cons_of_mem _ hy))]

theorem dropWhile_append_stop (p : Nat → Bool) (ds : List Nat) (c : Nat) (r : List Nat)
    (hds : ∀ x ∈ ds, p x = true) (hc : p c = false) :
    (ds ++ c :: r).dropWhile p = c :: r := by
  induction ds with
  | nil => simp [List.dropWhile, hc]
  | cons x xs ih =>
    have hx : p x = true := hds x (List.mem_cons_self _ _)
    simp only [List.cons_append, List.dropWhile_cons, hx, if_true]
    rw [ih (fun y hy => hds y (List.mem_cons_of_mem _ hy))]

theorem takeWhile_all (p : Nat → Bool) (ds : List Nat) (hds : ∀ x ∈ ds, p x = true) :
    ds.takeWhile p = ds := by
  induction ds with
  | nil => rfl
  | cons x xs ih =>
    have hx : p x = true := hds x (List.mem_cons_self _ _)
    simp only [List.takeWhile_cons, hx, if_true]
    rw [ih (fun y hy => hds y (List.mem_cons_of_mem _ hy))]

/-- A digit is neither whitespace nor a sign. -/
theorem isdigit_facts {c : Nat} (h : isdigit c = true) :
    isspace c = false ∧ c ≠ 45 ∧ c ≠ 43 := by
  simp only [isdigit, decide_eq_true_eq] at h
  refine ⟨?_, by omega, by omega⟩
  simp only [isspace, decide_eq_false_iff_not]
  omega

/-- The decimal text of `n` starts with a digit. -/
theorem decimalNat_eq_cons (n : Nat) :
    ∃ c t, decimalNat n = c :: t ∧ isdigit c = true := by
  have hne := decimalNat_ne_nil n
  have hdig := decimalNat_isdigit n
  cases h : decimalNat n with
  | nil => exact absurd h hne
  | cons c t =>
    rw [h] at hdig
    exact ⟨c, t, rfl, hdig c (List.mem_cons_self _ _)⟩

/-! ## Reading the header -/

theorem sentry_skip_one (sp x : Nat) (rest : List Nat) (hsp : isspace sp = true)
    (hx : isspace x = false) :
    IStream.sentry ⟨sp :: x :: rest, false, false⟩ false = (⟨x :: rest, false, false⟩, true) := by
  simp [IStream.sentry, IStream.good, List.dropWhile, hsp, hx]

theorem sentry_skip_none (x : Nat) (rest : List Nat) (hx : isspace x = false) :
    IStream.sentry ⟨x :: rest, false, false⟩ false = (⟨x :: rest, false, false⟩, true) := by
  simp [IStream.sentry, IStream.good, List.dropWhile, hx]

theorem sentry_noskipws (b : List Nat) :
    IStream.sentry ⟨b, false, false⟩ true = (⟨b, false, false⟩, true) := by
  simp [IStream.sentry, IStream.good]

/-- Reading a whitespace-free, nonempty tag that is followed by whitespace. -/
theorem readString_token (tag : List Nat) (c : Nat) (r old : List Nat) (hne : tag ≠ [])
    (htag : ∀ x ∈ tag, isspace x = false) (hc : isspace c = true) :
    IStream.readString ⟨tag ++ c :: r, false, false⟩ old = (⟨c :: r, false, false⟩, tag) := by
  cases tag with
  | nil => exact absurd rfl hne
  | cons x xs =>
    have hx : isspace x = false := htag x (List.mem_cons_self _ _)
    have hp : ∀ y ∈ x :: xs, (fun c => !isspace c) y = true := by
      intro y hy
      simp [htag y hy]
    have hpc : (fun c => !isspace c) c = false := by simp [hc]
    unfold IStream.readString
    rw [List.cons_append, sentry_skip_none x _ hx]
    simp only
    rw [← List.cons_append, takeWhile_append_stop _ _ c r hp hpc,
      dropWhile_append_stop _ _ c r hp hpc]
    simp

/-- Reading an unsigned decimal text that is preceded by one whitespace byte
and followed by a byte that is not a digit. -/
theorem readInt_decimalNat (n : Nat) (sp c : Nat) (r : List Nat) (old : Int)
    (hsp : isspace sp = true) (hc : isdigit c = false) (hn : (n : Int) ≤ INT_MAX) :
    IStream.readInt ⟨sp :: (decimalNat n ++ c :: r), false, false⟩ old
      = (⟨c :: r, false, false⟩, (n : Int)) := by
  obtain ⟨x, t, hxt, hx⟩ := decimalNat_eq_cons n
  obtain ⟨hxs, hx45, hx43⟩ := isdigit_facts hx
  have hdig := decimalNat_isdigit n
  have hval := digitsValue_decimalNat n
  unfold IStream.readInt
  rw [hxt, List.cons_append, sentry_skip_one sp x _ hsp hxs]
  simp only [List.head?_cons, Option.some.injEq, hx45, hx43, or_self, if_false, decide_False]
  rw [← List.cons_append, ← hxt, takeWhile_append_stop _ _ c r hdig hc,
    dropWhile_append_stop _ _ c r hdig hc, hval]
  have h1 : decimalNat n ≠ [] := decimalNat_ne_nil n
  have h2 : ¬ ((n : Int) > INT_MAX) := by omega
  have h3 : ¬ ((n : Int) < INT_MIN) := by
    unfold INT_MIN
    omega
  simp [h1, h2, h3]

/-- Reading the text of a negative `int`. -/
theorem readInt_negative (n : Nat) (sp c : Nat) (r : List Nat) (old : Int)
    (hsp : isspace sp = true) (hc : isdigit c = false) (hn : INT_MIN ≤ -(n : Int)) :
    IStream.readInt ⟨sp :: (45 :: decimalNat n ++ c :: r), false, false⟩ old
      = (⟨c :: r, false, false⟩, -(n : Int)) := by
  have hdig := decimalNat_isdigit n
  have hval := digitsValue_decimalNat n
  have h45 : isspace 45 = false := by decide
  unfold IStream.readInt
  rw [List.cons_append, sentry_skip_one sp 45 _ hsp h45]
  simp only [List.head?_cons, true_or, if_true, List.tail_cons, decide_True]
  rw [takeWhile_append_stop _ _ c r hdig hc, dropWhile_append_stop _ _ c r hdig hc, hval]
  have h1 : decimalNat n ≠ [] := decimalNat_ne_nil n
  have h2 : ¬ (-(n : Int) > INT_MAX) := by
    unfold INT_MAX
    omega
  have h3 : ¬ (-(n : Int) < INT_MIN) := by omega
  simp [h1, h2, h3]

/-- Reading the text of any `int` printed by `operator<<`. -/
theorem readInt_to_string (z : Int) (sp c : Nat) (r : List Nat) (old : Int)
    (hsp : isspace sp = true) (hc : isdigit c = false) (hz : INT_MIN ≤ z ∧ z ≤ INT_MAX) :
    IStream.readInt ⟨sp :: (to_string z ++ c :: r), false, false⟩ old
      = (⟨c :: r, false, false⟩, z) := by
  unfold to_string
  by_cases hneg : z < 0
  · rw [if_pos hneg]
    have hz' : z = -((z.natAbs : Nat) : Int) := by omega
    have h := readInt_negative z.natAbs sp c r old hsp hc (by omega)
    rw [← hz'] at h
    exact h
  · rw [if_neg hneg]
    have hz' : z = ((z.natAbs : Nat) : Int) := by omega
    have h := readInt_decimalNat z.natAbs sp c r old hsp hc (by omega)
    rw [← hz'] at h
    exact h

theorem ignore1_cons (c : Nat) (r : List Nat) :
    IStream.ignore1 ⟨c :: r, false, false⟩ = ⟨r, false, false⟩ := by
  unfold IStream.ignore1
  rw [sentry_noskipws]

/-! ## Writing and reading the rows -/

theorem foldl_append_flatMap {α : Type} (f : α → List Nat) (L : List α) (init : List Nat) :
    L.foldl (fun acc x => acc ++ f x) init = init ++ L.flatMap f := by
  induction L generalizing init with
  | nil => simp
  | cons x xs ih => rw [List.foldl_cons, ih, List.flatMap_cons, List.append_assoc]

theorem SavePXM_eq (sizeofT : Nat) (vol : VolumeGrid) (ppm_type : List Nat) (num_colors : Int) :
    SavePXM sizeofT vol ppm_type num_colors
      = pxmHeader vol ppm_type num_colors ++ payloadRows sizeofT vol := by
  unfold SavePXM pxmHeader payloadRows
  simp only
  have hin : ∀ (d : Nat) (acc : List Nat),
      (List.range vol.h).foldl (fun bFile r =>
        bFile ++ (vol.bytes.drop (vol.RowPtr sizeofT r d)).take (vol.w * sizeofT)) acc
      = acc ++ (List.range vol.h).flatMap (fun r =>
        (vol.bytes.drop (vol.RowPtr sizeofT r d)).take (vol.w * sizeofT)) :=
    fun d acc => foldl_append_flatMap _ _ acc
  simp only [hin]
  rw [foldl_append_flatMap]

/-- Consecutive chunks of `rb` bytes make up one slice. -/
theorem flatMap_chunks (data : List Nat) (rb base : Nat) : ∀ n : Nat,
    (List.range n).flatMap (fun r => (data.drop (base + r * rb)).take rb)
      = (data.drop base).take (n * rb) := by
  intro n
  induction n with
  | zero => simp
  | succ n ih =>
    rw [List.range_succ, List.flatMap_append, ih, Nat.succ_mul, List.take_add, List.drop_drop]
    simp

theorem payloadRows_eq (sizeofT : Nat) (vol : VolumeGrid) :
    payloadRows sizeofT vol = vol.bytes.take (vol.d * (vol.h * (vol.w * sizeofT))) := by
  unfold payloadRows
  have hin : ∀ d : Nat, (List.range vol.h).flatMap (fun r =>
      (vol.bytes.drop (vol.RowPtr sizeofT r d)).take (vol.w * sizeofT))
      = (vol.bytes.drop (0 + d * (vol.h * (vol.w * sizeofT)))).take (vol.h * (vol.w * sizeofT)) := by
    intro d
    have hptr : ∀ r, vol.RowPtr sizeofT r d
        = d * (vol.h * (vol.w * sizeofT)) + r * (vol.w * sizeofT) := by
      intro r
      unfold VolumeGrid.RowPtr
      ring
    simp only [hptr]
    rw [flatMap_chunks, Nat.zero_add]
  simp only [hin]
  rw [flatMap_chunks]
  simp

/-- For a block whose storage holds exactly `w * h * d` voxels, the rows
written are the storage. -/
theorem payloadRows_full (sizeofT : Nat) (vol : VolumeGrid) (data : List Nat)
    (hptr : vol.ptr = some data) (hlen : data.length = vol.w * vol.h * vol.d * sizeofT) :
    payloadRows sizeofT vol = data := by
  rw [payloadRows_eq]
  have hb : vol.bytes = data := by simp [VolumeGrid.bytes, hptr]
  rw [hb]
  apply List.take_of_length_le
  rw [hlen]
  apply le_of_eq
  ring

/-- Reading one row: the invariant `loadState` moves from `q` to `q + 1`. -/
theorem loadState_step (payload : List Nat) (w h d rb Q q : Nat)
    (hlen : payload.length = Q * rb) (hq : q < Q) :
    (((loadState payload w h d rb Q q).1.read rb).1,
      (loadState payload w h d rb Q q).2.storeRow (q * rb)
        ((loadState payload w h d rb Q q).1.read rb).2)
      = loadState payload w h d rb Q (q + 1) := by
  have hle : (q + 1) * rb ≤ Q * rb := Nat.mul_le_mul_right rb hq
  have hq1 : (q + 1) * rb = q * rb + rb := Nat.succ_mul q rb
  have hread : (loadState payload w h d rb Q q).1.read rb
      = (⟨payload.drop ((q + 1) * rb), false, false⟩, (payload.drop (q * rb)).take rb) := by
    unfold loadState IStream.read
    rw [sentry_noskipws]
    simp only
    have hl : ¬ ((payload.drop (q * rb)).length < rb) := by
      rw [List.length_drop, hlen]
      omega
    rw [if_neg hl, List.drop_drop, hq1]
  rw [hread]
  unfold loadState VolumeGrid.storeRow VolumeGrid.bytes
  simp only [Option.getD_some]
  have hrow : ((payload.drop (q * rb)).take rb).length = rb := by
    rw [List.length_take, List.length_drop, hlen]
    omega
  have htk : (payload.take (q * rb)).length = q * rb := by
    rw [List.length_take, hlen]
    omega
  rw [hrow, List.take_left' htk, ← hq1]
  have hdrop : (payload.take (q * rb) ++ List.replicate ((Q - q) * rb) 0).drop ((q + 1) * rb)
      = List.replicate ((Q - (q + 1)) * rb) 0 := by
    have hda := @List.drop_append _ (payload.take (q * rb))
      (List.replicate ((Q - q) * rb) 0) rb
    rw [htk] at hda
    rw [hq1, hda, List.drop_replicate]
    congr 1
    rw [Nat.sub_add_eq, Nat.sub_mul (Q - q) 1 rb, Nat.one_mul]
  rw [hdrop, hq1, List.take_add]

/-- The inner loop of the row reader: `n` rows of slice `dd`. -/
theorem load_rows_inner (payload : List Nat) (sizeofT w h d dd : Nat) (X : Option (List Nat))
    (hlen : payload.length = d * h * (w * sizeofT)) (hdd : dd < d) :
    ∀ n, n ≤ h →
      (List.range n).foldl (fun (st : IStream × VolumeGrid) r =>
          ((st.1.read (w * sizeofT)).1,
            st.2.storeRow (VolumeGrid.RowPtr sizeofT ⟨w, h, d, X⟩ r dd)
              (st.1.read (w * sizeofT)).2))
        (loadState payload w h d (w * sizeofT) (d * h) (dd * h))
      = loadState payload w h d (w * sizeofT) (d * h) (dd * h + n) := by
  intro n
  induction n with
  | zero => intro _; rfl
  | succ n ih =>
    intro hn
    rw [List.range_succ, List.foldl_append, ih (by omega), List.foldl_cons, List.foldl_nil]
    have hq : dd * h + n < d * h := by
      have h1 : (dd + 1) * h ≤ d * h := Nat.mul_le_mul_right h hdd
      rw [Nat.succ_mul] at h1
      omega
    have hoff : VolumeGrid.RowPtr sizeofT ⟨w, h, d, X⟩ n dd = (dd * h + n) * (w * sizeofT) := rfl
    rw [hoff]
    exact loadState_step payload w h d (w * sizeofT) (d * h) (dd * h + n) hlen hq

/-- The two loops of the row reader, on a payload of exactly `d * h` rows. -/
theorem load_rows (payload : List Nat) (sizeofT w h d : Nat) (X : Option (List Nat))
    (hlen : payload.length = d * h * (w * sizeofT)) :
    ∀ m, m ≤ d →
      (List.range m).foldl (fun st dd =>
        (List.range h).foldl (fun (st : IStream × VolumeGrid) r =>
          ((st.1.read (w * sizeofT)).1,
            st.2.storeRow (VolumeGrid.RowPtr sizeofT ⟨w, h, d, X⟩ r dd)
              (st.1.read (w * sizeofT)).2)) st)
        (loadState payload w h d (w * sizeofT) (d * h) 0)
      = loadState payload w h d (w * sizeofT) (d * h) (m * h) := by
  intro m
  induction m with
  | zero => intro _; simp
  | succ m ih =>
    intro hm
    rw [List.range_succ, List.foldl_append, ih (by omega), List.foldl_cons, List.foldl_nil,
      load_rows_inner payload sizeofT w h d m X hlen (by omega) h (le_refl h), Nat.succ_mul]

theorem loadState_zero (payload : List Nat) (sizeofT w h d : Nat) :
    loadState payload w h d (w * sizeofT) (d * h) 0
      = (⟨payload, false, false⟩, VolumeGrid.InitVolume sizeofT w h d) := by
  unfold loadState VolumeGrid.InitVolume
  simp
  ring

theorem loadState_full (payload : List Nat) (sizeofT w h d : Nat)
    (hlen : payload.length = d * h * (w * sizeofT)) :
    loadState payload w h d (w * sizeofT) (d * h) (d * h)
      = (⟨[], false, false⟩, ⟨w, h, d, some payload⟩) := by
  unfold loadState
  rw [List.drop_of_length_le (le_of_eq hlen), List.take_of_length_le (le_of_eq hlen)]
  simp

/-- The text of the record, grouped the way the reader consumes it. -/
theorem pxmHeader_append (vol : VolumeGrid) (ppm_type : List Nat) (num_colors : Int)
    (data : List Nat) :
    pxmHeader vol ppm_type num_colors ++ data
      = ppm_type ++ 10 :: (decimalNat vol.w ++ 32 :: (decimalNat vol.h ++ 32 ::
          (decimalNat vol.d ++ 10 :: (to_string num_colors ++ 10 :: data)))) := by
  simp [pxmHeader]

/-- Block record round trip on well-formed blocks (shared statement). -/
theorem LoadPXMSingleGrid_SavePXM (sizeofT : Nat) (vol old : VolumeGrid) (data : List Nat)
    (ppm_type : List Nat) (num_colors : Int)
    (hw : 0 < vol.w ∧ (vol.w : Int) ≤ INT_MAX) (hh : 0 < vol.h ∧ (vol.h : Int) ≤ INT_MAX)
    (hd : 0 < vol.d ∧ (vol.d : Int) ≤ INT_MAX)
    (hptr : vol.ptr = some data) (hlen : data.length = vol.w * vol.h * vol.d * sizeofT)
    (htag : ppm_type ≠ [] ∧ ∀ c ∈ ppm_type, isspace c = false)
    (hnc : INT_MIN ≤ num_colors ∧ num_colors ≤ INT_MAX) :
    LoadPXMSingleGrid sizeofT (some (SavePXM sizeofT vol ppm_type num_colors)) old
      = (true, vol) := by
  have h10 : isspace 10 = true := by decide
  have h32 : isspace 32 = true := by decide
  have d10 : isdigit 10 = false := by decide
  have d32 : isdigit 32 = false := by decide
  have hlen' : data.length = vol.d * vol.h * (vol.w * sizeofT) := by
    rw [hlen]
    ring
  unfold LoadPXMSingleGrid
  rw [SavePXM_eq, payloadRows_full sizeofT vol data hptr hlen, pxmHeader_append]
  simp only [IStream.open]
  simp only [readString_token ppm_type 10 _ _ htag.1 htag.2 h10,
    readInt_decimalNat vol.w 10 32 _ 0 h10 d32 hw.2,
    readInt_decimalNat vol.h 32 32 _ 0 h32 d32 hh.2,
    readInt_decimalNat vol.d 32 10 _ 0 h32 d10 hd.2,
    readInt_to_string num_colors 10 10 _ 0 h10 d10 hnc, ignore1_cons]
  have hs : (!(IStream.fail ⟨data, false, false⟩) && decide ((vol.w : Int) > 0) &&
      decide ((vol.h : Int) > 0) && decide ((vol.d : Int) > 0)) = true := by
    simp [IStream.fail, hw.1, hh.1, hd.1]
  rw [if_pos hs]
  simp only [Int.toNat_ofNat, VolumeGrid.InitVolume]
  have hl := load_rows data sizeofT vol.w vol.h vol.d
    (some (List.replicate (vol.w * vol.h * vol.d * sizeofT) 0)) hlen' vol.d (le_refl _)
  rw [loadState_zero, loadState_full data sizeofT vol.w vol.h vol.d hlen'] at hl
  simp only [VolumeGrid.InitVolume] at hl
  rw [hl]
  cases vol
  simp only at hptr
  simp [hptr]

/-! ## The index LoadPXMGrid reads from a file name -/

theorem find_last_of.go_append (c : Nat) (xs ys : List Nat) :
    ∀ (i : Nat) (best : Option Nat),
      find_last_of.go c (xs ++ ys) i best
        = find_last_of.go c ys (i + xs.length) (find_last_of.go c xs i best) := by
  induction xs with
  | nil => intro i best; simp [find_last_of.go]
  | cons x xs ih =>
    intro i best
    rw [List.cons_append]
    simp only [find_last_of.go, List.length_cons]
    rw [ih]
    congr 1
    omega

theorem find_last_of.go_no_match (c : Nat) (xs : List Nat) (h : ∀ x ∈ xs, x ≠ c) :
    ∀ (i : Nat) (best : Option Nat), find_last_of.go c xs i best = best := by
  induction xs with
  | nil => intro i best; rfl
  | cons x xs ih =>
    intro i best
    simp only [find_last_of.go]
    rw [if_neg (h x (List.mem_cons_self _ _)), ih (fun y hy => h y (List.mem_cons_of_mem _ hy))]

/-- What follows the last `-` is the text of the index. -/
theorem sIndex_append_dash (pre ds : List Nat) (h : ∀ x ∈ ds, x ≠ 45) :
    LoadPXMGrid.sIndex (pre ++ 45 :: ds) = ds := by
  have hf : find_last_of (pre ++ 45 :: ds) 45 = some pre.length := by
    unfold find_last_of
    rw [find_last_of.go_append]
    simp only [find_last_of.go, if_true, Nat.zero_add]
    exact find_last_of.go_no_match 45 ds h _ _
  unfold LoadPXMGrid.sIndex
  rw [hf]
  simp only [substr]
  have hd : (pre ++ 45 :: ds).drop (pre.length + 1) = ds := by
    rw [List.drop_append]
    rfl
  rw [hd]
  apply List.take_of_length_le
  simp

theorem decimalNat_no_dash (k : Nat) : ∀ x ∈ decimalNat k, x ≠ 45 :=
  fun x hx => (isdigit_facts (decimalNat_isdigit k x hx)).2.1

theorem to_string_natCast (k : Nat) : to_string (k : Int) = decimalNat k := by
  unfold to_string
  rw [if_neg (by omega), Int.natAbs_ofNat]

theorem atoi_decimalNat (k : Nat) : atoi (decimalNat k) = (k : Int) := by
  obtain ⟨x, t, hxt, hx⟩ := decimalNat_eq_cons k
  obtain ⟨hxs, hx45, hx43⟩ := isdigit_facts hx
  have hdig := decimalNat_isdigit k
  have hval := digitsValue_decimalNat k
  have hdw : (decimalNat k).dropWhile isspace = decimalNat k := by
    rw [hxt]
    simp [List.dropWhile, hxs]
  unfold atoi
  simp only [hdw]
  have hh : (decimalNat k).head? = some x := by rw [hxt]; rfl
  simp only [hh, Option.some.injEq, hx45, hx43, or_self, if_false]
  rw [takeWhile_all _ _ hdig, hval]

theorem decimalNat_ne_BB (k : Nat) : decimalNat k ≠ [66, 66] := by
  intro h
  have := decimalNat_isdigit k 66 (by rw [h]; simp)
  revert this
  decide

/-- The file name `SavePXMGridDesire` builds ends with `-` and the decimal
text of the z coordinate of the cell. -/
theorem fileName_eq_append_dash (sPathName : List Nat) (G : Int3) (i j k : Nat)
    (bSaveGlobalPose : Bool) :
    ∃ pre, SavePXMGridDesire.fileName sPathName G ⟨i, j, k⟩ bSaveGlobalPose
      = (sPathName ++ pre) ++ 45 :: decimalNat k := by
  unfold SavePXMGridDesire.fileName
  rw [to_string_natCast k]
  by_cases hg : bSaveGlobalPose = false
  · rw [if_pos hg]
    exact ⟨[45] ++ to_string (i : Int) ++ [45] ++ to_string (j : Int), by simp⟩
  · rw [if_neg hg]
    exact ⟨[45] ++ to_string G.x ++ [45] ++ to_string G.y ++ [45] ++ to_string G.z ++ [45] ++
      to_string (i : Int) ++ [45] ++ to_string (j : Int), by simp⟩

/-- The index `LoadPXMGrid` recovers from a name written for the cell
`(i, j, k)` is `k`. -/
theorem sIndex_fileName (sPathName : List Nat) (G : Int3) (i j k : Nat)
    (bSaveGlobalPose : Bool) :
    LoadPXMGrid.sIndex (SavePXMGridDesire.fileName sPathName G ⟨i, j, k⟩ bSaveGlobalPose)
      = decimalNat k := by
  obtain ⟨pre, hpre⟩ := fileName_eq_append_dash sPathName G i j k bSaveGlobalPose
  rw [hpre, sIndex_append_dash _ _ (decimalNat_no_dash k)]

/-! ## The files SavePXMGridDesire leaves -/

/-- A loop of conditional stores leaves untouched every key that no
iteration writes. -/
theorem foldl_cond_store_frame {σ α κ β : Type} [DecidableEq κ] (p : σ → κ → β)
    (f : σ → α → σ) (c : α → Prop) [DecidablePred c] (key : α → κ) (val : α → β)
    (hf : ∀ t a, p (f t a) = if c a then setAt (p t) (key a) (val a) else p t) :
    ∀ (L : List α) (t : σ) (n : κ), (∀ a ∈ L, c a → key a ≠ n) →
      p (L.foldl f t) n = p t n := by
  intro L
  induction L with
  | nil => intro t n _; rfl
  | cons a L ih =>
    intro t n h
    rw [List.foldl_cons, ih (f t a) n (fun b hb => h b (List.mem_cons_of_mem _ hb)), hf]
    by_cases hc : c a
    · rw [if_pos hc, setAt_other _ _ _ _ (fun e => h a (List.mem_cons_self _ _) hc e.symm)]
    · rw [if_neg hc]

/-- A loop of conditional stores in which every write to the key `n` stores
`v`, and which writes `n` at least once, ends with `v` at `n`. -/
theorem foldl_cond_store_hit {σ α κ β : Type} [DecidableEq κ] (p : σ → κ → β)
    (f : σ → α → σ) (c : α → Prop) [DecidablePred c] (key : α → κ) (val : α → β)
    (hf : ∀ t a, p (f t a) = if c a then setAt (p t) (key a) (val a) else p t) :
    ∀ (L : List α) (t : σ) (n : κ) (v : β), (∃ a ∈ L, c a ∧ key a = n) →
      (∀ a ∈ L, c a → key a = n → val a = v) → p (L.foldl f t) n = v := by
  intro L
  induction L with
  | nil => intro t n v h; obtain ⟨a, ha, _⟩ := h; cases ha
  | cons a L ih =>
    intro t n v hex hall
    rw [List.foldl_cons]
    by_cases hL : ∃ b ∈ L, c b ∧ key b = n
    · exact ih (f t a) n v hL (fun b hb => hall b (List.mem_cons_of_mem _ hb))
    · have hno : ∀ b ∈ L, c b → key b ≠ n := fun b hb hcb e => hL ⟨b, hb, hcb, e⟩
      rw [foldl_cond_store_frame p f c key val hf L (f t a) n hno, hf]
      obtain ⟨b, hb, hcb, hbn⟩ := hex
      rcases List.mem_cons.mp hb with rfl | hb'
      · rw [if_pos hcb, ← hbn, setAt_same]
        exact hall b (List.mem_cons_self _ _) hcb hbn
      · exact absurd hbn (hno b hb' hcb)

/-- The text of an `int` starts with a minus sign or a digit. -/
theorem to_string_eq_cons (z : Int) : ∃ c t, to_string z = c :: t ∧ c ≠ 66 := by
  unfold to_string
  by_cases hz : z < 0
  · rw [if_pos hz]
    exact ⟨45, _, rfl, by decide⟩
  · rw [if_neg hz]
    obtain ⟨c, t, hct, hc⟩ := decimalNat_eq_cons z.natAbs
    refine ⟨c, t, hct, ?_⟩
    intro h
    rw [h] at hc
    revert hc
    decide

/-- A block file is never named like a bounding-box file. -/
theorem fileName_not_BB (sPathName : List Nat) (G L : Int3) (bSaveGlobalPose : Bool) :
    ¬ (sPathName ++ [45, 66]) <+: SavePXMGridDesire.fileName sPathName G L bSaveGlobalPose := by
  have key : ∀ (z : Int) (rest : List Nat),
      ¬ (sPathName ++ [45, 66]) <+: sPathName ++ 45 :: (to_string z ++ rest) := by
    intro z rest h
    obtain ⟨c, t, hct, hc⟩ := to_string_eq_cons z
    rw [hct, List.prefix_append_right_inj] at h
    obtain ⟨u, hu⟩ := h
    simp only [List.cons_append, List.nil_append, List.cons.injEq, true_and] at hu
    exact hc hu.1.symm
  unfold SavePXMGridDesire.fileName
  by_cases hg : bSaveGlobalPose = false
  · rw [if_pos hg]
    have := key L.x ([45] ++ to_string L.y ++ [45] ++ to_string L.z)
    simpa using this
  · rw [if_neg hg]
    have := key G.x ([45] ++ to_string G.y ++ [45] ++ to_string G.z ++ [45] ++ to_string L.x ++
      [45] ++ to_string L.y ++ [45] ++ to_string L.z)
    simpa using this

/-- `CheckifSaveBB` touches no block file. -/
theorem blockFiles_CheckifSaveBB (ext : External) (sPathName : List Nat) (G : Int3)
    (rDVol : BoundedVolumeGrid) (fs : FileSystem) :
    blockFiles sPathName (CheckifSaveBB ext sPathName G rDVol fs) = blockFiles sPathName fs := by
  funext n
  unfold blockFiles
  by_cases hn : (sPathName ++ [45, 66]) <+: n
  · rw [if_pos hn, if_pos hn]
  · rw [if_neg hn, if_neg hn]
    simp only [CheckifSaveBB]
    split
    · unfold SavePXMBoundingBox FileSystem.write
      have hne : n ≠ sPathName ++ [45, 66, 66, 45] ++ to_string G.x ++ [45] ++
          to_string G.y ++ [45] ++ to_string G.z := by
        intro h
        apply hn
        rw [h]
        exact ⟨[66, 45] ++ to_string G.x ++ [45] ++ to_string G.y ++ [45] ++ to_string G.z,
          by simp⟩
      rw [if_neg hne]
    · rfl

/-- One iteration of the save loop is a conditional store of a block file. -/
theorem SavePXMGridDesire.cell_store (ext : External) (sPathName : List Nat)
    (pGridNeedSave pFlagX pFlagY pFlagZ : Nat → Int) (rDVol hvol : BoundedVolumeGrid)
    (bSaveGlobalPose bSaveBBox : Bool) (ppm_type : List Nat) (num_colors : Int)
    (hcopy : hvol.m_GridVolumes = rDVol.m_GridVolumes)
    (st : FileSystem × Nat) (c : Nat × Nat × Nat) :
    blockFiles sPathName (SavePXMGridDesire.cell ext sPathName pGridNeedSave pFlagX pFlagY
        pFlagZ rDVol hvol bSaveGlobalPose bSaveBBox ppm_type num_colors st c.1 c.2.1 c.2.2).1
      = if pGridNeedSave (slotIndex rDVol c) = 1 ∧
            CheckIfBasicSDFActive rDVol (slotIndex rDVol c) = true
        then setAt (blockFiles sPathName st.1)
          (savedName ext sPathName pFlagX pFlagY pFlagZ rDVol bSaveGlobalPose c)
          (some (SavePXM ext.sizeofT (rDVol.m_GridVolumes (slotIndex rDVol c))
            ppm_type num_colors))
        else blockFiles sPathName st.1 := by
  have hact : ∀ n, CheckIfBasicSDFActive hvol n = CheckIfBasicSDFActive rDVol n :=
    fun n => CheckIfBasicSDFActive_congr (congrFun hcopy n)
  unfold SavePXMGridDesire.cell
  simp only [hact, hcopy]
  by_cases hc : pGridNeedSave (slotIndex rDVol c) = 1 ∧
      CheckIfBasicSDFActive rDVol (slotIndex rDVol c) = true
  · have hc' := hc
    simp only [slotIndex] at hc'
    rw [if_pos hc, if_pos hc']
    have hw : blockFiles sPathName (FileSystem.write st.1
        (savedName ext sPathName pFlagX pFlagY pFlagZ rDVol bSaveGlobalPose c)
        (SavePXM ext.sizeofT (rDVol.m_GridVolumes (slotIndex rDVol c)) ppm_type num_colors))
        = setAt (blockFiles sPathName st.1)
          (savedName ext sPathName pFlagX pFlagY pFlagZ rDVol bSaveGlobalPose c)
          (some (SavePXM ext.sizeofT (rDVol.m_GridVolumes (slotIndex rDVol c))
            ppm_type num_colors)) := by
      funext n
      unfold blockFiles FileSystem.write setAt
      beta_reduce
      by_cases hn : (sPathName ++ [45, 66]) <+: n
      · have hne : n ≠ savedName ext sPathName pFlagX pFlagY pFlagZ rDVol bSaveGlobalPose c := by
          intro h
          rw [h] at hn
          exact fileName_not_BB _ _ _ _ hn
        rw [if_pos hn, if_neg hne, if_pos hn]
      · rw [if_neg hn]
        by_cases hk : n = savedName ext sPathName pFlagX pFlagY pFlagZ rDVol bSaveGlobalPose c
        · rw [if_pos hk, if_pos hk]
        · rw [if_neg hk, if_neg hk, if_neg hn]
    by_cases hb : bSaveBBox = true
    · simp only [hb, if_true]
      rw [blockFiles_CheckifSaveBB]
      exact hw
    · simp only [hb]
      exact hw
  · have hc' := hc
    simp only [slotIndex] at hc'
    rw [if_neg hc, if_neg hc']

/-- The slot index of a lattice cell is below `w * h * d`. -/
theorem slotIndex_lt (pVol : BoundedVolumeGrid) {c : Nat × Nat × Nat}
    (hc : c ∈ latticeCells pVol.m_nGridRes_w pVol.m_nGridRes_h pVol.m_nGridRes_d) :
    slotIndex pVol c < pVol.m_nGridRes_w * pVol.m_nGridRes_h * pVol.m_nGridRes_d := by
  rw [mem_latticeCells] at hc
  obtain ⟨h1, h2, h3⟩ := hc
  unfold slotIndex
  have hjk : c.2.1 + pVol.m_nGridRes_h * c.2.2 + 1 ≤ pVol.m_nGridRes_h * pVol.m_nGridRes_d := by
    have := Nat.mul_le_mul_left pVol.m_nGridRes_h (Nat.succ_le_of_lt h3)
    rw [Nat.mul_succ] at this
    omega
  have hw := Nat.mul_le_mul_left pVol.m_nGridRes_w hjk
  rw [Nat.mul_succ, ← Nat.mul_assoc] at hw
  omega

theorem GetActiveGridVolNum_ne_zero (pVol : BoundedVolumeGrid) (n : Nat)
    (hn : n < pVol.m_nGridRes_w * pVol.m_nGridRes_h * pVol.m_nGridRes_d)
    (ha : CheckIfBasicSDFActive pVol n = true) : GetActiveGridVolNum pVol ≠ 0 := by
  unfold GetActiveGridVolNum
  intro h
  have hnil := List.eq_nil_of_length_eq_zero h
  have hmem : n ∈ (List.range (pVol.m_nGridRes_w * pVol.m_nGridRes_h *
      pVol.m_nGridRes_d)).filter (fun n => CheckIfBasicSDFActive pVol n) :=
    List.mem_filter.mpr ⟨List.mem_range.mpr hn, ha⟩
  rw [hnil] at hmem
  cases hmem

/-- After `SavePXMGridDesire`, the file named for a cell that is active and
has its mask entry set holds that cell's block record, provided no other
saved cell is given the same name. -/
theorem SavePXMGridDesire_lookup (ext : External) (sPathName : List Nat)
    (pGridNeedSave pFlagX pFlagY pFlagZ : Nat → Int) (rDVol : BoundedVolumeGrid)
    (bSaveGlobalPose bSaveBBox : Bool) (ppm_type : List Nat) (num_colors : Int)
    (fs : FileSystem) (c : Nat × Nat × Nat)
    (hc : c ∈ latticeCells rDVol.m_nGridRes_w rDVol.m_nGridRes_h rDVol.m_nGridRes_d)
    (hcond : pGridNeedSave (slotIndex rDVol c) = 1 ∧
      CheckIfBasicSDFActive rDVol (slotIndex rDVol c) = true)
    (hinj : ∀ b ∈ latticeCells rDVol.m_nGridRes_w rDVol.m_nGridRes_h rDVol.m_nGridRes_d,
      (pGridNeedSave (slotIndex rDVol b) = 1 ∧
        CheckIfBasicSDFActive rDVol (slotIndex rDVol b) = true) →
      savedName ext sPathName pFlagX pFlagY pFlagZ rDVol bSaveGlobalPose b
        = savedName ext sPathName pFlagX pFlagY pFlagZ rDVol bSaveGlobalPose c → b = c) :
    (SavePXMGridDesire ext sPathName pGridNeedSave pFlagX pFlagY pFlagZ rDVol bSaveGlobalPose
        bSaveBBox ppm_type num_colors fs).1
      (savedName ext sPathName pFlagX pFlagY pFlagZ rDVol bSaveGlobalPose c)
      = some (SavePXM ext.sizeofT (rDVol.m_GridVolumes (slotIndex rDVol c))
          ppm_type num_colors) := by
  have hne := GetActiveGridVolNum_ne_zero rDVol _ (slotIndex_lt rDVol hc) hcond.2
  unfold SavePXMGridDesire
  rw [if_neg hne]
  simp only
  rw [foldl_nested_eq (fun st i j k => SavePXMGridDesire.cell ext sPathName pGridNeedSave
    pFlagX pFlagY pFlagZ rDVol _ bSaveGlobalPose bSaveBBox ppm_type num_colors st i j k)]
  have hp := foldl_cond_store_hit (fun st : FileSystem × Nat => blockFiles sPathName st.1)
    (fun st c => SavePXMGridDesire.cell ext sPathName pGridNeedSave pFlagX pFlagY pFlagZ rDVol
      { (BoundedVolumeGrid.init rDVol rDVol.m_bbox).CopyAndInitFrom rDVol with
        m_global_shift := rDVol.m_global_shift }
      bSaveGlobalPose bSaveBBox ppm_type num_colors st c.1 c.2.1 c.2.2)
    (fun b => pGridNeedSave (slotIndex rDVol b) = 1 ∧
      CheckIfBasicSDFActive rDVol (slotIndex rDVol b) = true)
    (savedName ext sPathName pFlagX pFlagY pFlagZ rDVol bSaveGlobalPose)
    (fun b => some (SavePXM ext.sizeofT (rDVol.m_GridVolumes (slotIndex rDVol b))
      ppm_type num_colors))
    (fun st b => SavePXMGridDesire.cell_store ext sPathName pGridNeedSave pFlagX pFlagY pFlagZ
      rDVol { (BoundedVolumeGrid.init rDVol rDVol.m_bbox).CopyAndInitFrom rDVol with
        m_global_shift := rDVol.m_global_shift }
      bSaveGlobalPose bSaveBBox ppm_type num_colors rfl st b)
    (latticeCells rDVol.m_nGridRes_w rDVol.m_nGridRes_h rDVol.m_nGridRes_d) (fs, 0)
    (savedName ext sPathName pFlagX pFlagY pFlagZ rDVol bSaveGlobalPose c)
    (some (SavePXM ext.sizeofT (rDVol.m_GridVolumes (slotIndex rDVol c)) ppm_type num_colors))
    ⟨c, hc, hcond, rfl⟩
    (fun b hb hcb hkey => by rw [hinj b hb hcb hkey])
  have hnb : ¬ (sPathName ++ [45, 66]) <+:
      savedName ext sPathName pFlagX pFlagY pFlagZ rDVol bSaveGlobalPose c :=
    fileName_not_BB _ _ _ _
  simp only [blockFiles] at hp
  rw [if_neg hnb] at hp
  exact hp

/-- With no active slot `SavePXMGridDesire` leaves the file system as it is. -/
theorem SavePXMGridDesire_empty (ext : External) (sPathName : List Nat)
    (pGridNeedSave pFlagX pFlagY pFlagZ : Nat → Int) (rDVol : BoundedVolumeGrid)
    (bSaveGlobalPose bSaveBBox : Bool) (ppm_type : List Nat) (num_colors : Int)
    (fs : FileSystem) (h : GetActiveGridVolNum rDVol = 0) :
    SavePXMGridDesire ext sPathName pGridNeedSave pFlagX pFlagY pFlagZ rDVol bSaveGlobalPose
        bSaveBBox ppm_type num_colors fs = (fs, 0) := by
  unfold SavePXMGridDesire
  rw [if_pos h]

/-! ## The window LoadPXMGrid assembles -/

/-- When every listed file is a readable block record, the loop of
`LoadPXMGrid` does not exit and stores each block at the index read from the
file name. -/
theorem LoadPXMGrid.fold_eq (ext : External) (fs : FileSystem) (sDirName : List Nat)
    (blockOf : List Nat → VolumeGrid) (vfilename : List (List Nat))
    (hgood : ∀ f ∈ vfilename, LoadPXMGrid.sIndex f ≠ [66, 66] ∧
      ∀ old, LoadPXMSingleGrid ext.sizeofT (fs (sDirName ++ f)) old = (true, blockOf f)) :
    ∀ (hvol : BoundedVolumeGrid) (nNum : Nat),
      vfilename.foldl (LoadPXMGrid.file ext fs sDirName) (some (hvol, nNum))
        = some (loadedWindow blockOf vfilename hvol, nNum + vfilename.length) := by
  induction vfilename with
  | nil => intro hvol nNum; rfl
  | cons f fl ih =>
    intro hvol nNum
    obtain ⟨h1, h2⟩ := hgood f (List.mem_cons_self _ _)
    have hstep : LoadPXMGrid.file ext fs sDirName (some (hvol, nNum)) f
        = some ({ hvol with m_GridVolumes :=
            (setAt hvol.m_GridVolumes (atoi (LoadPXMGrid.sIndex f)).toNat (blockOf f)) },
          nNum + 1) := by
      unfold LoadPXMGrid.file
      simp only [h2, if_pos h1]
      simp
    rw [List.foldl_cons, hstep, ih (fun g hg => hgood g (List.mem_cons_of_mem _ hg))]
    simp only [loadedWindow, List.foldl_cons, List.length_cons]
    congr 2
    omega

theorem loadedWindow_hit (blockOf : List Nat → VolumeGrid) (vfilename : List (List Nat))
    (hvol : BoundedVolumeGrid) (n : Nat) (v : VolumeGrid)
    (hex : ∃ f ∈ vfilename, (atoi (LoadPXMGrid.sIndex f)).toNat = n)
    (hall : ∀ f ∈ vfilename, (atoi (LoadPXMGrid.sIndex f)).toNat = n → blockOf f = v) :
    (loadedWindow blockOf vfilename hvol).m_GridVolumes n = v :=
  foldl_store_hit BoundedVolumeGrid.m_GridVolumes _
    (fun f => (atoi (LoadPXMGrid.sIndex f)).toNat) blockOf (fun _ _ => rfl)
    vfilename hvol n v hex hall

theorem loadedWindow_frame (blockOf : List Nat → VolumeGrid) (vfilename : List (List Nat))
    (hvol : BoundedVolumeGrid) (n : Nat)
    (hno : ∀ f ∈ vfilename, (atoi (LoadPXMGrid.sIndex f)).toNat ≠ n) :
    (loadedWindow blockOf vfilename hvol).m_GridVolumes n = hvol.m_GridVolumes n :=
  foldl_store_frame BoundedVolumeGrid.m_GridVolumes _
    (fun f => (atoi (LoadPXMGrid.sIndex f)).toNat) blockOf (fun _ _ => rfl)
    vfilename hvol n hno

/-! ## Claims on persistence -/

theorem savedName_append (ext : External) (sDirName base : List Nat)
    (pFlagX pFlagY pFlagZ : Nat → Int) (rDVol : BoundedVolumeGrid) (bSaveGlobalPose : Bool)
    (c : Nat × Nat × Nat) :
    savedName ext (sDirName ++ base) pFlagX pFlagY pFlagZ rDVol bSaveGlobalPose c
      = sDirName ++ savedName ext base pFlagX pFlagY pFlagZ rDVol bSaveGlobalPose c := by
  unfold savedName SavePXMGridDesire.fileName
  split <;> simp [List.append_assoc]

theorem sIndex_savedName (ext : External) (sPathName : List Nat)
    (pFlagX pFlagY pFlagZ : Nat → Int) (rDVol : BoundedVolumeGrid) (bSaveGlobalPose : Bool)
    (c : Nat × Nat × Nat) :
    LoadPXMGrid.sIndex (savedName ext sPathName pFlagX pFlagY pFlagZ rDVol bSaveGlobalPose c)
      = decimalNat c.2.2 :=
  sIndex_fileName _ _ _ _ _ _

theorem decimalNat_inj {a b : Nat} (h : decimalNat a = decimalNat b) : a = b := by
  rw [← digitsValue_decimalNat a, ← digitsValue_decimalNat b, h]

theorem wellFormed_data {sizeofT : Nat} {g : VolumeGrid} (h : g.wellFormed sizeofT) :
    ∃ data, g.ptr = some data ∧ data.length = g.w * g.h * g.d * sizeofT := by
  obtain ⟨_, _, _, h4⟩ := h
  cases hp : g.ptr with
  | none => rw [hp] at h4; cases h4
  | some data =>
    rw [hp] at h4
    exact ⟨data, rfl, by simpa using h4⟩

theorem active_dims {pVol : BoundedVolumeGrid} {n : Nat}
    (h : CheckIfBasicSDFActive pVol n = true) :
    0 < (pVol.m_GridVolumes n).w ∧ 0 < (pVol.m_GridVolumes n).h ∧
      0 < (pVol.m_GridVolumes n).d := by
  simp only [CheckIfBasicSDFActive, decide_eq_true_eq] at h
  omega

/-- Window round trip for a single column of blocks (shared statement). -/
theorem LoadPXMGrid_SavePXMGridDesire_column (ext : External)
    (sDirName base sBBFileName : List Nat)
    (pGridNeedSave pFlagX pFlagY pFlagZ : Nat → Int) (rDVol vol : BoundedVolumeGrid)
    (bSaveGlobalPose bSaveBBox : Bool) (ppm_type : List Nat) (num_colors : Int)
    (fs : FileSystem) (vfilename : List (List Nat))
    (hw : rDVol.m_nGridRes_w = 1) (hh : rDVol.m_nGridRes_h = 1)
    (hmask : ∀ n, n < rDVol.m_nGridRes_d → pGridNeedSave n = 1)
    (hwf : ∀ k, k < rDVol.m_nGridRes_d → CheckIfBasicSDFActive rDVol k = true →
      (rDVol.m_GridVolumes k).wellFormed ext.sizeofT)
    (htag : validTag ppm_type) (hnc : INT_MIN ≤ num_colors ∧ num_colors ≤ INT_MAX)
    (hfiles : ∀ f, f ∈ vfilename ↔ ∃ k, k < rDVol.m_nGridRes_d ∧
      CheckIfBasicSDFActive rDVol k = true ∧
      f = savedName ext base pFlagX pFlagY pFlagZ rDVol bSaveGlobalPose (0, 0, k))
    (hbb : (SavePXMGridDesire ext (sDirName ++ base) pGridNeedSave pFlagX pFlagY pFlagZ rDVol
      bSaveGlobalPose bSaveBBox ppm_type num_colors fs).1 (sDirName ++ sBBFileName) ≠ none) :
    ∃ vol', LoadPXMGrid ext
        (SavePXMGridDesire ext (sDirName ++ base) pGridNeedSave pFlagX pFlagY pFlagZ rDVol
          bSaveGlobalPose bSaveBBox ppm_type num_colors fs).1
        sDirName vfilename sBBFileName vol = some (true, vol') ∧
      (∀ k, k < rDVol.m_nGridRes_d → CheckIfBasicSDFActive rDVol k = true →
        vol'.m_GridVolumes k = rDVol.m_GridVolumes k) ∧
      (∀ k, ¬ (k < rDVol.m_nGridRes_d ∧ CheckIfBasicSDFActive rDVol k = true) →
        vol'.m_GridVolumes k = ⟨0, 0, 0, none⟩) := by
  have hslot : ∀ k, slotIndex rDVol (0, 0, k) = k := by
    intro k
    simp [slotIndex, hw, hh]
  have hlat : ∀ k, k < rDVol.m_nGridRes_d →
      (0, 0, k) ∈ latticeCells rDVol.m_nGridRes_w rDVol.m_nGridRes_h rDVol.m_nGridRes_d := by
    intro k hk
    rw [mem_latticeCells]
    simp [hw, hh, hk]
  have hidx : ∀ c : Nat × Nat × Nat, (atoi (LoadPXMGrid.sIndex
      (savedName ext base pFlagX pFlagY pFlagZ rDVol bSaveGlobalPose c))).toNat = c.2.2 := by
    intro c
    rw [sIndex_savedName, atoi_decimalNat, Int.toNat_ofNat]
  generalize hfs : (SavePXMGridDesire ext (sDirName ++ base) pGridNeedSave pFlagX pFlagY pFlagZ
    rDVol bSaveGlobalPose bSaveBBox ppm_type num_colors fs).1 = fs' at hbb
  have hgood : ∀ f ∈ vfilename, LoadPXMGrid.sIndex f ≠ [66, 66] ∧
      ∀ old, LoadPXMSingleGrid ext.sizeofT (fs' (sDirName ++ f)) old
        = (true, rDVol.m_GridVolumes (atoi (LoadPXMGrid.sIndex f)).toNat) := by
    intro f hf
    obtain ⟨k, hk, hact, rfl⟩ := (hfiles f).mp hf
    rw [hidx]
    refine ⟨by rw [sIndex_savedName]; exact decimalNat_ne_BB k, fun old => ?_⟩
    have hinj : ∀ b ∈ latticeCells rDVol.m_nGridRes_w rDVol.m_nGridRes_h rDVol.m_nGridRes_d,
        (pGridNeedSave (slotIndex rDVol b) = 1 ∧
          CheckIfBasicSDFActive rDVol (slotIndex rDVol b) = true) →
        savedName ext (sDirName ++ base) pFlagX pFlagY pFlagZ rDVol bSaveGlobalPose b
          = savedName ext (sDirName ++ base) pFlagX pFlagY pFlagZ rDVol bSaveGlobalPose
            (0, 0, k) → b = (0, 0, k) := by
      intro b hb _ hname
      rw [mem_latticeCells, hw, hh] at hb
      have h3 := congrArg LoadPXMGrid.sIndex hname
      rw [sIndex_savedName, sIndex_savedName] at h3
      have h3' := decimalNat_inj h3
      obtain ⟨b1, b2, b3⟩ := b
      simp only at hb h3'
      have h1 : b1 = 0 := by omega
      have h2 : b2 = 0 := by omega
      rw [h1, h2, h3']
    have hl := SavePXMGridDesire_lookup ext (sDirName ++ base) pGridNeedSave pFlagX pFlagY
      pFlagZ rDVol bSaveGlobalPose bSaveBBox ppm_type num_colors fs (0, 0, k) (hlat k hk)
      ⟨by rw [hslot]; exact hmask k hk, by rw [hslot]; exact hact⟩ hinj
    rw [hfs, savedName_append, hslot] at hl
    rw [hl]
    obtain ⟨data, hptr, hlen⟩ := wellFormed_data (hwf k hk hact)
    obtain ⟨hi1, hi2, hi3, _⟩ := hwf k hk hact
    obtain ⟨hp1, hp2, hp3⟩ := active_dims hact
    exact LoadPXMSingleGrid_SavePXM ext.sizeofT _ old data ppm_type num_colors
      ⟨hp1, hi1⟩ ⟨hp2, hi2⟩ ⟨hp3, hi3⟩ hptr hlen htag hnc
  have hbox : LoadPXMBoundingBox ext fs' (sDirName ++ sBBFileName)
      = some (ext.parseBB ((fs' (sDirName ++ sBBFileName)).getD [])) := by
    unfold LoadPXMBoundingBox
    cases hx : fs' (sDirName ++ sBBFileName) with
    | none => exact absurd hx hbb
    | some b => simp [IStream.open, IStream.fail]
  refine ⟨vol.CopyAndInitFrom (loadedWindow
    (fun f => rDVol.m_GridVolumes (atoi (LoadPXMGrid.sIndex f)).toNat) vfilename
    (BoundedVolumeGrid.init vol (ext.parseBB ((fs' (sDirName ++ sBBFileName)).getD [])))),
    ?_, ?_, ?_⟩
  · unfold LoadPXMGrid
    rw [hbox]
    simp only
    rw [LoadPXMGrid.fold_eq ext fs' sDirName _ vfilename hgood]
  · intro k hk hact
    show (loadedWindow _ vfilename _).m_GridVolumes k = _
    apply loadedWindow_hit
    · exact ⟨_, (hfiles _).mpr ⟨k, hk, hact, rfl⟩, hidx (0, 0, k)⟩
    · intro f _ hf
      simp only [hf]
  · intro k hk
    show (loadedWindow _ vfilename _).m_GridVolumes k = _
    rw [loadedWindow_frame]
    · rfl
    · intro f hf hfk
      obtain ⟨k', hk', hact', rfl⟩ := (hfiles f).mp hf
      rw [hidx] at hfk
      simp only at hfk
      exact hk ⟨hfk ▸ hk', hfk ▸ hact'⟩

/-- C9 fails as stated: in a 2x1x1 window the cell (1,0,0) is slot 1, but
the index read from the name of its file is 0; after saving both active
blocks and loading the two written files, the block saved from slot 1
(payload 9) sits in slot 0 and slot 1 is unallocated. -/
theorem window_roundtrip_counterexample :
    (atoi (LoadPXMGrid.sIndex
      (savedName sampleExternal [109] (fun _ => 0) (fun _ => 0) (fun _ => 0)
        (twoBlockWindow 2 1 1) false (1, 0, 0)))).toNat = 0 ∧
    slotIndex (twoBlockWindow 2 1 1) (1, 0, 0) = 1 ∧
    (twoBlockWindow 2 1 1).m_GridVolumes 1 = ⟨1, 1, 1, some [9]⟩ ∧
    (LoadPXMGrid sampleExternal (savedFiles 2 1 1) [100, 47]
        [savedName sampleExternal [109] (fun _ => 0) (fun _ => 0) (fun _ => 0)
          (twoBlockWindow 2 1 1) false (0, 0, 0),
         savedName sampleExternal [109] (fun _ => 0) (fun _ => 0) (fun _ => 0)
          (twoBlockWindow 2 1 1) false (1, 0, 0)]
        [109, 45, 66, 66] (emptyWindow 2 1 1 ⟨0, 0, 0⟩)).map
      (fun r => (r.1, r.2.m_GridVolumes 0, r.2.m_GridVolumes 1))
      = some (true, ⟨1, 1, 1, some [9]⟩, ⟨0, 0, 0, none⟩) := by
  decide

/-- C9, amended: the slot index `LoadPXMGrid` recovers from a file name
written for the lattice cell `(i, j, k)` is `k`, the number after the last
`-`; so for every window with `w = h = 1` (where the slot of the cell
`(0, 0, k)` is `k`) whose active blocks are well formed, saving all its
active blocks with `SavePXMGridDesire` (save mask set for every slot, a valid
tag) and then loading the written block files with `LoadPXMGrid`, the
bounding-box file being present, into a freshly initialised window of
identical dimensions returns `true` and puts each saved block, dimensions and
payload, back into the slot it was saved from, the other slots staying
unallocated. -/
theorem window_roundtrip_column (ext : External)
    (sDirName base sBBFileName : List Nat)
    (pGridNeedSave pFlagX pFlagY pFlagZ : Nat → Int) (rDVol vol : BoundedVolumeGrid)
    (bSaveGlobalPose bSaveBBox : Bool) (ppm_type : List Nat) (num_colors : Int)
    (fs : FileSystem) (vfilename : List (List Nat))
    (hw : rDVol.m_nGridRes_w = 1) (hh : rDVol.m_nGridRes_h = 1)
    (hmask : ∀ n, n < rDVol.m_nGridRes_d → pGridNeedSave n = 1)
    (hwf : ∀ k, k < rDVol.m_nGridRes_d → CheckIfBasicSDFActive rDVol k = true →
      (rDVol.m_GridVolumes k).wellFormed ext.sizeofT)
    (htag : validTag ppm_type) (hnc : INT_MIN ≤ num_colors ∧ num_colors ≤ INT_MAX)
    (hfiles : ∀ f, f ∈ vfilename ↔ ∃ k, k < rDVol.m_nGridRes_d ∧
      CheckIfBasicSDFActive rDVol k = true ∧
      f = savedName ext base pFlagX pFlagY pFlagZ rDVol bSaveGlobalPose (0, 0, k))
    (hbb : (SavePXMGridDesire ext (sDirName ++ base) pGridNeedSave pFlagX pFlagY pFlagZ rDVol
      bSaveGlobalPose bSaveBBox ppm_type num_colors fs).1 (sDirName ++ sBBFileName) ≠ none) :
    (∀ (sPathName : List Nat) (G : Int3) (i j k : Nat) (bGlobal : Bool),
      (atoi (LoadPXMGrid.sIndex
        (SavePXMGridDesire.fileName sPathName G ⟨i, j, k⟩ bGlobal))).toNat = k) ∧
    ∃ vol', LoadPXMGrid ext
        (SavePXMGridDesire ext (sDirName ++ base) pGridNeedSave pFlagX pFlagY pFlagZ rDVol
          bSaveGlobalPose bSaveBBox ppm_type num_colors fs).1
        sDirName vfilename sBBFileName vol = some (true, vol') ∧
      (∀ k, k < rDVol.m_nGridRes_d → CheckIfBasicSDFActive rDVol k = true →
        vol'.m_GridVolumes k = rDVol.m_GridVolumes k) ∧
      (∀ k, ¬ (k < rDVol.m_nGridRes_d ∧ CheckIfBasicSDFActive rDVol k = true) →
        vol'.m_GridVolumes k = ⟨0, 0, 0, none⟩) := by
  refine ⟨fun sPathName G i j k bGlobal => ?_,
    LoadPXMGrid_SavePXMGridDesire_column ext sDirName base sBBFileName pGridNeedSave pFlagX
      pFlagY pFlagZ rDVol vol bSaveGlobalPose bSaveBBox ppm_type num_colors fs vfilename
      hw hh hmask hwf htag hnc hfiles hbb⟩
  rw [sIndex_fileName, atoi_decimalNat, Int.toNat_ofNat]

/-- C9 amended, at a concrete input: the 1x1x2 window with two active
one-voxel blocks, saved under `d/m` and loaded from the two written files. -/
theorem window_roundtrip_column_witness :
    ∃ vol', LoadPXMGrid sampleExternal (savedFiles 1 1 2) [100, 47]
        [savedName sampleExternal [109] (fun _ => 0) (fun _ => 0) (fun _ => 0)
          (twoBlockWindow 1 1 2) false (0, 0, 1),
         savedName sampleExternal [109] (fun _ => 0) (fun _ => 0) (fun _ => 0)
          (twoBlockWindow 1 1 2) false (0, 0, 0)]
        [109, 45, 66, 66] (emptyWindow 1 1 2 ⟨0, 0, 0⟩) = some (true, vol') ∧
      (∀ k, k < (twoBlockWindow 1 1 2).m_nGridRes_d →
        CheckIfBasicSDFActive (twoBlockWindow 1 1 2) k = true →
        vol'.m_GridVolumes k = (twoBlockWindow 1 1 2).m_GridVolumes k) ∧
      (∀ k, ¬ (k < (twoBlockWindow 1 1 2).m_nGridRes_d ∧
          CheckIfBasicSDFActive (twoBlockWindow 1 1 2) k = true) →
        vol'.m_GridVolumes k = ⟨0, 0, 0, none⟩) :=
  (window_roundtrip_column sampleExternal [100, 47] [109] [109, 45, 66, 66]
    (fun _ => 1) (fun _ => 0) (fun _ => 0) (fun _ => 0) (twoBlockWindow 1 1 2)
    (emptyWindow 1 1 2 ⟨0, 0, 0⟩) false false [80, 53] 255 sampleFiles
    [savedName sampleExternal [109] (fun _ => 0) (fun _ => 0) (fun _ => 0)
      (twoBlockWindow 1 1 2) false (0, 0, 1),
     savedName sampleExternal [109] (fun _ => 0) (fun _ => 0) (fun _ => 0)
      (twoBlockWindow 1 1 2) false (0, 0, 0)]
    rfl rfl (fun _ _ => rfl)
    (by
      intro k hk _
      have hk' : k < 2 := hk
      interval_cases k <;> decide)
    (by decide) (by decide)
    (by
      intro f
      constructor
      · intro hf
        rcases List.mem_cons.mp hf with rfl | hf
        · exact ⟨1, by decide, by decide, rfl⟩
        · rcases List.mem_cons.mp hf with rfl | hf
          · exact ⟨0, by decide, by decide, rfl⟩
          · cases hf
      · rintro ⟨k, hk, _, rfl⟩
        have hk' : k < 2 := hk
        interval_cases k <;> simp)
    (by decide)).2

/-- C10: for every well-formed block (dimensions in the range of `int`,
storage of exactly `w * h * d` voxels) with `w`, `h`, `d` all positive, a
valid tag and an `int` colour depth, `SavePXM` writes the tag line, the
`w h d` line, the colour-depth line and then the payload, and
`LoadPXMSingleGrid` accepts these bytes: it returns `true` and yields a block
with the same three dimensions and a byte-identical payload. -/
theorem SavePXM_LoadPXMSingleGrid_roundtrip (sizeofT : Nat) (vol old : VolumeGrid)
    (ppm_type : List Nat) (num_colors : Int)
    (hwf : vol.wellFormed sizeofT) (hw : 0 < vol.w) (hh : 0 < vol.h) (hd : 0 < vol.d)
    (htag : validTag ppm_type) (hnc : INT_MIN ≤ num_colors ∧ num_colors ≤ INT_MAX) :
    SavePXM sizeofT vol ppm_type num_colors
      = ppm_type ++ [10] ++ decimalNat vol.w ++ [32] ++ decimalNat vol.h ++ [32] ++
          decimalNat vol.d ++ [10] ++ to_string num_colors ++ [10] ++ vol.bytes ∧
    LoadPXMSingleGrid sizeofT (some (SavePXM sizeofT vol ppm_type num_colors)) old
      = (true, vol) ∧
    (LoadPXMSingleGrid sizeofT (some (SavePXM sizeofT vol ppm_type num_colors)) old).2.w
      = vol.w ∧
    (LoadPXMSingleGrid sizeofT (some (SavePXM sizeofT vol ppm_type num_colors)) old).2.h
      = vol.h ∧
    (LoadPXMSingleGrid sizeofT (some (SavePXM sizeofT vol ppm_type num_colors)) old).2.d
      = vol.d ∧
    (LoadPXMSingleGrid sizeofT (some (SavePXM sizeofT vol ppm_type num_colors)) old).2.bytes
      = vol.bytes := by
  obtain ⟨data, hptr, hlen⟩ := wellFormed_data hwf
  obtain ⟨hi1, hi2, hi3, _⟩ := hwf
  have hr := LoadPXMSingleGrid_SavePXM sizeofT vol old data ppm_type num_colors ⟨hw, hi1⟩
    ⟨hh, hi2⟩ ⟨hd, hi3⟩ hptr hlen htag hnc
  have hb : vol.bytes = data := by simp [VolumeGrid.bytes, hptr]
  refine ⟨?_, hr, ?_, ?_, ?_, ?_⟩
  · rw [SavePXM_eq, payloadRows_full sizeofT vol data hptr hlen, hb]
    rfl
  · rw [hr]
  · rw [hr]
  · rw [hr]
  · rw [hr]

/-- C10, at a concrete input: a 2x3x2 block of two-byte voxels with the
payload 0, 1, .., 23, the tag `P5` and colour depth 255. -/
theorem SavePXM_LoadPXMSingleGrid_roundtrip_witness :
    SavePXM 2 ⟨2, 3, 2, some (List.range 24)⟩ [80, 53] 255
      = [80, 53] ++ [10] ++ decimalNat 2 ++ [32] ++ decimalNat 3 ++ [32] ++
          decimalNat 2 ++ [10] ++ to_string 255 ++ [10] ++ List.range 24 ∧
    LoadPXMSingleGrid 2 (some (SavePXM 2 ⟨2, 3, 2, some (List.range 24)⟩ [80, 53] 255)) emptyGrid
      = (true, ⟨2, 3, 2, some (List.range 24)⟩) :=
  ⟨(SavePXM_LoadPXMSingleGrid_roundtrip 2 ⟨2, 3, 2, some (List.range 24)⟩ emptyGrid
      [80, 53] 255 (by decide) (by decide) (by decide) (by decide) (by decide) (by decide)).1,
   (SavePXM_LoadPXMSingleGrid_roundtrip 2 ⟨2, 3, 2, some (List.range 24)⟩ emptyGrid
      [80, 53] 255 (by decide) (by decide) (by decide) (by decide) (by decide) (by decide)).2.1⟩

/-! ## Claims on the slot mapping, the failed load and the selective save -/

/-- Every slot index below `w * h * d` is the slot of a lattice cell. -/
theorem slotIndex_surj (pVol : BoundedVolumeGrid) (n : Nat)
    (hn : n < pVol.m_nGridRes_w * pVol.m_nGridRes_h * pVol.m_nGridRes_d) :
    ∃ c ∈ latticeCells pVol.m_nGridRes_w pVol.m_nGridRes_h pVol.m_nGridRes_d,
      slotIndex pVol c = n := by
  have hw : 0 < pVol.m_nGridRes_w := by
    rcases Nat.eq_zero_or_pos pVol.m_nGridRes_w with h | h
    · rw [h] at hn; simp at hn
    · exact h
  have hh : 0 < pVol.m_nGridRes_h := by
    rcases Nat.eq_zero_or_pos pVol.m_nGridRes_h with h | h
    · rw [h] at hn; simp at hn
    · exact h
  refine ⟨(n % pVol.m_nGridRes_w, (n / pVol.m_nGridRes_w) % pVol.m_nGridRes_h,
    n / pVol.m_nGridRes_w / pVol.m_nGridRes_h), ?_, ?_⟩
  · rw [mem_latticeCells]
    refine ⟨Nat.mod_lt _ hw, Nat.mod_lt _ hh, ?_⟩
    simp only
    rw [Nat.div_div_eq_div_mul]
    exact Nat.div_lt_of_lt_mul hn
  · simp only [slotIndex]
    rw [Nat.add_comm ((n / pVol.m_nGridRes_w) % pVol.m_nGridRes_h), Nat.div_add_mod,
      Nat.add_comm, Nat.div_add_mod]

/-- C13: the linear index `i + w * (j + h * k)` maps the lattice cells
one-to-one onto the slot indices below `w * h * d`: it stays below
`w * h * d`, distinct cells get distinct indices, every index below
`w * h * d` is the index of a cell, and after a table computation with a
nonzero shift the four flags of every such index are the values stored for
its cell, whatever the table held before. -/
theorem slotIndex_bijective (pVol : BoundedVolumeGrid)
    (_hw : 0 < pVol.m_nGridRes_w) (_hh : 0 < pVol.m_nGridRes_h) (_hd : 0 < pVol.m_nGridRes_d) :
    (∀ i j k, i < pVol.m_nGridRes_w → j < pVol.m_nGridRes_h → k < pVol.m_nGridRes_d →
      i + pVol.m_nGridRes_w * (j + pVol.m_nGridRes_h * k)
        < pVol.m_nGridRes_w * pVol.m_nGridRes_h * pVol.m_nGridRes_d) ∧
    (∀ i j k i' j' k', i < pVol.m_nGridRes_w → j < pVol.m_nGridRes_h →
      k < pVol.m_nGridRes_d → i' < pVol.m_nGridRes_w → j' < pVol.m_nGridRes_h →
      k' < pVol.m_nGridRes_d →
      i + pVol.m_nGridRes_w * (j + pVol.m_nGridRes_h * k)
        = i' + pVol.m_nGridRes_w * (j' + pVol.m_nGridRes_h * k') →
      i = i' ∧ j = j' ∧ k = k') ∧
    (∀ n, n < pVol.m_nGridRes_w * pVol.m_nGridRes_h * pVol.m_nGridRes_d →
      ∃ i j k, i < pVol.m_nGridRes_w ∧ j < pVol.m_nGridRes_h ∧ k < pVol.m_nGridRes_d ∧
        i + pVol.m_nGridRes_w * (j + pVol.m_nGridRes_h * k) = n ∧
        ∀ (s : Int3) (t : NextResetSDF), (s.x ≠ 0 ∨ s.y ≠ 0 ∨ s.z ≠ 0) →
          (GetGridSDFIndexNeedFree pVol s t).m_nNextResetSDFs n = resetFlag pVol s (i, j, k) ∧
          (GetGridSDFIndexNeedFree pVol s t).m_x n = xFlag pVol s (i, j, k) ∧
          (GetGridSDFIndexNeedFree pVol s t).m_y n = yFlag pVol s (i, j, k) ∧
          (GetGridSDFIndexNeedFree pVol s t).m_z n = zFlag pVol s (i, j, k)) := by
  refine ⟨?_, ?_, ?_⟩
  · intro i j k hi hj hk
    exact @slotIndex_lt pVol (i, j, k) ((mem_latticeCells _ _ _ _).mpr ⟨hi, hj, hk⟩)
  · intro i j k i' j' k' hi hj hk hi' hj' hk' he
    have h := @slotIndex_inj pVol (i, j, k) (i', j', k')
      ((mem_latticeCells _ _ _ _).mpr ⟨hi, hj, hk⟩)
      ((mem_latticeCells _ _ _ _).mpr ⟨hi', hj', hk'⟩) he
    simp only [Prod.mk.injEq] at h
    exact h
  · intro n hn
    obtain ⟨c, hc, hcn⟩ := slotIndex_surj pVol n hn
    obtain ⟨i, j, k⟩ := c
    have hc' := (mem_latticeCells _ _ _ _).mp hc
    refine ⟨i, j, k, hc'.1, hc'.2.1, hc'.2.2, hcn, fun s t hs => ?_⟩
    rw [← hcn]
    exact ⟨table_at_cell NextResetSDF.m_nNextResetSDFs resetFlag cell_m_nNextResetSDFs pVol s t
        hs (i, j, k) hc,
      table_at_cell NextResetSDF.m_x xFlag cell_m_x pVol s t hs (i, j, k) hc,
      table_at_cell NextResetSDF.m_y yFlag cell_m_y pVol s t hs (i, j, k) hc,
      table_at_cell NextResetSDF.m_z zFlag cell_m_z pVol s t hs (i, j, k) hc⟩

/-- C13, at a concrete input: in a 2x3x2 window the slot 7 is the slot of
the cell (1,0,1) only, and it is below 12. -/
theorem slotIndex_bijective_witness :
    (0 < (emptyWindow 2 3 2 ⟨0, 0, 0⟩).m_nGridRes_w ∧
      0 < (emptyWindow 2 3 2 ⟨0, 0, 0⟩).m_nGridRes_h ∧
      0 < (emptyWindow 2 3 2 ⟨0, 0, 0⟩).m_nGridRes_d) ∧
    1 + 2 * (0 + 3 * 1) < 2 * 3 * 2 ∧
    (∀ i' j' k', i' < 2 → j' < 3 → k' < 2 →
      1 + 2 * (0 + 3 * 1) = i' + 2 * (j' + 3 * k') → 1 = i' ∧ 0 = j' ∧ 1 = k') :=
  ⟨⟨by decide, by decide, by decide⟩,
   (slotIndex_bijective (emptyWindow 2 3 2 ⟨0, 0, 0⟩) (by decide) (by decide) (by decide)).1
     1 0 1 (by decide) (by decide) (by decide),
   fun i' j' k' hi hj hk =>
     (slotIndex_bijective (emptyWindow 2 3 2 ⟨0, 0, 0⟩) (by decide) (by decide)
       (by decide)).2.1 1 0 1 i' j' k' (by decide) (by decide) (by decide) hi hj hk⟩

/-- Once the header is read and the three dimensions are positive,
`LoadPXMSingleGrid` returns `true`, whatever follows the header. -/
theorem LoadPXMSingleGrid_header_true (sizeofT : Nat) (vol old : VolumeGrid)
    (ppm_type : List Nat) (num_colors : Int) (payload : List Nat)
    (hw : 0 < vol.w ∧ (vol.w : Int) ≤ INT_MAX) (hh : 0 < vol.h ∧ (vol.h : Int) ≤ INT_MAX)
    (hd : 0 < vol.d ∧ (vol.d : Int) ≤ INT_MAX)
    (htag : validTag ppm_type) (hnc : INT_MIN ≤ num_colors ∧ num_colors ≤ INT_MAX) :
    (LoadPXMSingleGrid sizeofT (some (pxmHeader vol ppm_type num_colors ++ payload)) old).1
      = true := by
  have h10 : isspace 10 = true := by decide
  have h32 : isspace 32 = true := by decide
  have d10 : isdigit 10 = false := by decide
  have d32 : isdigit 32 = false := by decide
  unfold LoadPXMSingleGrid
  rw [pxmHeader_append]
  simp only [IStream.open]
  simp only [readString_token ppm_type 10 _ _ htag.1 htag.2 h10,
    readInt_decimalNat vol.w 10 32 _ 0 h10 d32 hw.2,
    readInt_decimalNat vol.h 32 32 _ 0 h32 d32 hh.2,
    readInt_decimalNat vol.d 32 10 _ 0 h32 d10 hd.2,
    readInt_to_string num_colors 10 10 _ 0 h10 d10 hnc, ignore1_cons]
  have hs : (!(IStream.fail ⟨payload, false, false⟩) && decide ((vol.w : Int) > 0) &&
      decide ((vol.h : Int) > 0) && decide ((vol.d : Int) > 0)) = true := by
    simp [IStream.fail, hw.1, hh.1, hd.1]
  rw [if_pos hs]

/-- A missing file makes `LoadPXMSingleGrid` return `false` and leave the
block as it was. -/
theorem LoadPXMSingleGrid_missing (sizeofT : Nat) (old : VolumeGrid) :
    LoadPXMSingleGrid sizeofT none old = (false, old) := by
  rfl

/-- C11 (evaluation of the code): a block record with a valid header,
positive dimensions and a payload shorter than `w * h * d * sizeof(T)` bytes
is not reported as a failure: `LoadPXMSingleGrid` returns `true`. -/
theorem LoadPXMSingleGrid_short_payload (sizeofT : Nat) (vol old : VolumeGrid)
    (ppm_type : List Nat) (num_colors : Int) (payload : List Nat)
    (hw : 0 < vol.w ∧ (vol.w : Int) ≤ INT_MAX) (hh : 0 < vol.h ∧ (vol.h : Int) ≤ INT_MAX)
    (hd : 0 < vol.d ∧ (vol.d : Int) ≤ INT_MAX)
    (htag : validTag ppm_type) (hnc : INT_MIN ≤ num_colors ∧ num_colors ≤ INT_MAX)
    (_hshort : payload.length < vol.w * vol.h * vol.d * sizeofT) :
    (LoadPXMSingleGrid sizeofT (some (pxmHeader vol ppm_type num_colors ++ payload)) old).1
      = true :=
  LoadPXMSingleGrid_header_true sizeofT vol old ppm_type num_colors payload hw hh hd htag hnc

/-- C11, at the failing input: the record of a 2x1x1 block of one-byte
voxels with one payload byte instead of two. `LoadPXMSingleGrid` returns
`true` with the block half filled, and `LoadPXMGrid` returns `true` with that
block in slot 0 instead of aborting. -/
theorem LoadPXMSingleGrid_short_payload_witness :
    ([7] : List Nat).length < 2 * 1 * 1 * 1 ∧
    (LoadPXMSingleGrid 1 (some (pxmHeader ⟨2, 1, 1, none⟩ [80, 53] 255 ++ [7])) emptyGrid).1
      = true ∧
    LoadPXMSingleGrid 1 (some (pxmHeader ⟨2, 1, 1, none⟩ [80, 53] 255 ++ [7])) emptyGrid
      = (true, ⟨2, 1, 1, some [7, 0]⟩) ∧
    (LoadPXMGrid sampleExternal truncatedFiles [100, 47] [[109, 45, 48]] [109, 45, 66, 66]
        (emptyWindow 1 1 1 ⟨0, 0, 0⟩)).map (fun r => (r.1, r.2.m_GridVolumes 0))
      = some (true, ⟨2, 1, 1, some [7, 0]⟩) :=
  ⟨by decide,
   LoadPXMSingleGrid_short_payload 1 ⟨2, 1, 1, none⟩ emptyGrid [80, 53] 255 [7]
     (by decide) (by decide) (by decide) (by decide) (by decide) (by decide),
   by decide, by decide⟩

/-- Two names that end with `-` and a decimal number agree only when the
numbers and what precedes them agree. -/
theorem append_dash_decimal_inj {A B : List Nat} {a b : Nat}
    (h : A ++ 45 :: decimalNat a = B ++ 45 :: decimalNat b) : A = B ∧ a = b := by
  have h1 := congrArg LoadPXMGrid.sIndex h
  rw [sIndex_append_dash _ _ (decimalNat_no_dash a),
    sIndex_append_dash _ _ (decimalNat_no_dash b)] at h1
  have hab := decimalNat_inj h1
  subst hab
  exact ⟨List.append_cancel_right h, rfl⟩

/-- The local index can be read back from a block file name. -/
theorem fileName_inj (sPathName : List Nat) (G G' : Int3) (i j k i' j' k' : Nat)
    (bSaveGlobalPose : Bool)
    (h : SavePXMGridDesire.fileName sPathName G ⟨i, j, k⟩ bSaveGlobalPose
      = SavePXMGridDesire.fileName sPathName G' ⟨i', j', k'⟩ bSaveGlobalPose) :
    i = i' ∧ j = j' ∧ k = k' := by
  have key : ∀ X Y : List Nat,
      X ++ [45] ++ decimalNat i ++ [45] ++ decimalNat j ++ [45] ++ decimalNat k
        = Y ++ [45] ++ decimalNat i' ++ [45] ++ decimalNat j' ++ [45] ++ decimalNat k' →
      i = i' ∧ j = j' ∧ k = k' := by
    intro X Y hxy
    have e1 : ∀ (Z : List Nat) (a b c : Nat),
        Z ++ [45] ++ decimalNat a ++ [45] ++ decimalNat b ++ [45] ++ decimalNat c
          = ((Z ++ 45 :: decimalNat a) ++ 45 :: decimalNat b) ++ 45 :: decimalNat c := by
      intro Z a b c
      simp
    rw [e1, e1] at hxy
    obtain ⟨h2, hk⟩ := append_dash_decimal_inj hxy
    obtain ⟨h3, hj⟩ := append_dash_decimal_inj h2
    obtain ⟨_, hi⟩ := append_dash_decimal_inj h3
    exact ⟨hi, hj, hk⟩
  unfold SavePXMGridDesire.fileName at h
  simp only [to_string_natCast] at h
  by_cases hg : bSaveGlobalPose = false
  · rw [if_pos hg, if_pos hg] at h
    exact key _ _ h
  · rw [if_neg hg, if_neg hg] at h
    have e2 : ∀ (H : Int3) (a b c : Nat),
        sPathName ++ [45] ++ to_string H.x ++ [45] ++ to_string H.y ++ [45] ++ to_string H.z ++
          [45] ++ decimalNat a ++ [45] ++ decimalNat b ++ [45] ++ decimalNat c
        = (sPathName ++ [45] ++ to_string H.x ++ [45] ++ to_string H.y ++ [45] ++
            to_string H.z) ++ [45] ++ decimalNat a ++ [45] ++ decimalNat b ++ [45] ++
            decimalNat c := by
      intro H a b c
      simp
    rw [e2, e2] at h
    exact key _ _ h

theorem savedName_inj (ext : External) (sPathName : List Nat)
    (pFlagX pFlagY pFlagZ : Nat → Int) (rDVol : BoundedVolumeGrid) (bSaveGlobalPose : Bool)
    (c c' : Nat × Nat × Nat)
    (h : savedName ext sPathName pFlagX pFlagY pFlagZ rDVol bSaveGlobalPose c
      = savedName ext sPathName pFlagX pFlagY pFlagZ rDVol bSaveGlobalPose c') : c = c' := by
  obtain ⟨i, j, k⟩ := c
  obtain ⟨i', j', k'⟩ := c'
  obtain ⟨h1, h2, h3⟩ := fileName_inj _ _ _ _ _ _ _ _ _ _ h
  simp only at h1 h2 h3
  rw [h1, h2, h3]

/-- One iteration of the save loop adds one to `nSaveGridNum` exactly when
it saves the cell. -/
theorem SavePXMGridDesire.cell_count (ext : External) (sPathName : List Nat)
    (pGridNeedSave pFlagX pFlagY pFlagZ : Nat → Int) (rDVol hvol : BoundedVolumeGrid)
    (bSaveGlobalPose bSaveBBox : Bool) (ppm_type : List Nat) (num_colors : Int)
    (hcopy : hvol.m_GridVolumes = rDVol.m_GridVolumes)
    (st : FileSystem × Nat) (c : Nat × Nat × Nat) :
    (SavePXMGridDesire.cell ext sPathName pGridNeedSave pFlagX pFlagY
        pFlagZ rDVol hvol bSaveGlobalPose bSaveBBox ppm_type num_colors st c.1 c.2.1 c.2.2).2
      = if pGridNeedSave (slotIndex rDVol c) = 1 ∧
            CheckIfBasicSDFActive rDVol (slotIndex rDVol c) = true
        then st.2 + 1 else st.2 := by
  have hact : ∀ n, CheckIfBasicSDFActive hvol n = CheckIfBasicSDFActive rDVol n :=
    fun n => CheckIfBasicSDFActive_congr (congrFun hcopy n)
  unfold SavePXMGridDesire.cell
  simp only [hact, slotIndex]
  split <;> rfl

/-- A loop that counts the iterations satisfying `c`. -/
theorem foldl_count {σ α : Type} (p : σ → Nat) (f : σ → α → σ) (c : α → Prop)
    [DecidablePred c] (hf : ∀ t a, p (f t a) = if c a then p t + 1 else p t) :
    ∀ (L : List α) (t : σ), p (L.foldl f t) = p t + (L.filter (fun a => decide (c a))).length := by
  intro L
  induction L with
  | nil => intro t; rfl
  | cons a L ih =>
    intro t
    rw [List.foldl_cons, ih, hf, List.filter_cons]
    by_cases hc : c a
    · simp only [hc, if_true, decide_True, List.length_cons]
      omega
    · simp only [hc, if_false, decide_False]
      rfl

/-- With no active slot, no lattice cell is saved. -/
theorem not_active_of_count_zero (pVol : BoundedVolumeGrid) (h : GetActiveGridVolNum pVol = 0)
    (c : Nat × Nat × Nat)
    (hc : c ∈ latticeCells pVol.m_nGridRes_w pVol.m_nGridRes_h pVol.m_nGridRes_d) :
    ¬ CheckIfBasicSDFActive pVol (slotIndex pVol c) = true :=
  fun ha => GetActiveGridVolNum_ne_zero pVol _ (slotIndex_lt pVol hc) ha h

/-- The block files after `SavePXMGridDesire`: a file whose name is not the
name of a saved cell is as it was. -/
theorem SavePXMGridDesire_frame (ext : External) (sPathName : List Nat)
    (pGridNeedSave pFlagX pFlagY pFlagZ : Nat → Int) (rDVol : BoundedVolumeGrid)
    (bSaveGlobalPose bSaveBBox : Bool) (ppm_type : List Nat) (num_colors : Int)
    (fs : FileSystem) (n : List Nat)
    (hn : ∀ b ∈ latticeCells rDVol.m_nGridRes_w rDVol.m_nGridRes_h rDVol.m_nGridRes_d,
      (pGridNeedSave (slotIndex rDVol b) = 1 ∧
        CheckIfBasicSDFActive rDVol (slotIndex rDVol b) = true) →
      savedName ext sPathName pFlagX pFlagY pFlagZ rDVol bSaveGlobalPose b ≠ n) :
    blockFiles sPathName (SavePXMGridDesire ext sPathName pGridNeedSave pFlagX pFlagY pFlagZ
        rDVol bSaveGlobalPose bSaveBBox ppm_type num_colors fs).1 n
      = blockFiles sPathName fs n := by
  unfold SavePXMGridDesire
  by_cases h0 : GetActiveGridVolNum rDVol = 0
  · rw [if_pos h0]
  · rw [if_neg h0]
    simp only
    rw [foldl_nested_eq (fun st i j k => SavePXMGridDesire.cell ext sPathName pGridNeedSave
      pFlagX pFlagY pFlagZ rDVol _ bSaveGlobalPose bSaveBBox ppm_type num_colors st i j k)]
    exact foldl_cond_store_frame (fun st : FileSystem × Nat => blockFiles sPathName st.1)
      (fun st c => SavePXMGridDesire.cell ext sPathName pGridNeedSave pFlagX pFlagY pFlagZ rDVol
        { (BoundedVolumeGrid.init rDVol rDVol.m_bbox).CopyAndInitFrom rDVol with
          m_global_shift := rDVol.m_global_shift }
        bSaveGlobalPose bSaveBBox ppm_type num_colors st c.1 c.2.1 c.2.2)
      (fun b => pGridNeedSave (slotIndex rDVol b) = 1 ∧
        CheckIfBasicSDFActive rDVol (slotIndex rDVol b) = true)
      (savedName ext sPathName pFlagX pFlagY pFlagZ rDVol bSaveGlobalPose)
      (fun b => some (SavePXM ext.sizeofT (rDVol.m_GridVolumes (slotIndex rDVol b))
        ppm_type num_colors))
      (fun st b => SavePXMGridDesire.cell_store ext sPathName pGridNeedSave pFlagX pFlagY pFlagZ
        rDVol { (BoundedVolumeGrid.init rDVol rDVol.m_bbox).CopyAndInitFrom rDVol with
          m_global_shift := rDVol.m_global_shift }
        bSaveGlobalPose bSaveBBox ppm_type num_colors rfl st b)
      (latticeCells rDVol.m_nGridRes_w rDVol.m_nGridRes_h rDVol.m_nGridRes_d) (fs, 0) n hn

/-- The number of blocks `SavePXMGridDesire` reports as saved. -/
theorem SavePXMGridDesire_count (ext : External) (sPathName : List Nat)
    (pGridNeedSave pFlagX pFlagY pFlagZ : Nat → Int) (rDVol : BoundedVolumeGrid)
    (bSaveGlobalPose bSaveBBox : Bool) (ppm_type : List Nat) (num_colors : Int)
    (fs : FileSystem) :
    (SavePXMGridDesire ext sPathName pGridNeedSave pFlagX pFlagY pFlagZ
        rDVol bSaveGlobalPose bSaveBBox ppm_type num_colors fs).2
      = savedCount pGridNeedSave rDVol := by
  unfold SavePXMGridDesire savedCount
  by_cases h0 : GetActiveGridVolNum rDVol = 0
  · rw [if_pos h0]
    symm
    rw [List.length_eq_zero, List.filter_eq_nil_iff]
    intro c hc
    simp only [decide_eq_true_eq]
    exact fun h => not_active_of_count_zero rDVol h0 c hc h.2
  · rw [if_neg h0]
    simp only
    rw [foldl_nested_eq (fun st i j k => SavePXMGridDesire.cell ext sPathName pGridNeedSave
      pFlagX pFlagY pFlagZ rDVol _ bSaveGlobalPose bSaveBBox ppm_type num_colors st i j k)]
    have h := foldl_count (fun st : FileSystem × Nat => st.2)
      (fun st c => SavePXMGridDesire.cell ext sPathName pGridNeedSave pFlagX pFlagY pFlagZ rDVol
        { (BoundedVolumeGrid.init rDVol rDVol.m_bbox).CopyAndInitFrom rDVol with
          m_global_shift := rDVol.m_global_shift }
        bSaveGlobalPose bSaveBBox ppm_type num_colors st c.1 c.2.1 c.2.2)
      (fun b => pGridNeedSave (slotIndex rDVol b) = 1 ∧
        CheckIfBasicSDFActive rDVol (slotIndex rDVol b) = true)
      (fun st b => SavePXMGridDesire.cell_count ext sPathName pGridNeedSave pFlagX pFlagY pFlagZ
        rDVol { (BoundedVolumeGrid.init rDVol rDVol.m_bbox).CopyAndInitFrom rDVol with
          m_global_shift := rDVol.m_global_shift }
        bSaveGlobalPose bSaveBBox ppm_type num_colors rfl st b)
      (latticeCells rDVol.m_nGridRes_w rDVol.m_nGridRes_h rDVol.m_nGridRes_d) (fs, 0)
    rw [h]
    simp

/-- C12: `SavePXMGridDesire` writes the block record of the lattice cell
`(i, j, k)` exactly when the slot `i + w * (j + h * k)` is active and its
mask entry is 1: in that case the file named for the cell holds the record
of the slot's block after the call, otherwise that file is as it was before
the call. No other file is touched apart from bounding-box files, the number
of records written is the number of such cells, and with zero active slots
the call returns with the file system unchanged. -/
theorem SavePXMGridDesire_selective (ext : External) (sPathName : List Nat)
    (pGridNeedSave pFlagX pFlagY pFlagZ : Nat → Int) (rDVol : BoundedVolumeGrid)
    (bSaveGlobalPose bSaveBBox : Bool) (ppm_type : List Nat) (num_colors : Int)
    (fs : FileSystem) (i j k : Nat)
    (hi : i < rDVol.m_nGridRes_w) (hj : j < rDVol.m_nGridRes_h) (hk : k < rDVol.m_nGridRes_d) :
    ((pGridNeedSave (i + rDVol.m_nGridRes_w * (j + rDVol.m_nGridRes_h * k)) = 1 ∧
        CheckIfBasicSDFActive rDVol
          (i + rDVol.m_nGridRes_w * (j + rDVol.m_nGridRes_h * k)) = true) →
      (SavePXMGridDesire ext sPathName pGridNeedSave pFlagX pFlagY pFlagZ rDVol bSaveGlobalPose
          bSaveBBox ppm_type num_colors fs).1
        (SavePXMGridDesire.fileName sPathName
          (SavePXMGridDesire.globalIndex ext pFlagX pFlagY pFlagZ rDVol i j k) ⟨i, j, k⟩
          bSaveGlobalPose)
        = some (SavePXM ext.sizeofT
            (rDVol.m_GridVolumes (i + rDVol.m_nGridRes_w * (j + rDVol.m_nGridRes_h * k)))
            ppm_type num_colors)) ∧
    (¬ (pGridNeedSave (i + rDVol.m_nGridRes_w * (j + rDVol.m_nGridRes_h * k)) = 1 ∧
        CheckIfBasicSDFActive rDVol
          (i + rDVol.m_nGridRes_w * (j + rDVol.m_nGridRes_h * k)) = true) →
      (SavePXMGridDesire ext sPathName pGridNeedSave pFlagX pFlagY pFlagZ rDVol bSaveGlobalPose
          bSaveBBox ppm_type num_colors fs).1
        (SavePXMGridDesire.fileName sPathName
          (SavePXMGridDesire.globalIndex ext pFlagX pFlagY pFlagZ rDVol i j k) ⟨i, j, k⟩
          bSaveGlobalPose)
        = fs (SavePXMGridDesire.fileName sPathName
          (SavePXMGridDesire.globalIndex ext pFlagX pFlagY pFlagZ rDVol i j k) ⟨i, j, k⟩
          bSaveGlobalPose)) ∧
    (∀ n : List Nat, ¬ (sPathName ++ [45, 66]) <+: n →
      (∀ i' j' k', i' < rDVol.m_nGridRes_w → j' < rDVol.m_nGridRes_h →
        k' < rDVol.m_nGridRes_d →
        (pGridNeedSave (i' + rDVol.m_nGridRes_w * (j' + rDVol.m_nGridRes_h * k')) = 1 ∧
          CheckIfBasicSDFActive rDVol
            (i' + rDVol.m_nGridRes_w * (j' + rDVol.m_nGridRes_h * k')) = true) →
        SavePXMGridDesire.fileName sPathName
          (SavePXMGridDesire.globalIndex ext pFlagX pFlagY pFlagZ rDVol i' j' k') ⟨i', j', k'⟩
          bSaveGlobalPose ≠ n) →
      (SavePXMGridDesire ext sPathName pGridNeedSave pFlagX pFlagY pFlagZ rDVol bSaveGlobalPose
          bSaveBBox ppm_type num_colors fs).1 n = fs n) ∧
    (SavePXMGridDesire ext sPathName pGridNeedSave pFlagX pFlagY pFlagZ rDVol bSaveGlobalPose
        bSaveBBox ppm_type num_colors fs).2 = savedCount pGridNeedSave rDVol ∧
    (GetActiveGridVolNum rDVol = 0 →
      SavePXMGridDesire ext sPathName pGridNeedSave pFlagX pFlagY pFlagZ rDVol bSaveGlobalPose
        bSaveBBox ppm_type num_colors fs = (fs, 0)) := by
  have hc : (i, j, k) ∈ latticeCells rDVol.m_nGridRes_w rDVol.m_nGridRes_h
      rDVol.m_nGridRes_d := (mem_latticeCells _ _ _ _).mpr ⟨hi, hj, hk⟩
  have hframe : ∀ n : List Nat, ¬ (sPathName ++ [45, 66]) <+: n →
      (∀ b ∈ latticeCells rDVol.m_nGridRes_w rDVol.m_nGridRes_h rDVol.m_nGridRes_d,
        (pGridNeedSave (slotIndex rDVol b) = 1 ∧
          CheckIfBasicSDFActive rDVol (slotIndex rDVol b) = true) →
        savedName ext sPathName pFlagX pFlagY pFlagZ rDVol bSaveGlobalPose b ≠ n) →
      (SavePXMGridDesire ext sPathName pGridNeedSave pFlagX pFlagY pFlagZ rDVol bSaveGlobalPose
          bSaveBBox ppm_type num_colors fs).1 n = fs n := by
    intro n hnb hn
    have h := SavePXMGridDesire_frame ext sPathName pGridNeedSave pFlagX pFlagY pFlagZ rDVol
      bSaveGlobalPose bSaveBBox ppm_type num_colors fs n hn
    simp only [blockFiles] at h
    rw [if_neg hnb, if_neg hnb] at h
    exact h
  refine ⟨fun hcond => ?_, fun hcond => ?_, fun n hnb hn => ?_, ?_, ?_⟩
  · exact SavePXMGridDesire_lookup ext sPathName pGridNeedSave pFlagX pFlagY pFlagZ rDVol
      bSaveGlobalPose bSaveBBox ppm_type num_colors fs (i, j, k) hc hcond
      (fun b _ _ hname => savedName_inj ext sPathName pFlagX pFlagY pFlagZ rDVol
        bSaveGlobalPose b (i, j, k) hname)
  · refine hframe _ (fileName_not_BB _ _ _ _) (fun b _ hb hname => ?_)
    have hbc := savedName_inj ext sPathName pFlagX pFlagY pFlagZ rDVol bSaveGlobalPose b
      (i, j, k) hname
    rw [hbc] at hb
    exact hcond hb
  · refine hframe n hnb (fun b hb hcb => ?_)
    obtain ⟨i', j', k'⟩ := b
    have hb' := (mem_latticeCells _ _ _ _).mp hb
    exact hn i' j' k' hb'.1 hb'.2.1 hb'.2.2 hcb
  · exact SavePXMGridDesire_count ext sPathName pGridNeedSave pFlagX pFlagY pFlagZ rDVol
      bSaveGlobalPose bSaveBBox ppm_type num_colors fs
  · exact SavePXMGridDesire_empty ext sPathName pGridNeedSave pFlagX pFlagY pFlagZ rDVol
      bSaveGlobalPose bSaveBBox ppm_type num_colors fs

/-- C12, at a concrete input: in the 1x1x3 window with slots 0 and 1 active
and every mask entry set, the record of the cell (0,0,1) is written to
`d/m-0-0-1` and no file is written for the inactive cell (0,0,2). -/
theorem SavePXMGridDesire_selective_witness :
    (0 < 1 ∧ 0 < 1 ∧ 1 < 3 ∧ 2 < 3) ∧
    savedFiles 1 1 3 [100, 47, 109, 45, 48, 45, 48, 45, 49]
      = some (SavePXM 1 ⟨1, 1, 1, some [9]⟩ [80, 53] 255) ∧
    savedFiles 1 1 3 [100, 47, 109, 45, 48, 45, 48, 45, 50] = none :=
  ⟨by decide,
   (SavePXMGridDesire_selective sampleExternal [100, 47, 109] (fun _ => 1) (fun _ => 0)
      (fun _ => 0) (fun _ => 0) (twoBlockWindow 1 1 3) false false [80, 53] 255 sampleFiles
      0 0 1 (by decide) (by decide) (by decide)).1 (by decide),
   (SavePXMGridDesire_selective sampleExternal [100, 47, 109] (fun _ => 1) (fun _ => 0)
      (fun _ => 0) (fun _ => 0) (twoBlockWindow 1 1 3) false false [80, 53] 255 sampleFiles
      0 0 2 (by decide) (by decide) (by decide)).2.1 (by decide)⟩

/-! ## fGetOffset -/

theorem fGetOffset_eq (v1 v2 t : ℚ) :
    fGetOffset v1 v2 t = some (if v2 = v1 then 1 / 2 else (t - v1) / (v2 - v1)) := by
  unfold fGetOffset fdiv
  by_cases h : v2 = v1
  · simp [h]
  · have h' : v2 - v1 ≠ 0 := sub_ne_zero.mpr h
    simp [h, h']

theorem fGetOffset_crossing (v1 v2 t : ℚ) (h : (v1 ≤ t ∧ t < v2) ∨ (v2 ≤ t ∧ t < v1)) :
    ∃ f : ℚ, fGetOffset v1 v2 t = some f ∧ 0 ≤ f ∧ f ≤ 1 ∧ v1 + f * (v2 - v1) = t := by
  have hne : v2 ≠ v1 := by
    rcases h with ⟨h1, h2⟩ | ⟨h1, h2⟩
    · exact ne_of_gt (lt_of_le_of_lt h1 h2)
    · exact ne_of_lt (lt_of_le_of_lt h1 h2)
  have hd : v2 - v1 ≠ 0 := sub_ne_zero.mpr hne
  refine ⟨(t - v1) / (v2 - v1), ?_, ?_, ?_, ?_⟩
  · rw [fGetOffset_eq, if_neg hne]
  · rcases h with ⟨h1, h2⟩ | ⟨h1, h2⟩
    · exact div_nonneg (by linarith) (by linarith)
    · exact div_nonneg_of_nonpos (by linarith) (by linarith)
  · rcases h with ⟨h1, h2⟩ | ⟨h1, h2⟩
    · rw [div_le_one (by linarith)]; linarith
    · rw [div_le_one_of_neg (by linarith)]; linarith
  · field_simp

theorem edgeVertex_onSegment (T : MarchingCubesTables) (p fScale : Float3)
    (afCubeValue : Nat → ℚ) (fTargetValue : ℚ) (iEdge : Nat) (hdir : T.edgeDirected iEdge)
    (h : (afCubeValue (T.a2iEdgeConnection iEdge 0) ≤ fTargetValue
          ∧ fTargetValue < afCubeValue (T.a2iEdgeConnection iEdge 1))
        ∨ (afCubeValue (T.a2iEdgeConnection iEdge 1) ≤ fTargetValue
          ∧ fTargetValue < afCubeValue (T.a2iEdgeConnection iEdge 0))) :
    ∃ P : Float3,
      vMarchCubeGrid.edgeVertex T p fScale afCubeValue fTargetValue iEdge = some P
      ∧ onSegment (vMarchCubeGrid.cornerPosition T p fScale (T.a2iEdgeConnection iEdge 0))
          (vMarchCubeGrid.cornerPosition T p fScale (T.a2iEdgeConnection iEdge 1)) P := by
  obtain ⟨f, hf, h0, h1, _⟩ := fGetOffset_crossing _ _ _ h
  refine ⟨_, by simp only [vMarchCubeGrid.edgeVertex, hf, Option.map_some']; rfl, f, h0, h1, ?_, ?_, ?_⟩
  · simp only [vMarchCubeGrid.cornerPosition, hdir 0 (by decide)]; ring
  · simp only [vMarchCubeGrid.cornerPosition, hdir 1 (by decide)]; ring
  · simp only [vMarchCubeGrid.cornerPosition, hdir 2 (by decide)]; ring

/-- C17: in exact arithmetic `fGetOffset v1 v2 t` is `1/2` when `v2 = v1` and
`(t - v1) / (v2 - v1)` otherwise; the result is always a value, so no input makes it divide
by zero. -/
theorem fGetOffset_no_division_by_zero (v1 v2 t : ℚ) :
    fGetOffset v1 v2 t = some (if v2 = v1 then 1 / 2 else (t - v1) / (v2 - v1))
    ∧ (fGetOffset v1 v2 t).isSome = true := by
  rw [fGetOffset_eq]
  exact ⟨rfl, rfl⟩

/-- C19: when the target lies between the two corner values of an edge (`v1 ≤ t < v2` or
`v2 ≤ t < v1`), the offset `f` returned by `fGetOffset` lies in `[0, 1]` and satisfies
`v1 + f * (v2 - v1) = t`, and the vertex computed for the edge lies on the segment between
the edge's two corners. -/
theorem fGetOffset_on_edge (T : MarchingCubesTables) (p fScale : Float3)
    (afCubeValue : Nat → ℚ) (fTargetValue : ℚ) (iEdge : Nat) (hdir : T.edgeDirected iEdge)
    (h : (afCubeValue (T.a2iEdgeConnection iEdge 0) ≤ fTargetValue
          ∧ fTargetValue < afCubeValue (T.a2iEdgeConnection iEdge 1))
        ∨ (afCubeValue (T.a2iEdgeConnection iEdge 1) ≤ fTargetValue
          ∧ fTargetValue < afCubeValue (T.a2iEdgeConnection iEdge 0))) :
    (∃ f : ℚ, fGetOffset (afCubeValue (T.a2iEdgeConnection iEdge 0))
          (afCubeValue (T.a2iEdgeConnection iEdge 1)) fTargetValue = some f
        ∧ 0 ≤ f ∧ f ≤ 1
        ∧ afCubeValue (T.a2iEdgeConnection iEdge 0)
            + f * (afCubeValue (T.a2iEdgeConnection iEdge 1)
                    - afCubeValue (T.a2iEdgeConnection iEdge 0)) = fTargetValue)
    ∧ ∃ P : Float3,
      vMarchCubeGrid.edgeVertex T p fScale afCubeValue fTargetValue iEdge = some P
      ∧ onSegment (vMarchCubeGrid.cornerPosition T p fScale (T.a2iEdgeConnection iEdge 0))
          (vMarchCubeGrid.cornerPosition T p fScale (T.a2iEdgeConnection iEdge 1)) P :=
  ⟨fGetOffset_crossing _ _ _ h, edgeVertex_onSegment T p fScale afCubeValue fTargetValue iEdge hdir h⟩

theorem sampleTables_edgeDirected (e : Nat) (he : e < 12) : sampleTables.edgeDirected e := by
  intro k hk
  interval_cases e <;> interval_cases k <;> simp [sampleTables]

theorem fGetOffset_on_edge_witness :
    (∃ f : ℚ, fGetOffset (sampleValues (sampleTables.a2iEdgeConnection 3 0))
          (sampleValues (sampleTables.a2iEdgeConnection 3 1)) 0 = some f
        ∧ 0 ≤ f ∧ f ≤ 1
        ∧ sampleValues (sampleTables.a2iEdgeConnection 3 0)
            + f * (sampleValues (sampleTables.a2iEdgeConnection 3 1)
                    - sampleValues (sampleTables.a2iEdgeConnection 3 0)) = 0)
    ∧ ∃ P : Float3,
      vMarchCubeGrid.edgeVertex sampleTables { x := 0, y := 0, z := 0 }
        { x := 1, y := 1, z := 1 } sampleValues 0 3 = some P
      ∧ onSegment (vMarchCubeGrid.cornerPosition sampleTables { x := 0, y := 0, z := 0 }
            { x := 1, y := 1, z := 1 } (sampleTables.a2iEdgeConnection 3 0))
          (vMarchCubeGrid.cornerPosition sampleTables { x := 0, y := 0, z := 0 }
            { x := 1, y := 1, z := 1 } (sampleTables.a2iEdgeConnection 3 1)) P :=
  fGetOffset_on_edge sampleTables { x := 0, y := 0, z := 0 } { x := 1, y := 1, z := 1 }
    sampleValues 0 3 (sampleTables_edgeDirected 3 (by decide))
    (Or.inr (by norm_num [sampleTables, sampleValues]))

/-! ## vMarchCubeGrid: the corner loop -/

theorem truncToInt_intCast (n : Int) : truncToInt (n : ℚ) = n := by
  unfold truncToInt
  split <;> simp

theorem truncToInt_intCast_add_one (n : Int) : truncToInt ((n : ℚ) + 1) = n + 1 := by
  have h := truncToInt_intCast (n + 1)
  push_cast at h
  exact h

theorem cornerStep_foldl_none (T : MarchingCubesTables) (vol : ScalarField) (x y z : Int)
    (L : List Nat) : L.foldl (vMarchCubeGrid.cornerStep T vol x y z) none = none := by
  induction L with
  | nil => rfl
  | cons a L ih => simpa [List.foldl_cons, vMarchCubeGrid.cornerStep] using ih

theorem cornerStep_foldl_fail (T : MarchingCubesTables) (vol : ScalarField) (x y z : Int) :
    ∀ (L : List Nat) (acc : Option (Nat → ℚ)),
      (∃ i ∈ L,
        vol.CheckIfVoxelExist (vMarchCubeGrid.cornerVoxel T x y z i).1
            (vMarchCubeGrid.cornerVoxel T x y z i).2.1
            (vMarchCubeGrid.cornerVoxel T x y z i).2.2 = false
        ∨ vol.value (vMarchCubeGrid.cornerVoxel T x y z i).1
            (vMarchCubeGrid.cornerVoxel T x y z i).2.1
            (vMarchCubeGrid.cornerVoxel T x y z i).2.2 = none) →
      L.foldl (vMarchCubeGrid.cornerStep T vol x y z) acc = none := by
  intro L
  induction L with
  | nil => intro acc h; obtain ⟨i, hi, _⟩ := h; cases hi
  | cons a L ih =>
    intro acc h
    rw [List.foldl_cons]
    obtain ⟨i, hi, hbad⟩ := h
    rcases List.mem_cons.mp hi with rfl | hi'
    · have hstep : vMarchCubeGrid.cornerStep T vol x y z acc i = none := by
        cases acc with
        | none => rfl
        | some g =>
          rcases hbad with hb | hb
          · simp [vMarchCubeGrid.cornerStep, hb]
          · simp [vMarchCubeGrid.cornerStep, hb]
      rw [hstep]
      exact cornerStep_foldl_none T vol x y z L
    · exact ih _ ⟨i, hi', hbad⟩

theorem cornerStep_foldl_ok (T : MarchingCubesTables) (vol : ScalarField) (x y z : Int)
    (a : Nat → ℚ) :
    ∀ (n : Nat) (g : Nat → ℚ),
      (∀ i, i < n →
        vol.CheckIfVoxelExist (vMarchCubeGrid.cornerVoxel T x y z i).1
            (vMarchCubeGrid.cornerVoxel T x y z i).2.1
            (vMarchCubeGrid.cornerVoxel T x y z i).2.2 = true
        ∧ vol.value (vMarchCubeGrid.cornerVoxel T x y z i).1
            (vMarchCubeGrid.cornerVoxel T x y z i).2.1
            (vMarchCubeGrid.cornerVoxel T x y z i).2.2 = some (a i)) →
      (List.range n).foldl (vMarchCubeGrid.cornerStep T vol x y z) (some g)
        = some (fun i => if i < n then a i else g i) := by
  intro n
  induction n with
  | zero => intro g _; simp
  | succ n ih =>
    intro g h
    rw [List.range_succ, List.foldl_append, ih g (fun i hi => h i (Nat.lt_succ_of_lt hi))]
    obtain ⟨h1, h2⟩ := h n (Nat.lt_succ_self n)
    simp only [List.foldl_cons, List.foldl_nil, vMarchCubeGrid.cornerStep, h1, h2, if_true]
    congr 1
    funext i
    unfold setAt
    by_cases hin : i = n
    · subst hin; simp
    · by_cases hlt : i < n
      · simp [hin, hlt, Nat.lt_succ_of_lt hlt]
      · have : ¬ i < n + 1 := by omega
        simp [hin, hlt, this]

theorem corners_fail (T : MarchingCubesTables) (vol : ScalarField) (x y z : Int)
    (u : LocalArrays) (iVertex : Nat) (hi : iVertex < 8)
    (h : vol.CheckIfVoxelExist (vMarchCubeGrid.cornerVoxel T x y z iVertex).1
            (vMarchCubeGrid.cornerVoxel T x y z iVertex).2.1
            (vMarchCubeGrid.cornerVoxel T x y z iVertex).2.2 = false
        ∨ vol.value (vMarchCubeGrid.cornerVoxel T x y z iVertex).1
            (vMarchCubeGrid.cornerVoxel T x y z iVertex).2.1
            (vMarchCubeGrid.cornerVoxel T x y z iVertex).2.2 = none) :
    vMarchCubeGrid.corners T vol x y z u = none :=
  cornerStep_foldl_fail T vol x y z (List.range 8) _ ⟨iVertex, List.mem_range.mpr hi, h⟩

theorem corners_ok (T : MarchingCubesTables) (vol : ScalarField) (x y z : Int)
    (u : LocalArrays) (a : Nat → ℚ)
    (h : ∀ i, i < 8 →
        vol.CheckIfVoxelExist (vMarchCubeGrid.cornerVoxel T x y z i).1
            (vMarchCubeGrid.cornerVoxel T x y z i).2.1
            (vMarchCubeGrid.cornerVoxel T x y z i).2.2 = true
        ∧ vol.value (vMarchCubeGrid.cornerVoxel T x y z i).1
            (vMarchCubeGrid.cornerVoxel T x y z i).2.1
            (vMarchCubeGrid.cornerVoxel T x y z i).2.2 = some (a i)) :
    vMarchCubeGrid.corners T vol x y z u
      = some (fun i => if i < 8 then a i else u.afCubeValue i) :=
  cornerStep_foldl_ok T vol x y z a 8 _ h

/-- C14: when one of the eight corner voxels does not exist, or the value sampled at one of
them is not finite, `vMarchCubeGrid` returns the vertex, normal, face and colour buffers
exactly as they were. -/
theorem vMarchCubeGrid_skips_unusable_cube (T : MarchingCubesTables) (vol : ScalarField)
    (volColor : ColorField) (u : LocalArrays) (x y z : Int) (b : MeshBuffers)
    (fTargetValue : ℚ) (iVertex : Nat) (hi : iVertex < 8)
    (h : vol.CheckIfVoxelExist (vMarchCubeGrid.cornerVoxel T x y z iVertex).1
            (vMarchCubeGrid.cornerVoxel T x y z iVertex).2.1
            (vMarchCubeGrid.cornerVoxel T x y z iVertex).2.2 = false
        ∨ vol.value (vMarchCubeGrid.cornerVoxel T x y z iVertex).1
            (vMarchCubeGrid.cornerVoxel T x y z iVertex).2.1
            (vMarchCubeGrid.cornerVoxel T x y z iVertex).2.2 = none) :
    vMarchCubeGrid T vol volColor u x y z b fTargetValue = b := by
  unfold vMarchCubeGrid
  simp only [corners_fail T vol x y z u iVertex hi h]

theorem sample_cornerVoxel (x y z : Int) (i : Nat) (hi : i < 8) :
    vMarchCubeGrid.cornerVoxel sampleTables x y z i
      = (x + (([0, 1, 1, 0, 0, 1, 1, 0] : List Int).getD i 0),
         y + (([0, 0, 1, 1, 0, 0, 1, 1] : List Int).getD i 0),
         z + (([0, 0, 0, 0, 1, 1, 1, 1] : List Int).getD i 0)) := by
  interval_cases i <;>
    simp only [vMarchCubeGrid.cornerVoxel, sampleTables, List.getD_cons_zero,
      List.getD_cons_succ, add_zero] <;>
    simp only [truncToInt_intCast, truncToInt_intCast_add_one]

theorem vMarchCubeGrid_skips_unusable_cube_witness :
    vMarchCubeGrid sampleTables sampleField sampleColor zeroArrays 1 0 0 emptyBuffers 0
      = emptyBuffers :=
  vMarchCubeGrid_skips_unusable_cube sampleTables sampleField sampleColor zeroArrays 1 0 0
    emptyBuffers 0 1 (by decide)
    (Or.inl (by rw [sample_cornerVoxel 1 0 0 1 (by decide)]; decide))

/-! ## vMarchCubeGrid: the pattern and the edge flags -/

theorem foldl_or_testBit (P : Nat → Prop) [DecidablePred P] :
    ∀ (n c : Nat),
      ((List.range n).foldl (fun acc i => if P i then acc ||| (1 <<< i) else acc) 0).testBit c
        = decide (c < n ∧ P c) := by
  intro n
  induction n with
  | zero => intro c; simp
  | succ n ih =>
    intro c
    rw [List.range_succ, List.foldl_append]
    simp only [List.foldl_cons, List.foldl_nil]
    by_cases hP : P n
    · rw [if_pos hP, Nat.testBit_or, ih c, Nat.one_shiftLeft, Nat.testBit_two_pow]
      by_cases hc : n = c
      · subst hc; simp [hP]
      · have h1 : (c < n + 1) ↔ (c < n) := by omega
        simp [hc, h1]
    · rw [if_neg hP, ih c]
      by_cases hc : n = c
      · subst hc; simp [hP]
      · have h1 : (c < n + 1) ↔ (c < n) := by omega
        simp [h1]

theorem and_shiftLeft_ne_zero (x e : Nat) : x &&& (1 <<< e) ≠ 0 ↔ x.testBit e = true := by
  rw [Nat.one_shiftLeft]
  constructor
  · intro h
    obtain ⟨j, hj⟩ := Nat.ne_zero_implies_bit_true h
    rw [Nat.testBit_and, Nat.testBit_two_pow] at hj
    simp only [Bool.and_eq_true, decide_eq_true_eq] at hj
    obtain ⟨h1, h2⟩ := hj
    rw [h2]; exact h1
  · intro h h0
    have h1 : (x &&& 2 ^ e).testBit e = true := by
      rw [Nat.testBit_and, Nat.testBit_two_pow_self, h]; rfl
    rw [h0, Nat.zero_testBit] at h1
    exact Bool.false_ne_true h1

theorem flagIndex_testBit (afCubeValue : Nat → ℚ) (fTargetValue : ℚ) (c : Nat) :
    (vMarchCubeGrid.flagIndex afCubeValue fTargetValue).testBit c
      = decide (c < 8 ∧ afCubeValue c ≤ fTargetValue) :=
  foldl_or_testBit (fun i => afCubeValue i ≤ fTargetValue) 8 c

theorem aiCubeEdgeFlags_testBit (T : MarchingCubesTables) (iFlagIndex e : Nat) :
    (aiCubeEdgeFlags T iFlagIndex).testBit e
      = decide (e < 12 ∧ edgeCrossed T iFlagIndex e = true) :=
  foldl_or_testBit (fun i => edgeCrossed T iFlagIndex i = true) 12 e

theorem flagIndex_all_above (afCubeValue : Nat → ℚ) (fTargetValue : ℚ)
    (h : ∀ i, i < 8 → fTargetValue < afCubeValue i) :
    vMarchCubeGrid.flagIndex afCubeValue fTargetValue = 0 := by
  apply Nat.eq_of_testBit_eq
  intro c
  rw [flagIndex_testBit, Nat.zero_testBit]
  simp only [decide_eq_false_iff_not, not_and, not_le]
  exact h c

theorem flagIndex_all_below (afCubeValue : Nat → ℚ) (fTargetValue : ℚ)
    (h : ∀ i, i < 8 → afCubeValue i ≤ fTargetValue) :
    vMarchCubeGrid.flagIndex afCubeValue fTargetValue = 255 := by
  apply Nat.eq_of_testBit_eq
  intro c
  rw [flagIndex_testBit, show (255 : Nat) = 2 ^ 8 - 1 from rfl, Nat.testBit_two_pow_sub_one]
  by_cases hc : c < 8
  · simp [hc, h c hc]
  · simp [hc]

theorem flagIndex_one_corner (afCubeValue : Nat → ℚ) (fTargetValue : ℚ) (v : Nat) (hv : v < 8)
    (hbelow : afCubeValue v ≤ fTargetValue)
    (habove : ∀ i, i < 8 → i ≠ v → fTargetValue < afCubeValue i) :
    vMarchCubeGrid.flagIndex afCubeValue fTargetValue = 1 <<< v := by
  apply Nat.eq_of_testBit_eq
  intro c
  rw [flagIndex_testBit, Nat.one_shiftLeft, Nat.testBit_two_pow]
  by_cases hc : v = c
  · subst hc; simp [hv, hbelow]
  · have hc' : c ≠ v := fun h => hc h.symm
    have : ¬ (c < 8 ∧ afCubeValue c ≤ fTargetValue) := fun ⟨h1, h2⟩ =>
      absurd h2 (not_le.mpr (habove c h1 hc'))
    simp [hc, this]

theorem aiCubeEdgeFlags_eq_zero (T : MarchingCubesTables) (iFlagIndex : Nat)
    (h : ∀ e, e < 12 → edgeCrossed T iFlagIndex e = false) :
    aiCubeEdgeFlags T iFlagIndex = 0 := by
  apply Nat.eq_of_testBit_eq
  intro e
  rw [aiCubeEdgeFlags_testBit, Nat.zero_testBit]
  simp only [decide_eq_false_iff_not, not_and]
  intro he
  rw [h e he]
  exact Bool.false_ne_true

theorem aiCubeEdgeFlags_zero (T : MarchingCubesTables) : aiCubeEdgeFlags T 0 = 0 :=
  aiCubeEdgeFlags_eq_zero T 0 (fun e _ => by simp [edgeCrossed, cornerInside])

theorem aiCubeEdgeFlags_255 (T : MarchingCubesTables) (hT : T.cornersInRange) :
    aiCubeEdgeFlags T 255 = 0 := by
  apply aiCubeEdgeFlags_eq_zero
  intro e he
  have h255 : ∀ c, c < 8 → Nat.testBit 255 c = true := by decide
  simp [edgeCrossed, cornerInside, h255 _ (hT e he).1, h255 _ (hT e he).2]

theorem vMarchCubeGrid_of_flags_zero (T : MarchingCubesTables) (vol : ScalarField)
    (volColor : ColorField) (u : LocalArrays) (x y z : Int) (b : MeshBuffers)
    (fTargetValue : ℚ) (afCubeValue : Nat → ℚ)
    (hc : vMarchCubeGrid.corners T vol x y z u = some afCubeValue)
    (h0 : aiCubeEdgeFlags T (vMarchCubeGrid.flagIndex afCubeValue fTargetValue) = 0) :
    vMarchCubeGrid T vol volColor u x y z b fTargetValue = b := by
  unfold vMarchCubeGrid
  simp only [hc, h0, if_true]

/-- C15: when all eight corners exist with finite values and the values are all above the
iso-value, or all at or below it, `vMarchCubeGrid` leaves the buffers as they were, so it
appends no vertex, normal or face; the edge-flag entries of the patterns 0 and 255 are 0. -/
theorem vMarchCubeGrid_uniform_cube (T : MarchingCubesTables) (vol : ScalarField)
    (volColor : ColorField) (u : LocalArrays) (x y z : Int) (b : MeshBuffers)
    (fTargetValue : ℚ) (a : Nat → ℚ) (hT : T.cornersInRange)
    (hc : ∀ i, i < 8 →
        vol.CheckIfVoxelExist (vMarchCubeGrid.cornerVoxel T x y z i).1
            (vMarchCubeGrid.cornerVoxel T x y z i).2.1
            (vMarchCubeGrid.cornerVoxel T x y z i).2.2 = true
        ∧ vol.value (vMarchCubeGrid.cornerVoxel T x y z i).1
            (vMarchCubeGrid.cornerVoxel T x y z i).2.1
            (vMarchCubeGrid.cornerVoxel T x y z i).2.2 = some (a i))
    (h : (∀ i, i < 8 → fTargetValue < a i) ∨ (∀ i, i < 8 → a i ≤ fTargetValue)) :
    vMarchCubeGrid T vol volColor u x y z b fTargetValue = b
    ∧ aiCubeEdgeFlags T 0 = 0 ∧ aiCubeEdgeFlags T 255 = 0 := by
  refine ⟨?_, aiCubeEdgeFlags_zero T, aiCubeEdgeFlags_255 T hT⟩
  apply vMarchCubeGrid_of_flags_zero T vol volColor u x y z b fTargetValue _
    (corners_ok T vol x y z u a hc)
  rcases h with h | h
  · rw [flagIndex_all_above _ _ (fun i hi => by simpa [hi] using h i hi)]
    exact aiCubeEdgeFlags_zero T
  · rw [flagIndex_all_below _ _ (fun i hi => by simpa [hi] using h i hi)]
    exact aiCubeEdgeFlags_255 T hT

theorem sampleTables_cornersInRange : sampleTables.cornersInRange := by
  intro e he
  interval_cases e <;> simp [sampleTables]

theorem sampleField_corners (i : Nat) (hi : i < 8) :
    sampleField.CheckIfVoxelExist (vMarchCubeGrid.cornerVoxel sampleTables 0 0 0 i).1
        (vMarchCubeGrid.cornerVoxel sampleTables 0 0 0 i).2.1
        (vMarchCubeGrid.cornerVoxel sampleTables 0 0 0 i).2.2 = true
    ∧ sampleField.value (vMarchCubeGrid.cornerVoxel sampleTables 0 0 0 i).1
        (vMarchCubeGrid.cornerVoxel sampleTables 0 0 0 i).2.1
        (vMarchCubeGrid.cornerVoxel sampleTables 0 0 0 i).2.2 = some (sampleValues i) := by
  rw [sample_cornerVoxel 0 0 0 i hi]
  interval_cases i <;> refine ⟨by decide, ?_⟩ <;>
    simp only [sampleField, sampleValues, List.getD_cons_zero, List.getD_cons_succ] <;>
    norm_num

theorem vMarchCubeGrid_uniform_cube_witness :
    vMarchCubeGrid sampleTables sampleField sampleColor zeroArrays 0 0 0 emptyBuffers (-1)
      = emptyBuffers
    ∧ aiCubeEdgeFlags sampleTables 0 = 0 ∧ aiCubeEdgeFlags sampleTables 255 = 0 :=
  vMarchCubeGrid_uniform_cube sampleTables sampleField sampleColor zeroArrays 0 0 0
    emptyBuffers (-1) sampleValues sampleTables_cornersInRange sampleField_corners
    (Or.inl (fun i hi => by interval_cases i <;> norm_num [sampleValues]))

/-! ## vMarchCubeGrid: the triangle loop -/

theorem triangle_eq (T : MarchingCubesTables) (volColor : ColorField) (iFlagIndex : Nat)
    (V : Int → Option Float3) (N : Int → Float3) (b : MeshBuffers) (m : Nat) :
    vMarchCubeGrid.triangle T volColor iFlagIndex V N (b, false) m
      = if T.a2iTriangleConnectionTable iFlagIndex (3 * m) < 0 then (b, true)
        else (vMarchCubeGrid.pushTriangle T volColor iFlagIndex V N b m, false) := by
  unfold vMarchCubeGrid.triangle
  by_cases h : T.a2iTriangleConnectionTable iFlagIndex (3 * m) < 0
  · simp [h]
  · simp only [Bool.false_eq_true, if_false, h]
    have hr : List.range 3 = [0, 1, 2] := rfl
    rw [hr]
    simp only [List.foldl_cons, List.foldl_nil, vMarchCubeGrid.corner,
      vMarchCubeGrid.pushTriangle, Nat.add_zero, List.append_assoc, List.singleton_append,
      List.nil_append, List.length_append, List.length_singleton, List.length_cons,
      List.length_nil]
    cases hv : volColor.IsValid <;> simp

theorem triangle_broke (T : MarchingCubesTables) (volColor : ColorField) (iFlagIndex : Nat)
    (V : Int → Option Float3) (N : Int → Float3) (b : MeshBuffers) (L : List Nat) :
    L.foldl (vMarchCubeGrid.triangle T volColor iFlagIndex V N) (b, true) = (b, true) := by
  induction L with
  | nil => rfl
  | cons a L ih => rw [List.foldl_cons]; simpa [vMarchCubeGrid.triangle] using ih

theorem triangle_foldl (T : MarchingCubesTables) (volColor : ColorField) (iFlagIndex : Nat)
    (V : Int → Option Float3) (N : Int → Float3) :
    ∀ (L : List Nat) (b : MeshBuffers),
      (L.foldl (vMarchCubeGrid.triangle T volColor iFlagIndex V N) (b, false)).1
        = (L.takeWhile (fun m => decide (0 ≤ T.a2iTriangleConnectionTable iFlagIndex (3 * m)))).foldl
            (vMarchCubeGrid.pushTriangle T volColor iFlagIndex V N) b := by
  intro L
  induction L with
  | nil => intro b; rfl
  | cons a L ih =>
    intro b
    rw [List.foldl_cons, triangle_eq]
    by_cases h : T.a2iTriangleConnectionTable iFlagIndex (3 * a) < 0
    · rw [if_pos h, triangle_broke, List.takeWhile_cons_of_neg (by simpa using h)]
      rfl
    · rw [if_neg h, ih, List.takeWhile_cons_of_pos (by simpa using h)]
      rfl

theorem triangles_eq (T : MarchingCubesTables) (volColor : ColorField) (iFlagIndex : Nat)
    (V : Int → Option Float3) (N : Int → Float3) (b : MeshBuffers) :
    vMarchCubeGrid.triangles T volColor iFlagIndex V N b
      = ((List.range 5).takeWhile
          (fun m => decide (0 ≤ T.a2iTriangleConnectionTable iFlagIndex (3 * m)))).foldl
            (vMarchCubeGrid.pushTriangle T volColor iFlagIndex V N) b :=
  triangle_foldl T volColor iFlagIndex V N (List.range 5) b

theorem pushTriangle_foldl (T : MarchingCubesTables) (volColor : ColorField) (iFlagIndex : Nat)
    (V : Int → Option Float3) (N : Int → Float3) (b : MeshBuffers) :
    ∀ (L : List Nat),
      ∃ (vs : List (Option Float3)) (ns : List Float3) (cs : List (ℚ × ℚ × ℚ × ℚ)),
        vs.length = 3 * L.length ∧ ns.length = 3 * L.length
        ∧ cs.length = (if volColor.IsValid = true then 3 * L.length else 0)
        ∧ (L.foldl (vMarchCubeGrid.pushTriangle T volColor iFlagIndex V N) b).verts
            = b.verts ++ vs
        ∧ (L.foldl (vMarchCubeGrid.pushTriangle T volColor iFlagIndex V N) b).norms
            = b.norms ++ ns
        ∧ (L.foldl (vMarchCubeGrid.pushTriangle T volColor iFlagIndex V N) b).faces
            = b.faces ++ newFaces b.verts.length L.length
        ∧ (L.foldl (vMarchCubeGrid.pushTriangle T volColor iFlagIndex V N) b).colors
            = b.colors ++ cs := by
  intro L
  induction L using List.reverseRecOn with
  | nil => exact ⟨[], [], [], by simp, by simp, by simp, by simp, by simp, by simp [newFaces], by simp⟩
  | append_singleton L m ih =>
    obtain ⟨vs, ns, cs, h1, h2, h3, h4, h5, h6, h7⟩ := ih
    rw [List.foldl_append]
    simp only [List.foldl_cons, List.foldl_nil, List.length_append, List.length_singleton]
    refine ⟨vs ++ [V (T.a2iTriangleConnectionTable iFlagIndex (3 * m)),
        V (T.a2iTriangleConnectionTable iFlagIndex (3 * m + 1)),
        V (T.a2iTriangleConnectionTable iFlagIndex (3 * m + 2))],
      ns ++ [N (T.a2iTriangleConnectionTable iFlagIndex (3 * m)),
        N (T.a2iTriangleConnectionTable iFlagIndex (3 * m + 1)),
        N (T.a2iTriangleConnectionTable iFlagIndex (3 * m + 2))],
      cs ++ (if volColor.IsValid = true then
        [((volColor.color (V (T.a2iTriangleConnectionTable iFlagIndex (3 * m)))).x,
          (volColor.color (V (T.a2iTriangleConnectionTable iFlagIndex (3 * m)))).y,
          (volColor.color (V (T.a2iTriangleConnectionTable iFlagIndex (3 * m)))).z, (1 : ℚ)),
         ((volColor.color (V (T.a2iTriangleConnectionTable iFlagIndex (3 * m + 1)))).x,
          (volColor.color (V (T.a2iTriangleConnectionTable iFlagIndex (3 * m + 1)))).y,
          (volColor.color (V (T.a2iTriangleConnectionTable iFlagIndex (3 * m + 1)))).z, (1 : ℚ)),
         ((volColor.color (V (T.a2iTriangleConnectionTable iFlagIndex (3 * m + 2)))).x,
          (volColor.color (V (T.a2iTriangleConnectionTable iFlagIndex (3 * m + 2)))).y,
          (volColor.color (V (T.a2iTriangleConnectionTable iFlagIndex (3 * m + 2)))).z, (1 : ℚ))]
        else []), ?_, ?_, ?_, ?_, ?_, ?_, ?_⟩
    · simp [h1]; omega
    · simp [h2]; omega
    · cases hv : volColor.IsValid
      · simpa [hv] using h3
      · simp [hv] at h3 ⊢; omega
    · simp only [vMarchCubeGrid.pushTriangle, h4, List.append_assoc]
    · simp only [vMarchCubeGrid.pushTriangle, h5, List.append_assoc]
    · simp only [vMarchCubeGrid.pushTriangle, h4, h6, List.append_assoc, newFaces,
        List.range_succ, List.map_append, List.map_cons, List.map_nil, List.length_append, h1]
    · simp only [vMarchCubeGrid.pushTriangle, h7]
      cases hv : volColor.IsValid <;> simp

/-! ## vMarchCubeGrid: what one call appends -/

theorem newFaces_length (n t : Nat) : (newFaces n t).length = t := by
  simp [newFaces]

theorem vMarchCubeGrid_cases (T : MarchingCubesTables) (vol : ScalarField)
    (volColor : ColorField) (u : LocalArrays) (x y z : Int) (b : MeshBuffers)
    (fTargetValue : ℚ) :
    vMarchCubeGrid T vol volColor u x y z b fTargetValue = b
    ∨ ∃ (i : Nat) (V : Int → Option Float3) (N : Int → Float3),
        vMarchCubeGrid T vol volColor u x y z b fTargetValue
          = vMarchCubeGrid.triangles T volColor i V N b := by
  unfold vMarchCubeGrid
  cases hc : vMarchCubeGrid.corners T vol x y z u with
  | none => exact Or.inl rfl
  | some afCubeValue =>
    simp only
    by_cases h0 : aiCubeEdgeFlags T (vMarchCubeGrid.flagIndex afCubeValue fTargetValue) = 0
    · rw [if_pos h0]; exact Or.inl rfl
    · rw [if_neg h0]; exact Or.inr ⟨_, _, _, rfl⟩

theorem vMarchCubeGrid_appends (T : MarchingCubesTables) (vol : ScalarField)
    (volColor : ColorField) (u : LocalArrays) (x y z : Int) (b : MeshBuffers)
    (fTargetValue : ℚ) :
    ∃ (t : Nat) (vs : List (Option Float3)) (ns : List Float3) (cs : List (ℚ × ℚ × ℚ × ℚ)),
      t ≤ 5 ∧ vs.length = 3 * t ∧ ns.length = 3 * t
      ∧ cs.length = (if volColor.IsValid = true then 3 * t else 0)
      ∧ (vMarchCubeGrid T vol volColor u x y z b fTargetValue).verts = b.verts ++ vs
      ∧ (vMarchCubeGrid T vol volColor u x y z b fTargetValue).norms = b.norms ++ ns
      ∧ (vMarchCubeGrid T vol volColor u x y z b fTargetValue).faces
          = b.faces ++ newFaces b.verts.length t
      ∧ (vMarchCubeGrid T vol volColor u x y z b fTargetValue).colors = b.colors ++ cs := by
  have hskip : ∃ (t : Nat) (vs : List (Option Float3)) (ns : List Float3)
      (cs : List (ℚ × ℚ × ℚ × ℚ)),
      t ≤ 5 ∧ vs.length = 3 * t ∧ ns.length = 3 * t
      ∧ cs.length = (if volColor.IsValid = true then 3 * t else 0)
      ∧ b.verts = b.verts ++ vs ∧ b.norms = b.norms ++ ns
      ∧ b.faces = b.faces ++ newFaces b.verts.length t ∧ b.colors = b.colors ++ cs :=
    ⟨0, [], [], [], by simp [newFaces]⟩
  rcases vMarchCubeGrid_cases T vol volColor u x y z b fTargetValue with h | ⟨i, V, N, h⟩
  · rw [h]; exact hskip
  · rw [h, triangles_eq]
    obtain ⟨vs, ns, cs, h'⟩ := pushTriangle_foldl T volColor i V N b
      ((List.range 5).takeWhile (fun m => decide (0 ≤ T.a2iTriangleConnectionTable i (3 * m))))
    refine ⟨_, vs, ns, cs, ?_, h'⟩
    exact le_trans (List.takeWhile_sublist _).length_le (le_of_eq (List.length_range 5))

theorem vMarchCubeGrid_keeps_aligned (T : MarchingCubesTables) (vol : ScalarField)
    (volColor : ColorField) (u : LocalArrays) (x y z : Int) (b : MeshBuffers)
    (fTargetValue : ℚ)
    (h : b.verts.length = b.norms.length ∧ b.verts.length = 3 * b.faces.length) :
    (vMarchCubeGrid T vol volColor u x y z b fTargetValue).verts.length
      = (vMarchCubeGrid T vol volColor u x y z b fTargetValue).norms.length
    ∧ (vMarchCubeGrid T vol volColor u x y z b fTargetValue).verts.length
      = 3 * (vMarchCubeGrid T vol volColor u x y z b fTargetValue).faces.length := by
  obtain ⟨t, vs, ns, cs, _, h1, h2, _, h4, h5, h6, _⟩ :=
    vMarchCubeGrid_appends T vol volColor u x y z b fTargetValue
  rw [h4, h5, h6]
  simp only [List.length_append, newFaces_length, h1, h2]
  omega

theorem runCalls_aligned :
    ∀ (calls : List MarchCall) (b : MeshBuffers),
      (b.verts.length = b.norms.length ∧ b.verts.length = 3 * b.faces.length) →
      ((runCalls calls b).verts.length = (runCalls calls b).norms.length
        ∧ (runCalls calls b).verts.length = 3 * (runCalls calls b).faces.length) := by
  intro calls
  induction calls with
  | nil => intro b h; exact h
  | cons c calls ih =>
    intro b h
    exact ih _ (vMarchCubeGrid_keeps_aligned c.T c.vol c.volColor c.u c.x c.y c.z b
      c.fTargetValue h)

/-- C18: one call of `vMarchCubeGrid` entered with `n` vertices appends `t` faces with
`t ≤ 5`, exactly `3 * t` vertices and `3 * t` normals after the earlier entries, the `m`-th
new face being `(n + 3m, n + 3m + 1, n + 3m + 2)`, and `3 * t` colours when the colour window
is valid (none otherwise); so after any sequence of calls that starts from empty buffers the
vertex count equals the normal count and three times the face count. -/
theorem vMarchCubeGrid_buffers_aligned (T : MarchingCubesTables) (vol : ScalarField)
    (volColor : ColorField) (u : LocalArrays) (x y z : Int) (b : MeshBuffers)
    (fTargetValue : ℚ) :
    (∃ (t : Nat) (vs : List (Option Float3)) (ns : List Float3) (cs : List (ℚ × ℚ × ℚ × ℚ)),
      t ≤ 5 ∧ vs.length = 3 * t ∧ ns.length = 3 * t
      ∧ cs.length = (if volColor.IsValid = true then 3 * t else 0)
      ∧ (vMarchCubeGrid T vol volColor u x y z b fTargetValue).verts = b.verts ++ vs
      ∧ (vMarchCubeGrid T vol volColor u x y z b fTargetValue).norms = b.norms ++ ns
      ∧ (vMarchCubeGrid T vol volColor u x y z b fTargetValue).faces
          = b.faces ++ (List.range t).map
              (fun m => [b.verts.length + 3 * m, b.verts.length + 3 * m + 1,
                b.verts.length + 3 * m + 2])
      ∧ (vMarchCubeGrid T vol volColor u x y z b fTargetValue).colors = b.colors ++ cs)
    ∧ ∀ calls : List MarchCall,
        (runCalls calls emptyBuffers).verts.length = (runCalls calls emptyBuffers).norms.length
        ∧ (runCalls calls emptyBuffers).verts.length
            = 3 * (runCalls calls emptyBuffers).faces.length :=
  ⟨vMarchCubeGrid_appends T vol volColor u x y z b fTargetValue,
   fun calls => runCalls_aligned calls emptyBuffers ⟨rfl, rfl⟩⟩

/-! ## vMarchCubeGrid: a single inside corner -/

theorem edges_vertex (T : MarchingCubesTables) (vol : ScalarField) (p fScale : Float3)
    (afCubeValue : Nat → ℚ) (fTargetValue : ℚ) (iEdgeFlags : Nat) (u : LocalArrays) (e : Nat)
    (he : e < 12) (hbit : iEdgeFlags &&& (1 <<< e) ≠ 0) :
    (vMarchCubeGrid.edges T vol p fScale afCubeValue fTargetValue iEdgeFlags u).1 (e : Int)
      = vMarchCubeGrid.edgeVertex T p fScale afCubeValue fTargetValue e := by
  unfold vMarchCubeGrid.edges
  apply foldl_cond_store_hit (fun st : (Int → Option Float3) × (Int → Float3) => st.1) _
    (fun iEdge : Nat => iEdgeFlags &&& (1 <<< iEdge) ≠ 0) (fun iEdge : Nat => (iEdge : Int))
    (fun iEdge => vMarchCubeGrid.edgeVertex T p fScale afCubeValue fTargetValue iEdge)
  · intro t a
    by_cases h : iEdgeFlags &&& (1 <<< a) ≠ 0
    · simp only [if_pos h]
    · simp only [if_neg h]
  · exact ⟨e, List.mem_range.mpr he, hbit, rfl⟩
  · intro a _ _ hk
    have : a = e := by exact_mod_cast hk
    rw [this]

theorem edgeCrossed_one_corner (T : MarchingCubesTables) (v e : Nat) (h : T.incident e v) :
    edgeCrossed T (1 <<< v) e = true := by
  unfold edgeCrossed cornerInside
  rw [Nat.one_shiftLeft, Nat.testBit_two_pow, Nat.testBit_two_pow]
  rcases h with ⟨h1, h2⟩ | ⟨h1, h2⟩
  · have h2' : ¬ v = T.a2iEdgeConnection e 1 := fun h => h2 h.symm
    simp [h1, h2']
  · have h1' : ¬ v = T.a2iEdgeConnection e 0 := fun h => h1 h.symm
    simp [h1', h2]

theorem one_corner_bit (T : MarchingCubesTables) (v e : Nat) (he : e < 12)
    (h : T.incident e v) : aiCubeEdgeFlags T (1 <<< v) &&& (1 <<< e) ≠ 0 := by
  rw [and_shiftLeft_ne_zero, aiCubeEdgeFlags_testBit]
  simp [he, edgeCrossed_one_corner T v e h]

theorem one_corner_vertex (T : MarchingCubesTables) (vol : ScalarField) (p fScale : Float3)
    (u : LocalArrays) (a : Nat → ℚ) (fTargetValue : ℚ) (v e : Nat)
    (hT : T.cornersInRange) (he : e < 12) (hd : T.edgeDirected e) (hinc : T.incident e v)
    (hbelow : a v ≤ fTargetValue)
    (habove : ∀ i, i < 8 → i ≠ v → fTargetValue < a i) :
    ∃ P : Float3,
      (vMarchCubeGrid.edges T vol p fScale (fun i => if i < 8 then a i else u.afCubeValue i)
          fTargetValue (aiCubeEdgeFlags T (1 <<< v)) u).1 (e : Int) = some P
      ∧ onSegment (vMarchCubeGrid.cornerPosition T p fScale (T.a2iEdgeConnection e 0))
          (vMarchCubeGrid.cornerPosition T p fScale (T.a2iEdgeConnection e 1)) P := by
  rw [edges_vertex T vol p fScale _ fTargetValue _ u e he (one_corner_bit T v e he hinc)]
  apply edgeVertex_onSegment T p fScale _ fTargetValue e hd
  obtain ⟨h0, h1⟩ := hT e he
  simp only [h0, h1, if_true]
  rcases hinc with ⟨h2, h3⟩ | ⟨h2, h3⟩
  · left
    exact ⟨by rw [h2]; exact hbelow, habove _ h1 h3⟩
  · right
    exact ⟨by rw [h3]; exact hbelow, habove _ h0 h2⟩

theorem one_corner_triangles (T : MarchingCubesTables) (volColor : ColorField)
    (V : Int → Option Float3) (N : Int → Float3) (b : MeshBuffers) (v e0 e1 e2 : Nat)
    (hrow : T.oneCornerRow v e0 e1 e2) :
    vMarchCubeGrid.triangles T volColor (1 <<< v) V N b
      = vMarchCubeGrid.pushTriangle T volColor (1 <<< v) V N b 0 := by
  obtain ⟨h0, _, _, h3, _⟩ := hrow
  rw [triangles_eq]
  have hr : List.range 5 = [0, 1, 2, 3, 4] := rfl
  rw [hr, List.takeWhile_cons_of_pos (by simp [h0]),
    List.takeWhile_cons_of_neg (by simpa using h3)]
  rfl

/-- C16: for each corner `v` of the cube, when all eight corners exist with finite values,
corner `v` is at or below the iso-value and the other seven are above it, `vMarchCubeGrid`
appends exactly one face and exactly three vertices (and three normals), and the three
vertices lie on the three distinct edges `e0, e1, e2` incident to `v` that the table row of
the pattern lists, each on the segment between the two corners of its edge. -/
theorem vMarchCubeGrid_one_corner (T : MarchingCubesTables) (vol : ScalarField)
    (volColor : ColorField) (u : LocalArrays) (x y z : Int) (b : MeshBuffers)
    (fTargetValue : ℚ) (a : Nat → ℚ) (v e0 e1 e2 : Nat) (hv : v < 8)
    (hT : T.cornersInRange) (hd : ∀ e, e < 12 → T.edgeDirected e)
    (hrow : T.oneCornerRow v e0 e1 e2)
    (hc : ∀ i, i < 8 →
        vol.CheckIfVoxelExist (vMarchCubeGrid.cornerVoxel T x y z i).1
            (vMarchCubeGrid.cornerVoxel T x y z i).2.1
            (vMarchCubeGrid.cornerVoxel T x y z i).2.2 = true
        ∧ vol.value (vMarchCubeGrid.cornerVoxel T x y z i).1
            (vMarchCubeGrid.cornerVoxel T x y z i).2.1
            (vMarchCubeGrid.cornerVoxel T x y z i).2.2 = some (a i))
    (hbelow : a v ≤ fTargetValue)
    (habove : ∀ i, i < 8 → i ≠ v → fTargetValue < a i) :
    ∃ (P0 P1 P2 : Float3) (n0 n1 n2 : Float3),
      (vMarchCubeGrid T vol volColor u x y z b fTargetValue).verts
        = b.verts ++ [some P0, some P1, some P2]
      ∧ (vMarchCubeGrid T vol volColor u x y z b fTargetValue).norms
        = b.norms ++ [n0, n1, n2]
      ∧ (vMarchCubeGrid T vol volColor u x y z b fTargetValue).faces
        = b.faces ++ [[b.verts.length, b.verts.length + 1, b.verts.length + 2]]
      ∧ onSegment
          (vMarchCubeGrid.cornerPosition T (vol.VoxelPositionInUnits x y z) vol.VoxelSizeUnits
            (T.a2iEdgeConnection e0 0))
          (vMarchCubeGrid.cornerPosition T (vol.VoxelPositionInUnits x y z) vol.VoxelSizeUnits
            (T.a2iEdgeConnection e0 1)) P0
      ∧ onSegment
          (vMarchCubeGrid.cornerPosition T (vol.VoxelPositionInUnits x y z) vol.VoxelSizeUnits
            (T.a2iEdgeConnection e1 0))
          (vMarchCubeGrid.cornerPosition T (vol.VoxelPositionInUnits x y z) vol.VoxelSizeUnits
            (T.a2iEdgeConnection e1 1)) P1
      ∧ onSegment
          (vMarchCubeGrid.cornerPosition T (vol.VoxelPositionInUnits x y z) vol.VoxelSizeUnits
            (T.a2iEdgeConnection e2 0))
          (vMarchCubeGrid.cornerPosition T (vol.VoxelPositionInUnits x y z) vol.VoxelSizeUnits
            (T.a2iEdgeConnection e2 1)) P2 := by
  have hrow' := hrow
  obtain ⟨h0, h1, h2, _, he0, he1, he2, _, _, _, hi0, hi1, hi2⟩ := hrow'
  have hflag : vMarchCubeGrid.flagIndex (fun i => if i < 8 then a i else u.afCubeValue i)
      fTargetValue = 1 <<< v :=
    flagIndex_one_corner _ _ v hv (by simpa [hv] using hbelow)
      (fun i hi hne => by simpa [hi] using habove i hi hne)
  have hne : aiCubeEdgeFlags T (1 <<< v) ≠ 0 := by
    intro h
    have := one_corner_bit T v e0 he0 hi0
    rw [h] at this
    exact this (Nat.zero_and _)
  obtain ⟨P0, hP0, hs0⟩ := one_corner_vertex T vol (vol.VoxelPositionInUnits x y z)
    vol.VoxelSizeUnits u a fTargetValue v e0 hT he0 (hd e0 he0) hi0 hbelow habove
  obtain ⟨P1, hP1, hs1⟩ := one_corner_vertex T vol (vol.VoxelPositionInUnits x y z)
    vol.VoxelSizeUnits u a fTargetValue v e1 hT he1 (hd e1 he1) hi1 hbelow habove
  obtain ⟨P2, hP2, hs2⟩ := one_corner_vertex T vol (vol.VoxelPositionInUnits x y z)
    vol.VoxelSizeUnits u a fTargetValue v e2 hT he2 (hd e2 he2) hi2 hbelow habove
  have hout : vMarchCubeGrid T vol volColor u x y z b fTargetValue
      = vMarchCubeGrid.pushTriangle T volColor (1 <<< v)
          (vMarchCubeGrid.edges T vol (vol.VoxelPositionInUnits x y z) vol.VoxelSizeUnits
            (fun i => if i < 8 then a i else u.afCubeValue i) fTargetValue
            (aiCubeEdgeFlags T (1 <<< v)) u).1
          (vMarchCubeGrid.edges T vol (vol.VoxelPositionInUnits x y z) vol.VoxelSizeUnits
            (fun i => if i < 8 then a i else u.afCubeValue i) fTargetValue
            (aiCubeEdgeFlags T (1 <<< v)) u).2 b 0 := by
    unfold vMarchCubeGrid
    simp only [corners_ok T vol x y z u a hc, hflag, if_neg hne]
    exact one_corner_triangles T volColor _ _ b v e0 e1 e2 hrow
  refine ⟨P0, P1, P2,
    (vMarchCubeGrid.edges T vol (vol.VoxelPositionInUnits x y z) vol.VoxelSizeUnits
        (fun i => if i < 8 then a i else u.afCubeValue i) fTargetValue
        (aiCubeEdgeFlags T (1 <<< v)) u).2 (e0 : Int),
    (vMarchCubeGrid.edges T vol (vol.VoxelPositionInUnits x y z) vol.VoxelSizeUnits
        (fun i => if i < 8 then a i else u.afCubeValue i) fTargetValue
        (aiCubeEdgeFlags T (1 <<< v)) u).2 (e1 : Int),
    (vMarchCubeGrid.edges T vol (vol.VoxelPositionInUnits x y z) vol.VoxelSizeUnits
        (fun i => if i < 8 then a i else u.afCubeValue i) fTargetValue
        (aiCubeEdgeFlags T (1 <<< v)) u).2 (e2 : Int), ?_, ?_, ?_, hs0, hs1, hs2⟩
  · rw [hout]
    simp only [vMarchCubeGrid.pushTriangle, Nat.mul_zero, Nat.zero_add, h0, h1, h2, hP0, hP1,
      hP2]
  · rw [hout]
    simp only [vMarchCubeGrid.pushTriangle, Nat.mul_zero, Nat.zero_add, h0, h1, h2]
  · rw [hout]
    simp only [vMarchCubeGrid.pushTriangle]

theorem sampleTables_oneCornerRow : sampleTables.oneCornerRow 0 0 8 3 := by
  unfold MarchingCubesTables.oneCornerRow MarchingCubesTables.incident
  simp [sampleTables]

theorem sampleTables_oneCornerRow_all (v : Nat) (hv : v < 8) :
    ∃ e0 e1 e2, sampleTables.oneCornerRow v e0 e1 e2 := by
  interval_cases v
  · exact ⟨0, 8, 3, by unfold MarchingCubesTables.oneCornerRow MarchingCubesTables.incident; simp [sampleTables]⟩
  · exact ⟨0, 1, 9, by unfold MarchingCubesTables.oneCornerRow MarchingCubesTables.incident; simp [sampleTables]⟩
  · exact ⟨1, 2, 10, by unfold MarchingCubesTables.oneCornerRow MarchingCubesTables.incident; simp [sampleTables]⟩
  · exact ⟨3, 11, 2, by unfold MarchingCubesTables.oneCornerRow MarchingCubesTables.incident; simp [sampleTables]⟩
  · exact ⟨4, 7, 8, by unfold MarchingCubesTables.oneCornerRow MarchingCubesTables.incident; simp [sampleTables]⟩
  · exact ⟨9, 5, 4, by unfold MarchingCubesTables.oneCornerRow MarchingCubesTables.incident; simp [sampleTables]⟩
  · exact ⟨10, 6, 5, by unfold MarchingCubesTables.oneCornerRow MarchingCubesTables.incident; simp [sampleTables]⟩
  · exact ⟨7, 6, 11, by unfold MarchingCubesTables.oneCornerRow MarchingCubesTables.incident; simp [sampleTables]⟩

theorem vMarchCubeGrid_one_corner_witness :
    ∃ (P0 P1 P2 : Float3) (n0 n1 n2 : Float3),
      (vMarchCubeGrid sampleTables sampleField noColor zeroArrays 0 0 0 emptyBuffers 0).verts
        = emptyBuffers.verts ++ [some P0, some P1, some P2]
      ∧ (vMarchCubeGrid sampleTables sampleField noColor zeroArrays 0 0 0 emptyBuffers 0).norms
        = emptyBuffers.norms ++ [n0, n1, n2]
      ∧ (vMarchCubeGrid sampleTables sampleField noColor zeroArrays 0 0 0 emptyBuffers 0).faces
        = emptyBuffers.faces ++ [[emptyBuffers.verts.length, emptyBuffers.verts.length + 1,
            emptyBuffers.verts.length + 2]]
      ∧ onSegment
          (vMarchCubeGrid.cornerPosition sampleTables (sampleField.VoxelPositionInUnits 0 0 0)
            sampleField.VoxelSizeUnits (sampleTables.a2iEdgeConnection 0 0))
          (vMarchCubeGrid.cornerPosition sampleTables (sampleField.VoxelPositionInUnits 0 0 0)
            sampleField.VoxelSizeUnits (sampleTables.a2iEdgeConnection 0 1)) P0
      ∧ onSegment
          (vMarchCubeGrid.cornerPosition sampleTables (sampleField.VoxelPositionInUnits 0 0 0)
            sampleField.VoxelSizeUnits (sampleTables.a2iEdgeConnection 8 0))
          (vMarchCubeGrid.cornerPosition sampleTables (sampleField.VoxelPositionInUnits 0 0 0)
            sampleField.VoxelSizeUnits (sampleTables.a2iEdgeConnection 8 1)) P1
      ∧ onSegment
          (vMarchCubeGrid.cornerPosition sampleTables (sampleField.VoxelPositionInUnits 0 0 0)
            sampleField.VoxelSizeUnits (sampleTables.a2iEdgeConnection 3 0))
          (vMarchCubeGrid.cornerPosition sampleTables (sampleField.VoxelPositionInUnits 0 0 0)
            sampleField.VoxelSizeUnits (sampleTables.a2iEdgeConnection 3 1)) P2 :=
  vMarchCubeGrid_one_corner sampleTables sampleField noColor zeroArrays 0 0 0 emptyBuffers 0
    sampleValues 0 0 8 3 (by decide) sampleTables_cornersInRange sampleTables_edgeDirected
    sampleTables_oneCornerRow sampleField_corners (by norm_num [sampleValues])
    (fun i hi hne => by interval_cases i <;> simp_all [sampleValues])

end roo
